import Mathlib

/-!
# Command buffer encoding, decoding and dispatch (actually-voxels)

A shallow embedding of `src/include/av/av.hh`, `src/include/av/render.hh`,
`src/src/cmdbuf.cc` and the flush loop of `src/src/opengl.cc`.

Modelling conventions
* a `uint8_t` is a `Byte` (`Fin 256`); storing a wider value into a byte is `toByte`
  (reduction modulo 256);
* a 32-bit `float` is represented by its bit pattern (a `Nat` below `2 ^ 32`) and a
  pointer by its address (a `Nat` below `2 ^ 64`); both are written to and read from
  memory in little-endian byte order, the byte order of the Linux/x86-64 platform the
  repository targets (`src/src/platform/linux`);
* a `size_t` computed from values a caller chooses (packed sizes, the attribute loop,
  the data size of `CmdUniformInt`) is reduced modulo `2 ^ 64`, and a `size_t` passed for
  a 32-bit OpenGL parameter modulo `2 ^ 32`; lengths of arrays that exist in memory, and
  offsets into them, are plain `Nat`;
* `CmdUniform` gives the writer call for `int` sizes that are not negative;
  `CmdUniformInt` gives it for all `int` sizes, with every store checked against its
  array, and agrees with `CmdUniform` where nothing wraps around;
* a shader or mesh is identified by its address, `0` is the null pointer;
* an invalid memory access (a read outside a buffer, a store outside an array, a read
  through a null pointer) is undefined behaviour in the source and is modelled as failure
  (`none`, respectively `Stop.Fault`).
-/

namespace av

/-! ## Bytes and memory primitives -/

/-- The C++ `uint8_t`. -/
abbrev Byte := Fin 256

/-- Conversion of an unsigned value to `uint8_t`: the value modulo 256. -/
def toByte (n : Nat) : Byte := ⟨n % 256, Nat.mod_lt n (by decide)⟩

/-- The `n` little-endian bytes of the object representation of `v`. -/
def storeLE : Nat → Nat → List Byte
  | 0, _ => []
  | n + 1, v => toByte v :: storeLE n (v / 256)

/-- The value whose little-endian object representation is `bs`. -/
def loadLE : List Byte → Nat
  | [] => 0
  | b :: bs => b.val + 256 * loadLE bs

/-- Sequential byte stores `dst[off] = b0; dst[off+1] = b1; ...`. -/
def writeBytes (dst : List Byte) (off : Nat) : List Byte → List Byte
  | [] => dst
  | b :: bs => writeBytes (dst.set off b) (off + 1) bs

/-- `CopyItems(dst + off, src, count)` for `T = uint8_t` (av.hh:61-64): `memcpy` of `count`
bytes from the start of `src` to `dst + off`. Reading more bytes than `src` holds is
undefined in the source; the model then copies the bytes `src` has. -/
def CopyItems (dst : List Byte) (off : Nat) (src : List Byte) (count : Nat) : List Byte :=
  writeBytes dst off (src.take count)

/-- The store `dst[i] = v` with the bound of the array observed: it is defined only for
an index inside `dst`. -/
def storeChecked (dst : List Byte) (i : Nat) (v : Byte) : Option (List Byte) :=
  if i < dst.length then some (dst.set i v) else none

/-- `CopyItems(dst + off, src, count)` with the bounds of both arrays observed: it is
defined only when `src` holds `count` bytes and the `count` bytes from `off` lie inside
`dst`. -/
def copyChecked (dst : List Byte) (off : Nat) (src : List Byte) (count : Nat) :
    Option (List Byte) :=
  if count ≤ src.length ∧ off + count ≤ dst.length then some (CopyItems dst off src count)
  else none

/-- The conversion of an `int` to `size_t`: the value modulo `2 ^ 64`. -/
def intToSize (i : Int) : Nat := (i % ((2 ^ 64 : Nat) : Int)).toNat

/-- Read of `n` consecutive bytes starting at `off`; fails when the range leaves `mem`. -/
def readBytes (mem : List Byte) (off n : Nat) : Option (List Byte) :=
  if off + n ≤ mem.length then some ((mem.drop off).take n) else none

/-- `strlen`: number of bytes before the first NUL in the memory `mem` points to. -/
def strlen (mem : List Byte) : Nat := (mem.takeWhile (fun b => b ≠ 0)).length

/-- The C string starting at offset `off` of `mem` (the bytes before the first NUL);
fails when no NUL is found before the end of `mem`. -/
def cstrAt (mem : List Byte) (off : Nat) : Option (List Byte) :=
  if (mem.drop off).all (fun b => b ≠ 0) then none
  else some ((mem.drop off).takeWhile (fun b => b ≠ 0))

/-- `OwningSpan<uint8_t>::Resize` (av.hh:137-143): a fresh array of `newCount` elements whose
first `min(Count_, newCount)` elements are copied from the old array. The remaining
elements are uninitialised in the source; they are modelled as `0`. -/
def OwningSpan.Resize (d : List Byte) (newCount : Nat) : List Byte :=
  let n := if newCount > d.length then d.length else newCount
  d.take n ++ List.replicate (newCount - n) 0

/-! ## Semantic type descriptors (av.hh) -/

/-- `enum class DataType : uint8_t` (av.hh:153-158). -/
inductive DataType
  | Float32 | Float64
  | Int8 | Int16 | Int32 | Int64
  | UInt8 | UInt16 | UInt32 | UInt64
  | Uniform_Sampler2D | Uniform_SamplerCube
  deriving DecidableEq, Repr

/-- The underlying `uint8_t` value of a `DataType` enumerator. -/
def DataType.toByte : DataType → Byte
  | .Float32 => 0x00 | .Float64 => 0x01
  | .Int8 => 0x02 | .Int16 => 0x03 | .Int32 => 0x04 | .Int64 => 0x05
  | .UInt8 => 0x06 | .UInt16 => 0x07 | .UInt32 => 0x08 | .UInt64 => 0x09
  | .Uniform_Sampler2D => 0x0A | .Uniform_SamplerCube => 0x0B

/-- `VertexAttribute::GetElementSize(DataType)` (av.hh:181-196). -/
def GetElementSize : DataType → Nat
  | .Float32 => 4
  | .Float64 => 8
  | .Int64 => 8
  | .Int32 => 4
  | .Int16 => 2
  | .Int8 => 1
  | .UInt64 => 8
  | .UInt32 => 4
  | .UInt16 => 2
  | .UInt8 => 1
  | .Uniform_Sampler2D => 4
  | .Uniform_SamplerCube => 4

/-- `struct VertexAttribute` (av.hh:178-199). -/
structure VertexAttribute where
  Type_ : DataType
  Dimension : Nat
  deriving DecidableEq, Repr

/-- `VertexAttribute::GetPackedSize` (av.hh:198): a product of two `size_t`, modulo
`2 ^ 64`. -/
def VertexAttribute.GetPackedSize (a : VertexAttribute) : Nat :=
  (GetElementSize a.Type_ * a.Dimension) % 2 ^ 64

/-- `struct VertexSpecification` (av.hh:201-216). -/
structure VertexSpecification where
  Attributes : List VertexAttribute
  IndexType : DataType
  deriving DecidableEq, Repr

/-- `VertexSpecification::PackedSize` (av.hh:202-208): the loop accumulating the packed
sizes of the attributes in order, in the `size_t` variable `total` (modulo `2 ^ 64`). -/
def VertexSpecification.PackedSize (s : VertexSpecification) : Nat :=
  s.Attributes.foldl (fun total attr => (total + attr.GetPackedSize) % 2 ^ 64) 0

/-- The implicit conversion of a `size_t` argument to a `GLuint` parameter: the low 32
bits. -/
def toGLuint (n : Nat) : Nat := n % 2 ^ 32

/-- The implicit conversion of a `size_t` argument to a `GLint` or `GLsizei` parameter (a
32-bit `int`): the low 32 bits, given as a bit pattern; a pattern from `2 ^ 31` on is a
negative value. -/
def toGLsizei (n : Nat) : Nat := n % 2 ^ 32

/-- `class Mesh` (av.hh:218-237), the portable part of a mesh object. -/
structure Mesh where
  Indexed_ : Bool
  VertexCount_ : Nat
  IndexCount_ : Nat
  VertexSpec_ : VertexSpecification
  deriving DecidableEq, Repr

/-! ## Command records (render.hh) -/

/-- `enum class CommandType : uint8_t` (render.hh:4-7). -/
inductive CommandType
  | DrawMesh | BindShader | Uniform | Clear | End
  deriving DecidableEq, Repr

/-- The underlying `uint8_t` value of a `CommandType` enumerator. -/
def CommandType.toByte : CommandType → Byte
  | .DrawMesh => 0x00 | .BindShader => 0x01 | .Uniform => 0x02 | .Clear => 0x03
  | .End => 0xFF

/-- `struct ClearColor` (render.hh:16-18); each float is its 32-bit pattern. -/
structure ClearColor where
  r : Nat
  g : Nat
  b : Nat
  a : Nat
  deriving DecidableEq, Repr

/-- `struct UniformData` (render.hh:9-14). `Type_` is the stored enum value (the reader
casts an arbitrary byte to `DataType`), `SizeX`/`SizeY` are the 4-bit bit-fields, `Name` is
a pointer into the reader's bytes (an offset) and `Data` a span over them
(offset and count). -/
structure UniformData where
  Type_ : Byte
  SizeX : Nat
  SizeY : Nat
  Name : Nat
  Data : Nat × Nat
  deriving DecidableEq, Repr

/-- Size of a pointer (`sizeof(Shader*)`, `sizeof(Mesh*)`) on the 64-bit target. -/
def sizeofPtr : Nat := 8

/-- Size of `ClearColor`: four 32-bit floats. -/
def sizeofClearColor : Nat := 16

/-! ## Command buffer writer (cmdbuf.cc:10-69) -/

/-- `class CommandBuffer` (av.hh:241-269): command count, write offset and owned bytes. -/
structure CommandBuffer where
  Count_ : Nat
  Offset_ : Nat
  Data_ : List Byte
  deriving DecidableEq, Repr

/-- A default-constructed `CommandBuffer`. -/
def CommandBuffer.empty : CommandBuffer := { Count_ := 0, Offset_ := 0, Data_ := [] }

/-- `CommandBuffer::GetData` (av.hh:264). -/
def CommandBuffer.GetData (b : CommandBuffer) : List Byte := b.Data_

/-- `CommandBuffer::CmdBindShader` (cmdbuf.cc:10-17). -/
def CommandBuffer.CmdBindShader (b : CommandBuffer) (shader : Nat) : CommandBuffer :=
  let d0 := OwningSpan.Resize b.Data_ (b.Data_.length + 1 + sizeofPtr)
  let d1 := d0.set b.Offset_ CommandType.BindShader.toByte
  let off1 := b.Offset_ + 1
  let d2 := writeBytes d1 off1 (storeLE sizeofPtr shader)
  { Count_ := b.Count_ + 1, Offset_ := off1 + sizeofPtr, Data_ := d2 }

/-- `CommandBuffer::CmdDrawMesh` (cmdbuf.cc:19-26). -/
def CommandBuffer.CmdDrawMesh (b : CommandBuffer) (mesh : Nat) : CommandBuffer :=
  let d0 := OwningSpan.Resize b.Data_ (b.Data_.length + 1 + sizeofPtr)
  let d1 := d0.set b.Offset_ CommandType.DrawMesh.toByte
  let off1 := b.Offset_ + 1
  let d2 := writeBytes d1 off1 (storeLE sizeofPtr mesh)
  { Count_ := b.Count_ + 1, Offset_ := off1 + sizeofPtr, Data_ := d2 }

/-- `CommandBuffer::CmdClear` (cmdbuf.cc:28-35). -/
def CommandBuffer.CmdClear (b : CommandBuffer) (r g bl a : Nat) : CommandBuffer :=
  let d0 := OwningSpan.Resize b.Data_ (b.Data_.length + 1 + sizeofClearColor)
  let d1 := d0.set b.Offset_ CommandType.Clear.toByte
  let off1 := b.Offset_ + 1
  let d2 := writeBytes d1 off1 (storeLE 4 r ++ storeLE 4 g ++ storeLE 4 bl ++ storeLE 4 a)
  { Count_ := b.Count_ + 1, Offset_ := off1 + sizeofClearColor, Data_ := d2 }

/-- `CommandBuffer::CmdUniform` (cmdbuf.cc:37-62) for sizes `x`, `y` that are not negative.
`name` holds the characters of the C string; the memory the `name` pointer refers to is
`name ++ [0]`. `value` is the memory the `value` pointer refers to. The call on the whole
`int` range, in `size_t` arithmetic, is `CmdUniformInt` below. -/
def CommandBuffer.CmdUniform (b : CommandBuffer) (name : List Byte) (value : List Byte)
    (dataType : DataType) (x y : Nat) : CommandBuffer :=
  let nameMem := name ++ [0]
  let nameSize := strlen nameMem + 1
  let dataSize := GetElementSize dataType * x * y
  let d0 := OwningSpan.Resize b.Data_ (b.Data_.length + 1 + 4 + nameSize + dataSize)
  let d1 := d0.set b.Offset_ CommandType.Uniform.toByte
  let off1 := b.Offset_ + 1
  let d2 := d1.set off1 dataType.toByte
  let off2 := off1 + 1
  let d3 := d2.set off2 (toByte ((x &&& 0xFF) ||| (y <<< 4)))
  let off3 := off2 + 1
  let d4 := d3.set off3 (toByte nameSize)
  let off4 := off3 + 1
  let d5 := CopyItems d4 off4 nameMem nameSize
  let off5 := off4 + nameSize
  let d6 := d5.set off5 (toByte dataSize)
  let off6 := off5 + 1
  let d7 := CopyItems d6 off6 value dataSize
  let off7 := off6 + dataSize
  { Count_ := b.Count_ + 1, Offset_ := off7, Data_ := d7 }

/-- `CommandBuffer::CmdUniform` (cmdbuf.cc:37-62) on its whole interface: `x` and `y` are
`int` and may be negative, `dataSize`, the new count and the offsets are `size_t` (modulo
`2 ^ 64`), and every store is checked against the array it goes to, as `Resize` left it;
the result is `none` when a store or a copy leaves its array. The byte stored for
`(x & 0xFF) | (y << 4)` is given by its low eight bits, `x mod 256` and `16 * y mod 256`.
For sizes that are not negative and without wrap-around `CmdUniform` above yields the same
buffer. -/
def CommandBuffer.CmdUniformInt (b : CommandBuffer) (name : List Byte) (value : List Byte)
    (dataType : DataType) (x y : Int) : Option CommandBuffer :=
  let nameMem := name ++ [0]
  let nameSize := strlen nameMem + 1
  let dataSize := (GetElementSize dataType * intToSize x % 2 ^ 64 * intToSize y) % 2 ^ 64
  let newCount := (b.Data_.length + 1 + 4 + nameSize + dataSize) % 2 ^ 64
  let d0 := OwningSpan.Resize b.Data_ newCount
  (storeChecked d0 b.Offset_ CommandType.Uniform.toByte).bind fun d1 =>
  let off1 := b.Offset_ + 1
  (storeChecked d1 off1 dataType.toByte).bind fun d2 =>
  let off2 := off1 + 1
  (storeChecked d2 off2 (toByte ((x % 256).toNat ||| (y * 16 % 256).toNat))).bind fun d3 =>
  let off3 := off2 + 1
  (storeChecked d3 off3 (toByte nameSize)).bind fun d4 =>
  let off4 := off3 + 1
  (copyChecked d4 off4 nameMem nameSize).bind fun d5 =>
  let off5 := off4 + nameSize
  (storeChecked d5 off5 (toByte dataSize)).bind fun d6 =>
  let off6 := off5 + 1
  (copyChecked d6 off6 value dataSize).bind fun d7 =>
  let off7 := (off6 + dataSize) % 2 ^ 64
  some { Count_ := b.Count_ + 1, Offset_ := off7, Data_ := d7 }

/-- `CommandBuffer::End` (cmdbuf.cc:64-69). -/
def CommandBuffer.End (b : CommandBuffer) : CommandBuffer :=
  let d0 := OwningSpan.Resize b.Data_ (b.Data_.length + 1)
  let d1 := d0.set b.Offset_ CommandType.End.toByte
  { Count_ := b.Count_ + 1, Offset_ := b.Offset_ + 1, Data_ := d1 }

/-! ## Command buffer reader (cmdbuf.cc:71-112) -/

/-- `class CommandBufferReader` (render.hh:20-33): a cursor over read-only bytes. -/
structure CommandBufferReader where
  Offset_ : Nat
  Data_ : List Byte
  deriving DecidableEq, Repr

/-- `CommandBufferReader::CommandBufferReader(Span<const uint8_t>)` (render.hh:22). -/
def CommandBufferReader.new (data : List Byte) : CommandBufferReader :=
  { Offset_ := 0, Data_ := data }

/-- `CommandBufferReader::ReadType` (cmdbuf.cc:71-73); the result is the raw tag value. -/
def CommandBufferReader.ReadType (r : CommandBufferReader) :
    Option (Byte × CommandBufferReader) :=
  match r.Data_[r.Offset_]? with
  | none => none
  | some t => some (t, { r with Offset_ := r.Offset_ + 1 })

/-- `CommandBufferReader::ReadCmdDrawMesh` (cmdbuf.cc:75-80). -/
def CommandBufferReader.ReadCmdDrawMesh (r : CommandBufferReader) :
    Option (Nat × CommandBufferReader) :=
  match readBytes r.Data_ r.Offset_ sizeofPtr with
  | none => none
  | some bs => some (loadLE bs, { r with Offset_ := r.Offset_ + 8 })

/-- `CommandBufferReader::ReadCmdBindShader` (cmdbuf.cc:82-87). -/
def CommandBufferReader.ReadCmdBindShader (r : CommandBufferReader) :
    Option (Nat × CommandBufferReader) :=
  match readBytes r.Data_ r.Offset_ sizeofPtr with
  | none => none
  | some bs => some (loadLE bs, { r with Offset_ := r.Offset_ + 8 })

/-- `CommandBufferReader::ReadCmdUniform` (cmdbuf.cc:89-105). Only the four header bytes
are read here; `Name` and `Data` are returned as pointers into the buffer. -/
def CommandBufferReader.ReadCmdUniform (r : CommandBufferReader) :
    Option (UniformData × CommandBufferReader) :=
  match r.Data_[r.Offset_]? with
  | none => none
  | some ty =>
    let off1 := r.Offset_ + 1
    match r.Data_[off1]? with
    | none => none
    | some sz =>
      let sizeX := (sz.val &&& 0xFF) % 16
      let sizeY := (sz.val >>> 4) % 16
      let off2 := off1 + 1
      match r.Data_[off2]? with
      | none => none
      | some ns =>
        let nameSize := ns.val
        let off3 := off2 + 1
        let namePtr := off3
        let off4 := off3 + nameSize
        match r.Data_[off4]? with
        | none => none
        | some ds =>
          let dataSize := ds.val
          let off5 := off4 + 1
          let dataPtr := off5
          let off6 := off5 + dataSize
          some ({ Type_ := ty, SizeX := sizeX, SizeY := sizeY, Name := namePtr,
                  Data := (dataPtr, dataSize) },
                { r with Offset_ := off6 })

/-- `CommandBufferReader::ReadCmdClear` (cmdbuf.cc:107-112). -/
def CommandBufferReader.ReadCmdClear (r : CommandBufferReader) :
    Option (ClearColor × CommandBufferReader) :=
  match readBytes r.Data_ r.Offset_ sizeofClearColor with
  | none => none
  | some bs =>
    some ({ r := loadLE (bs.take 4), g := loadLE ((bs.drop 4).take 4),
            b := loadLE ((bs.drop 8).take 4), a := loadLE ((bs.drop 12).take 4) },
          { r with Offset_ := r.Offset_ + sizeofClearColor })

/-! ## Backend dispatch (opengl.cc:186-267) -/

/-- The 32-bit floats stored in a byte sequence, four bytes each. -/
def floats : List Byte → List Nat
  | b0 :: b1 :: b2 :: b3 :: rest => loadLE [b0, b1, b2, b3] :: floats rest
  | _ => []

/-- The read `v[i]` of a `float` through the pointer `v = (float*)(mem + ptr)`. -/
def readFloat (mem : List Byte) (ptr i : Nat) : Option Nat :=
  (readBytes mem (ptr + 4 * i) 4).map loadLE

/-- The read of `n` consecutive floats starting at `mem + ptr` (what
`glProgramUniformMatrix*fv` does with its `value` argument). -/
def readFloats (mem : List Byte) (ptr n : Nat) : Option (List Nat) :=
  (readBytes mem ptr (4 * n)).map floats

/-- The uniform upload calls issued by `SetUniform_`, with their float arguments. -/
inductive Upload
  | Uniform1f (v0 : Nat)
  | Uniform2f (v0 v1 : Nat)
  | Uniform3f (v0 v1 v2 : Nat)
  | Uniform4f (v0 v1 v2 v3 : Nat)
  | UniformMatrix3fv (v : List Nat)
  | UniformMatrix4fv (v : List Nat)
  deriving DecidableEq, Repr

/-- The draw calls issued by `DrawMesh_`; `count` is the `GLsizei` argument of the call. -/
inductive DrawCall
  | DrawElements (count : Nat) (type : DataType)
  | DrawArrays (first count : Nat)
  deriving DecidableEq, Repr

/-- A backend action of the flush: the effect of one call of `Clear_`, of one upload in
`SetUniform_` (on the program of `shader`, at the location of `name`), or of one call of
`DrawMesh_` (program of `shader`, vertex array of `mesh`). Shaders and meshes are
identified by their handles; `0` is the null handle. -/
inductive Action
  | Clear (r g b a : Nat)
  | SetUniform (shader : Nat) (name : List Byte) (upload : Upload)
  | Draw (shader mesh : Nat) (call : DrawCall)
  deriving DecidableEq, Repr

/-- Abnormal ends of a dispatch step: `exit(1)`, or an invalid memory access (a read
outside the buffer, or a read through a null pointer). -/
inductive Stop
  | Exit | Fault
  deriving DecidableEq, Repr

/-- `Clear_` (opengl.cc:264-267). -/
def Clear_ (r g b a : Nat) : Action := Action.Clear r g b a

/-- `DrawMesh_` (opengl.cc:241-262); `mesh` is the object the handle `meshPtr` refers to.
`shader->Id` and `mesh->VAO` are read first, which is an invalid access through a null
handle. The counts are `size_t` values passed for the `GLsizei` parameter `count`. -/
def DrawMesh_ (mesh : Mesh) (meshPtr shader : Nat) : Except Stop Action :=
  if shader = 0 then Except.error Stop.Fault
  else if meshPtr = 0 then Except.error Stop.Fault
  else if mesh.Indexed_ then
    Except.ok (Action.Draw shader meshPtr
      (DrawCall.DrawElements (toGLsizei mesh.IndexCount_) mesh.VertexSpec_.IndexType))
  else
    Except.ok (Action.Draw shader meshPtr (DrawCall.DrawArrays 0 (toGLsizei mesh.VertexCount_)))

/-- `SetUniform_` (opengl.cc:214-239) over the reader bytes `mem` that `data.Name` and
`data.Data` point into. The first statement reads `boundShader->Id`, an invalid access when
no shader is bound (`boundShader` null), and looks the location up by `data.Name`; then
the data type is tested. The result lists the uploads performed. -/
def SetUniform_ (mem : List Byte) (data : UniformData) (boundShader : Nat) :
    Except Stop (List Action) :=
  if boundShader = 0 then Except.error Stop.Fault
  else
    match cstrAt mem data.Name with
    | none => Except.error Stop.Fault
    | some name =>
      if data.Type_ = DataType.Float32.toByte then
        let v := data.Data.1
        if data.SizeY = 1 ∨ data.SizeX = data.SizeY then
          match data.SizeX * data.SizeY with
          | 1 =>
            match readFloat mem v 0 with
            | some v0 => Except.ok [Action.SetUniform boundShader name (Upload.Uniform1f v0)]
            | none => Except.error Stop.Fault
          | 2 =>
            match readFloat mem v 0, readFloat mem v 1 with
            | some v0, some v1 =>
              Except.ok [Action.SetUniform boundShader name (Upload.Uniform2f v0 v1)]
            | _, _ => Except.error Stop.Fault
          | 3 =>
            match readFloat mem v 0, readFloat mem v 1, readFloat mem v 2 with
            | some v0, some v1, some v2 =>
              Except.ok [Action.SetUniform boundShader name (Upload.Uniform3f v0 v1 v2)]
            | _, _, _ => Except.error Stop.Fault
          | 4 =>
            match readFloat mem v 0, readFloat mem v 1, readFloat mem v 2,
              readFloat mem v 3 with
            | some v0, some v1, some v2, some v3 =>
              Except.ok [Action.SetUniform boundShader name (Upload.Uniform4f v0 v1 v2 v3)]
            | _, _, _, _ => Except.error Stop.Fault
          | 9 =>
            match readFloats mem v 9 with
            | some m =>
              Except.ok [Action.SetUniform boundShader name (Upload.UniformMatrix3fv m)]
            | none => Except.error Stop.Fault
          | 16 =>
            match readFloats mem v 16 with
            | some m =>
              Except.ok [Action.SetUniform boundShader name (Upload.UniformMatrix4fv m)]
            | none => Except.error Stop.Fault
          | _ => Except.ok []
        else Except.ok []
      else Except.error Stop.Exit

/-- How a flush ended: the loop left at `End`, the process exited, an invalid memory
access (a read outside the buffer, or through a null shader or mesh handle), or the
iteration bound of the model was used up. -/
inductive Status
  | Completed | Exited | Fault | OutOfFuel
  deriving DecidableEq, Repr

/-- Outcome of a flush: the backend actions in the order issued, how the flush ended, and
the reader cursor (`Offset_`) at that moment. -/
structure FlushResult where
  Actions : List Action
  Status : Status
  Cursor : Nat
  deriving DecidableEq, Repr

/-- The outcome `res` preceded by the actions `acts`. -/
def FlushResult.after (acts : List Action) (res : FlushResult) : FlushResult :=
  { res with Actions := acts ++ res.Actions }

/-- The `while (true)` loop of `OpenGL_Renderer::FlushCommandBuffer` (opengl.cc:189-211),
bounded by `fuel` iterations. `meshes` resolves a mesh handle to the object it points to. -/
def FlushLoop (meshes : Nat → Mesh) :
    Nat → CommandBufferReader → Nat → FlushResult
  | 0, reader, _ => { Actions := [], Status := Status.OutOfFuel, Cursor := reader.Offset_ }
  | fuel + 1, reader, boundShader =>
    match reader.ReadType with
    | none => { Actions := [], Status := Status.Fault, Cursor := reader.Offset_ }
    | some (type, r1) =>
      if type = CommandType.End.toByte then
        { Actions := [], Status := Status.Completed, Cursor := r1.Offset_ }
      else if type = CommandType.DrawMesh.toByte then
        match r1.ReadCmdDrawMesh with
        | none => { Actions := [], Status := Status.Fault, Cursor := r1.Offset_ }
        | some (mesh, r2) =>
          match DrawMesh_ (meshes mesh) mesh boundShader with
          | Except.error _ => { Actions := [], Status := Status.Fault, Cursor := r2.Offset_ }
          | Except.ok act => (FlushLoop meshes fuel r2 boundShader).after [act]
      else if type = CommandType.BindShader.toByte then
        match r1.ReadCmdBindShader with
        | none => { Actions := [], Status := Status.Fault, Cursor := r1.Offset_ }
        | some (shader, r2) => FlushLoop meshes fuel r2 shader
      else if type = CommandType.Uniform.toByte then
        match r1.ReadCmdUniform with
        | none => { Actions := [], Status := Status.Fault, Cursor := r1.Offset_ }
        | some (data, r2) =>
          match SetUniform_ r2.Data_ data boundShader with
          | Except.error Stop.Exit =>
            { Actions := [], Status := Status.Exited, Cursor := r2.Offset_ }
          | Except.error Stop.Fault =>
            { Actions := [], Status := Status.Fault, Cursor := r2.Offset_ }
          | Except.ok acts => (FlushLoop meshes fuel r2 boundShader).after acts
      else if type = CommandType.Clear.toByte then
        match r1.ReadCmdClear with
        | none => { Actions := [], Status := Status.Fault, Cursor := r1.Offset_ }
        | some (col, r2) =>
          (FlushLoop meshes fuel r2 boundShader).after [Clear_ col.r col.g col.b col.a]
      else FlushLoop meshes fuel r1 boundShader

/-- `OpenGL_Renderer::FlushCommandBuffer` (opengl.cc:186-212): a fresh reader over the
buffer bytes, no shader bound. Every iteration of the loop consumes at least one byte or
stops, so `length + 1` iterations are never used up. -/
def FlushCommandBuffer (meshes : Nat → Mesh) (cmdBuf : CommandBuffer) : FlushResult :=
  FlushLoop meshes (cmdBuf.GetData.length + 1) (CommandBufferReader.new cmdBuf.GetData) 0

/-- The loop of `FlushCommandBuffer`, as `FlushLoop`, followed through the reader it works
on: next to the outcome, the reader as the loop leaves it. -/
def FlushLoop.withReader (meshes : Nat → Mesh) :
    Nat → CommandBufferReader → Nat → FlushResult × CommandBufferReader
  | 0, reader, _ =>
    ({ Actions := [], Status := Status.OutOfFuel, Cursor := reader.Offset_ }, reader)
  | fuel + 1, reader, boundShader =>
    match reader.ReadType with
    | none => ({ Actions := [], Status := Status.Fault, Cursor := reader.Offset_ }, reader)
    | some (type, r1) =>
      if type = CommandType.End.toByte then
        ({ Actions := [], Status := Status.Completed, Cursor := r1.Offset_ }, r1)
      else if type = CommandType.DrawMesh.toByte then
        match r1.ReadCmdDrawMesh with
        | none => ({ Actions := [], Status := Status.Fault, Cursor := r1.Offset_ }, r1)
        | some (mesh, r2) =>
          match DrawMesh_ (meshes mesh) mesh boundShader with
          | Except.error _ =>
            ({ Actions := [], Status := Status.Fault, Cursor := r2.Offset_ }, r2)
          | Except.ok act =>
            let next := FlushLoop.withReader meshes fuel r2 boundShader
            (next.1.after [act], next.2)
      else if type = CommandType.BindShader.toByte then
        match r1.ReadCmdBindShader with
        | none => ({ Actions := [], Status := Status.Fault, Cursor := r1.Offset_ }, r1)
        | some (shader, r2) => FlushLoop.withReader meshes fuel r2 shader
      else if type = CommandType.Uniform.toByte then
        match r1.ReadCmdUniform with
        | none => ({ Actions := [], Status := Status.Fault, Cursor := r1.Offset_ }, r1)
        | some (data, r2) =>
          match SetUniform_ r2.Data_ data boundShader with
          | Except.error Stop.Exit =>
            ({ Actions := [], Status := Status.Exited, Cursor := r2.Offset_ }, r2)
          | Except.error Stop.Fault =>
            ({ Actions := [], Status := Status.Fault, Cursor := r2.Offset_ }, r2)
          | Except.ok acts =>
            let next := FlushLoop.withReader meshes fuel r2 boundShader
            (next.1.after acts, next.2)
      else if type = CommandType.Clear.toByte then
        match r1.ReadCmdClear with
        | none => ({ Actions := [], Status := Status.Fault, Cursor := r1.Offset_ }, r1)
        | some (col, r2) =>
          let next := FlushLoop.withReader meshes fuel r2 boundShader
          (next.1.after [Clear_ col.r col.g col.b col.a], next.2)
      else FlushLoop.withReader meshes fuel r1 boundShader

/-- `OpenGL_Renderer::FlushCommandBuffer` (opengl.cc:186-212) as a transformer of the
object `cmdBuf` refers to: next to the outcome, the buffer after the call. The function
calls `GetData` on the buffer and nothing else, so command count and write offset stay;
the reader is a view of the bytes of the buffer, which after the call are the bytes the
reader ends with. -/
def FlushCommandBuffer.withBuffer (meshes : Nat → Mesh) (cmdBuf : CommandBuffer) :
    FlushResult × CommandBuffer :=
  let run := FlushLoop.withReader meshes (cmdBuf.GetData.length + 1)
    (CommandBufferReader.new cmdBuf.GetData) 0
  (run.1, { cmdBuf with Data_ := run.2.Data_ })

/-! ## Recording and replaying lists of commands -/

/-- One call of a `Cmd*` member of `CommandBuffer` with its arguments. -/
inductive Command
  | Clear (r g b a : Nat)
  | BindShader (shader : Nat)
  | DrawMesh (mesh : Nat)
  | Uniform (name value : List Byte) (dataType : DataType) (x y : Nat)
  deriving DecidableEq, Repr

/-- The call of the `Cmd*` member that `c` stands for. -/
def CommandBuffer.record (buf : CommandBuffer) : Command → CommandBuffer
  | .Clear r g b a => buf.CmdClear r g b a
  | .BindShader shader => buf.CmdBindShader shader
  | .DrawMesh mesh => buf.CmdDrawMesh mesh
  | .Uniform name value dataType x y => buf.CmdUniform name value dataType x y

/-- The calls for `cs`, in order. -/
def CommandBuffer.recordAll (buf : CommandBuffer) (cs : List Command) : CommandBuffer :=
  cs.foldl CommandBuffer.record buf

/-- The class invariant of `CommandBuffer`: the write offset is the byte count. -/
def CommandBuffer.Inv (buf : CommandBuffer) : Prop := buf.Offset_ = buf.Data_.length

instance (buf : CommandBuffer) : Decidable buf.Inv :=
  inferInstanceAs (Decidable (buf.Offset_ = buf.Data_.length))

/-- The arguments of a `CmdUniform` call are within the limits of the record format:
sizes fit a nibble, the name is a C string (no interior NUL) of at most 254 characters, and
`value` points to exactly `GetElementSize(type) * x * y` bytes, at most 255. -/
def UniformArgsOk (name value : List Byte) (dataType : DataType) (x y : Nat) : Prop :=
  x ≤ 15 ∧ y ≤ 15 ∧ (∀ c ∈ name, c ≠ 0) ∧ name.length ≤ 254 ∧
    value.length = GetElementSize dataType * x * y ∧ GetElementSize dataType * x * y ≤ 255

instance (name value : List Byte) (dataType : DataType) (x y : Nat) :
    Decidable (UniformArgsOk name value dataType x y) :=
  inferInstanceAs (Decidable (x ≤ 15 ∧ y ≤ 15 ∧ (∀ c ∈ name, c ≠ 0) ∧ name.length ≤ 254 ∧
    value.length = GetElementSize dataType * x * y ∧ GetElementSize dataType * x * y ≤ 255))

/-- The arguments of a command are representable: floats are 32-bit patterns, handles are
64-bit addresses, uniforms are within the limits of the record format. -/
def Command.WellFormed : Command → Prop
  | .Clear r g b a => r < 2 ^ 32 ∧ g < 2 ^ 32 ∧ b < 2 ^ 32 ∧ a < 2 ^ 32
  | .BindShader shader => shader < 2 ^ 64
  | .DrawMesh mesh => mesh < 2 ^ 64
  | .Uniform name value dataType x y => UniformArgsOk name value dataType x y

instance (c : Command) : Decidable c.WellFormed :=
  match c with
  | .Clear r g b a =>
    inferInstanceAs (Decidable (r < 2 ^ 32 ∧ g < 2 ^ 32 ∧ b < 2 ^ 32 ∧ a < 2 ^ 32))
  | .BindShader shader => inferInstanceAs (Decidable (shader < 2 ^ 64))
  | .DrawMesh mesh => inferInstanceAs (Decidable (mesh < 2 ^ 64))
  | .Uniform name value dataType x y =>
    inferInstanceAs (Decidable (UniformArgsOk name value dataType x y))

/-- The shapes for which `SetUniform_` has an upload (opengl.cc:225-233). -/
def SupportedShape (x y : Nat) : Prop :=
  (y = 1 ∨ x = y) ∧ (x * y = 1 ∨ x * y = 2 ∨ x * y = 3 ∨ x * y = 4 ∨ x * y = 9 ∨ x * y = 16)

instance (x y : Nat) : Decidable (SupportedShape x y) :=
  inferInstanceAs (Decidable ((y = 1 ∨ x = y) ∧
    (x * y = 1 ∨ x * y = 2 ∨ x * y = 3 ∨ x * y = 4 ∨ x * y = 9 ∨ x * y = 16)))

/-- What a reader hands back for one record, with the `Name` pointer and the `Data` span
of a uniform resolved against the reader bytes. -/
inductive Decoded
  | Clear (col : ClearColor)
  | BindShader (shader : Nat)
  | DrawMesh (mesh : Nat)
  | Uniform (type : Byte) (sizeX sizeY : Nat) (name data : List Byte)
  deriving DecidableEq, Repr

/-- The fields a command was recorded with, in the shape the reader returns them. -/
def Command.fields : Command → Decoded
  | .Clear r g b a => Decoded.Clear { r := r, g := g, b := b, a := a }
  | .BindShader shader => Decoded.BindShader shader
  | .DrawMesh mesh => Decoded.DrawMesh mesh
  | .Uniform name value dataType x y => Decoded.Uniform dataType.toByte x y name value

/-- One `ReadType` followed by the `ReadCmd*` matching the returned tag, as in the switch
of `FlushCommandBuffer`. The result is `none` (inner) at `End`; the call fails on a read
outside the buffer and on a tag without a `ReadCmd*`. -/
def CommandBufferReader.readCommand (reader : CommandBufferReader) :
    Option (Option Decoded × CommandBufferReader) :=
  match reader.ReadType with
  | none => none
  | some (type, r1) =>
    if type = CommandType.End.toByte then some (none, r1)
    else if type = CommandType.DrawMesh.toByte then
      match r1.ReadCmdDrawMesh with
      | none => none
      | some (mesh, r2) => some (some (Decoded.DrawMesh mesh), r2)
    else if type = CommandType.BindShader.toByte then
      match r1.ReadCmdBindShader with
      | none => none
      | some (shader, r2) => some (some (Decoded.BindShader shader), r2)
    else if type = CommandType.Uniform.toByte then
      match r1.ReadCmdUniform with
      | none => none
      | some (data, r2) =>
        match cstrAt r2.Data_ data.Name, readBytes r2.Data_ data.Data.1 data.Data.2 with
        | some name, some bytes =>
          some (some (Decoded.Uniform data.Type_ data.SizeX data.SizeY name bytes), r2)
        | _, _ => none
    else if type = CommandType.Clear.toByte then
      match r1.ReadCmdClear with
      | none => none
      | some (col, r2) => some (some (Decoded.Clear col), r2)
    else none

/-- Repeated `readCommand` until `End`, at most `n` times: the records read before `End`
and the reader after the `ReadType` that returned `End`. -/
def CommandBufferReader.readAll : Nat → CommandBufferReader →
    Option (List Decoded × CommandBufferReader)
  | 0, _ => none
  | n + 1, reader =>
    match reader.readCommand with
    | none => none
    | some (none, r1) => some ([], r1)
    | some (some d, r1) =>
      match CommandBufferReader.readAll n r1 with
      | none => none
      | some (ds, r2) => some (d :: ds, r2)

/-- The upload `SetUniform_` selects for a Float32 payload `value` of shape `x` by `y`:
scalars from the first floats of the payload, or the payload as a matrix. -/
def uploadOf (value : List Byte) (x y : Nat) : Option Upload :=
  match x * y with
  | 1 => some (Upload.Uniform1f ((floats value).getD 0 0))
  | 2 => some (Upload.Uniform2f ((floats value).getD 0 0) ((floats value).getD 1 0))
  | 3 => some (Upload.Uniform3f ((floats value).getD 0 0) ((floats value).getD 1 0)
      ((floats value).getD 2 0))
  | 4 => some (Upload.Uniform4f ((floats value).getD 0 0) ((floats value).getD 1 0)
      ((floats value).getD 2 0) ((floats value).getD 3 0))
  | 9 => some (Upload.UniformMatrix3fv (floats value))
  | 16 => some (Upload.UniformMatrix4fv (floats value))
  | _ => none

/-- The uploads expected for a Float32 uniform: the upload selected by the shape when the
shape is supported, nothing otherwise. -/
def expectedUploads (shader : Nat) (name value : List Byte) (x y : Nat) : List Action :=
  if SupportedShape x y then
    match uploadOf value x y with
    | some up => [Action.SetUniform shader name up]
    | none => []
  else []

/-- The draw expected for the mesh object `m` behind the handle `mesh` while `shader` is
current: with the program of `shader` and the vertex array of `mesh`, an indexed draw of
the stored index count with the index type of the specification when `m` is indexed, and
otherwise a non-indexed draw of the stored vertex count from vertex 0. The counts are
given as the 32-bit `count` parameter carries them. -/
def expectedDraw (m : Mesh) (mesh shader : Nat) : Action :=
  Action.Draw shader mesh
    (if m.Indexed_ = true then
      DrawCall.DrawElements (m.IndexCount_ % 2 ^ 32) m.VertexSpec_.IndexType
    else DrawCall.DrawArrays 0 (m.VertexCount_ % 2 ^ 32))

/-- The backend actions expected for the commands `cs` when `shader` is the current
shader: one action per `Clear`, per `DrawMesh` and per `Uniform` of a supported shape, in
order, each `Uniform` and `DrawMesh` with the current shader; none for `BindShader`, which
only changes the current shader. -/
def expectedActions (meshes : Nat → Mesh) : Nat → List Command → List Action
  | _, [] => []
  | shader, .Clear r g b a :: cs => Action.Clear r g b a :: expectedActions meshes shader cs
  | _, .BindShader s :: cs => expectedActions meshes s cs
  | shader, .DrawMesh mesh :: cs =>
    expectedDraw (meshes mesh) mesh shader :: expectedActions meshes shader cs
  | shader, .Uniform name value _ x y :: cs =>
    expectedUploads shader name value x y ++ expectedActions meshes shader cs

/-- The handles the commands `cs` are dispatched with are not null when `shader` is the
current shader at their start: every `Uniform` and every `DrawMesh` comes while a non-null
shader is current (after a `BindShader` of a non-null shader, unless `shader` is one), and
every `DrawMesh` names a non-null mesh. -/
def HandlesBound : Nat → List Command → Prop
  | _, [] => True
  | shader, .Clear _ _ _ _ :: cs => HandlesBound shader cs
  | _, .BindShader s :: cs => HandlesBound s cs
  | shader, .DrawMesh mesh :: cs => shader ≠ 0 ∧ mesh ≠ 0 ∧ HandlesBound shader cs
  | shader, .Uniform _ _ _ _ _ :: cs => shader ≠ 0 ∧ HandlesBound shader cs

instance HandlesBound.decidable : (shader : Nat) → (cs : List Command) →
    Decidable (HandlesBound shader cs)
  | _, [] => inferInstanceAs (Decidable True)
  | shader, .Clear _ _ _ _ :: cs => HandlesBound.decidable shader cs
  | _, .BindShader s :: cs => HandlesBound.decidable s cs
  | shader, .DrawMesh mesh :: cs =>
    have := HandlesBound.decidable shader cs
    inferInstanceAs (Decidable (shader ≠ 0 ∧ mesh ≠ 0 ∧ HandlesBound shader cs))
  | shader, .Uniform _ _ _ _ _ :: cs =>
    have := HandlesBound.decidable shader cs
    inferInstanceAs (Decidable (shader ≠ 0 ∧ HandlesBound shader cs))

/-- Whether a command is a `BindShader`. -/
def Command.isBindShader : Command → Bool
  | .BindShader _ => true
  | _ => false

/-- The commands a flush runs through: well-formed, and every uniform is Float32 (the
only data type `SetUniform_` accepts). -/
def Flushable : Command → Prop
  | .Uniform name value dataType x y =>
    UniformArgsOk name value dataType x y ∧ dataType = DataType.Float32
  | c => c.WellFormed

instance (c : Command) : Decidable (Flushable c) :=
  match c with
  | .Clear r g b a => inferInstanceAs (Decidable (Command.Clear r g b a).WellFormed)
  | .BindShader shader => inferInstanceAs (Decidable (Command.BindShader shader).WellFormed)
  | .DrawMesh mesh => inferInstanceAs (Decidable (Command.DrawMesh mesh).WellFormed)
  | .Uniform name value dataType x y =>
    inferInstanceAs (Decidable (UniformArgsOk name value dataType x y ∧
      dataType = DataType.Float32))

/-- The commands are ready for dispatch: well-formed, and every uniform is Float32 with a
shape `SetUniform_` supports. -/
def Dispatchable : Command → Prop
  | .Uniform name value dataType x y =>
    UniformArgsOk name value dataType x y ∧ dataType = DataType.Float32 ∧ SupportedShape x y
  | c => c.WellFormed

instance (c : Command) : Decidable (Dispatchable c) :=
  match c with
  | .Clear r g b a => inferInstanceAs (Decidable (Command.Clear r g b a).WellFormed)
  | .BindShader shader => inferInstanceAs (Decidable (Command.BindShader shader).WellFormed)
  | .DrawMesh mesh => inferInstanceAs (Decidable (Command.DrawMesh mesh).WellFormed)
  | .Uniform name value dataType x y =>
    inferInstanceAs (Decidable (UniformArgsOk name value dataType x y ∧
      dataType = DataType.Float32 ∧ SupportedShape x y))

/-- The record for `c` in the layout of the format table (spec section 4.1): the tag byte,
then for `Clear` four packed floats, for `BindShader`/`DrawMesh` one handle, and for
`Uniform` the data-type byte, the packed sizes (`x` low nibble, `y` high nibble), the
name length including the terminator, the name with its terminator, the data length and
the data. `record_eq` relates the writer to this layout. -/
def Command.encode : Command → List Byte
  | .Clear r g b a =>
    CommandType.Clear.toByte :: (storeLE 4 r ++ storeLE 4 g ++ storeLE 4 b ++ storeLE 4 a)
  | .BindShader shader => CommandType.BindShader.toByte :: storeLE 8 shader
  | .DrawMesh mesh => CommandType.DrawMesh.toByte :: storeLE 8 mesh
  | .Uniform name value dataType x y =>
    CommandType.Uniform.toByte :: dataType.toByte :: toByte (x + 16 * y) ::
      toByte (name.length + 1) :: (name ++ [0] ++ toByte value.length :: value)

/-- The records for `cs`, one after the other. -/
def encodeAll : List Command → List Byte
  | [] => []
  | c :: cs => c.encode ++ encodeAll cs

/-! ## Mesh objects and mesh creation (av.hh:218-237, opengl.cc:139-166) -/

/-- `Mesh::IsIndexed` (av.hh:233). -/
def Mesh.IsIndexed (m : Mesh) : Bool := m.Indexed_

/-- `Mesh::GetVertexCount` (av.hh:234). -/
def Mesh.GetVertexCount (m : Mesh) : Nat := m.VertexCount_

/-- `Mesh::GetIndexCount` (av.hh:235). -/
def Mesh.GetIndexCount (m : Mesh) : Nat := m.IndexCount_

/-- `Mesh::GetVertexSpec` (av.hh:236). -/
def Mesh.GetVertexSpec (m : Mesh) : VertexSpecification := m.VertexSpec_

/-- `Span<uint8_t>::GetByteSize` (av.hh:79): `Count_ * sizeof(uint8_t)`. -/
def GetByteSize (span : List Byte) : Nat := span.length * 1

/-- The indexed overload `OpenGL_Renderer::CreateMesh(vertexData, indexData, spec)`
(opengl.cc:139-152): the mesh object it constructs. The integer division by
`spec.PackedSize()` is undefined for a packed size of 0, modelled as `none`. The GPU
set-up of `Create_` does not change the fields of the mesh. -/
def OpenGL_Renderer.CreateMeshIndexed (vertexData indexData : List Byte)
    (spec : VertexSpecification) : Option Mesh :=
  if spec.PackedSize = 0 then none
  else some
    { Indexed_ := true,
      VertexCount_ := GetByteSize vertexData / spec.PackedSize,
      IndexCount_ := GetByteSize indexData,
      VertexSpec_ := spec }

/-- The non-indexed overload `OpenGL_Renderer::CreateMesh(vertexData, spec)`
(opengl.cc:154-166): the mesh object it constructs; `none` as for the indexed overload. -/
def OpenGL_Renderer.CreateMesh (vertexData : List Byte) (spec : VertexSpecification) :
    Option Mesh :=
  if spec.PackedSize = 0 then none
  else some
    { Indexed_ := false,
      VertexCount_ := GetByteSize vertexData / spec.PackedSize,
      IndexCount_ := 0,
      VertexSpec_ := spec }

/-! ## GPU set-up of a mesh (opengl.cc:95-123) -/

/-- The two buffer objects of an `OpenGL_Mesh`. -/
inductive BufferName
  | VBO | EBO
  deriving DecidableEq, Repr

/-- The OpenGL calls of `OpenGL_Mesh::Create_`, on the vertex array `VAO` of the mesh. A
`GLenum` data type is given by the `DataType` that `DataTypeToGLenum_` maps to it. -/
inductive GLCall
  | CreateVertexArrays
  | CreateBuffers (buffer : BufferName)
  | VertexArrayVertexBuffer (bindingindex offset stride : Nat)
  | VertexArrayElementBuffer
  | VertexArrayAttribFormat (attribindex size : Nat) (type : DataType) (normalized : Bool)
      (relativeoffset : Nat)
  | VertexArrayAttribBinding (attribindex bindingindex : Nat)
  | EnableVertexArrayAttrib (index : Nat)
  | NamedBufferStorage (buffer : BufferName) (size : Nat) (data : List Byte)
  deriving DecidableEq, Repr

/-- The attribute loop of `OpenGL_Mesh::Create_` (opengl.cc:103-119) from the state
`index`, `offset`: the calls issued, and `index` and `offset` after the loop. Both
variables are `size_t` (arithmetic modulo `2 ^ 64`); the calls take `index` as `GLuint`,
the dimension as `GLint` and `offset` as `GLuint`. -/
def OpenGL_Mesh.attribLoop : List VertexAttribute → Nat → Nat → List GLCall × Nat × Nat
  | [], index, offset => ([], index, offset)
  | attr :: rest, index, offset =>
    let tail := OpenGL_Mesh.attribLoop rest ((index + 1) % 2 ^ 64)
      ((offset + attr.GetPackedSize) % 2 ^ 64)
    (GLCall.VertexArrayAttribFormat (toGLuint index) (toGLsizei attr.Dimension) attr.Type_
        false (toGLuint offset) ::
      GLCall.VertexArrayAttribBinding (toGLuint index) 0 ::
      GLCall.EnableVertexArrayAttrib (toGLuint index) :: tail.1, tail.2)

/-- The layout the attribute loop is meant to set up, in unbounded arithmetic: the
attributes in insertion order at consecutive indices from `index`, each with its dimension
as component count and with the sum of the packed sizes before it (from `offset`) as byte
offset; and the index and offset after the last attribute. -/
def OpenGL_Mesh.layoutInOrder : List VertexAttribute → Nat → Nat → List GLCall × Nat × Nat
  | [], index, offset => ([], index, offset)
  | attr :: rest, index, offset =>
    let tail := OpenGL_Mesh.layoutInOrder rest (index + 1)
      (offset + GetElementSize attr.Type_ * attr.Dimension)
    (GLCall.VertexArrayAttribFormat index attr.Dimension attr.Type_ false offset ::
      GLCall.VertexArrayAttribBinding index 0 ::
      GLCall.EnableVertexArrayAttrib index :: tail.1, tail.2)

/-- `OpenGL_Mesh::Create_` (opengl.cc:95-123): the OpenGL calls in the order issued. The
stride is passed as `GLsizei`. -/
def OpenGL_Mesh.Create_ (mesh : Mesh) (vertexData indexData : List Byte) : List GLCall :=
  [GLCall.CreateVertexArrays, GLCall.CreateBuffers BufferName.VBO] ++
  (if mesh.IsIndexed then [GLCall.CreateBuffers BufferName.EBO] else []) ++
  [GLCall.VertexArrayVertexBuffer 0 0 (toGLsizei mesh.GetVertexSpec.PackedSize)] ++
  (if mesh.IsIndexed then [GLCall.VertexArrayElementBuffer] else []) ++
  (OpenGL_Mesh.attribLoop mesh.GetVertexSpec.Attributes 0 0).1 ++
  [GLCall.NamedBufferStorage BufferName.VBO (GetByteSize vertexData) vertexData] ++
  (if mesh.IsIndexed then
    [GLCall.NamedBufferStorage BufferName.EBO (GetByteSize indexData) indexData] else [])

/-! ## Reachable writer states and the expected outcome of a flush -/

/-- The states of a `CommandBuffer` reachable from a default-constructed one by calls of
its public writer members, with any arguments for which the stores of the call are
defined (a `CmdUniform` call whose stores leave the resized array has no resulting
state). -/
inductive CommandBuffer.Reachable : CommandBuffer → Prop
  | empty : CommandBuffer.Reachable CommandBuffer.empty
  | CmdClear (buf : CommandBuffer) (r g b a : Nat) :
      CommandBuffer.Reachable buf → CommandBuffer.Reachable (buf.CmdClear r g b a)
  | CmdBindShader (buf : CommandBuffer) (shader : Nat) :
      CommandBuffer.Reachable buf → CommandBuffer.Reachable (buf.CmdBindShader shader)
  | CmdDrawMesh (buf : CommandBuffer) (mesh : Nat) :
      CommandBuffer.Reachable buf → CommandBuffer.Reachable (buf.CmdDrawMesh mesh)
  | CmdUniform (buf next : CommandBuffer) (name value : List Byte) (dataType : DataType)
      (x y : Int) :
      CommandBuffer.Reachable buf → buf.CmdUniformInt name value dataType x y = some next →
      CommandBuffer.Reachable next
  | End (buf : CommandBuffer) : CommandBuffer.Reachable buf → CommandBuffer.Reachable buf.End

/-- The outcome expected of the flush loop started with `shader` bound at offset `o`, on
the records of the well-formed commands `cs` followed by an `End` tag: the actions of
`expectedActions` up to the first `DrawMesh` or `Uniform` with a null handle, where the
access is invalid, or the first uniform that is not Float32, where the process exits, or
else completion with the cursor just after the `End` tag. -/
def expectedFlush (meshes : Nat → Mesh) : Nat → Nat → List Command → FlushResult
  | _, o, [] => { Actions := [], Status := Status.Completed, Cursor := o + 1 }
  | shader, o, .Clear r g b a :: cs =>
    (expectedFlush meshes shader (o + 17) cs).after [Action.Clear r g b a]
  | _, o, .BindShader s :: cs => expectedFlush meshes s (o + 9) cs
  | shader, o, .DrawMesh mesh :: cs =>
    if shader = 0 ∨ mesh = 0 then
      { Actions := [], Status := Status.Fault, Cursor := o + 9 }
    else
      (expectedFlush meshes shader (o + 9) cs).after [expectedDraw (meshes mesh) mesh shader]
  | shader, o, .Uniform name value dataType x y :: cs =>
    if shader = 0 then
      { Actions := [], Status := Status.Fault,
        Cursor := o + (5 + (name.length + 1) + value.length) }
    else if dataType = DataType.Float32 then
      (expectedFlush meshes shader (o + (5 + (name.length + 1) + value.length)) cs).after
        (expectedUploads shader name value x y)
    else
      { Actions := [], Status := Status.Exited,
        Cursor := o + (5 + (name.length + 1) + value.length) }

/-! ## Sample data (main.cc:279-285) -/

/-- The characters of the uniform name `"uTransform"`. -/
def uTransform : List Byte := [117, 84, 114, 97, 110, 115, 102, 111, 114, 109]

/-- The 64 bytes of a 4x4 Float32 matrix (the identity: 1.0f is `0x3F800000`). -/
def sampleMatrix : List Byte :=
  [0, 0, 128, 63, 0, 0, 0, 0, 0, 0, 0, 0, 0, 0, 0, 0,
   0, 0, 0, 0, 0, 0, 128, 63, 0, 0, 0, 0, 0, 0, 0, 0,
   0, 0, 0, 0, 0, 0, 0, 0, 0, 0, 128, 63, 0, 0, 0, 0,
   0, 0, 0, 0, 0, 0, 0, 0, 0, 0, 0, 0, 0, 0, 128, 63]

/-- The frame recorded by `main`: `CmdClear(0.2f, 0.1, 0.3f, 1.0f)`, `CmdBindShader`,
`CmdUniform("uTransform", mat, Float32, 4, 4)`, `CmdDrawMesh`, for a shader at address
`shader` and a mesh at address `mesh`. The floats are given by their bit patterns. -/
def sampleFrame (shader mesh : Nat) : List Command :=
  [Command.Clear 0x3E4CCCCD 0x3DCCCCCD 0x3E99999A 0x3F800000,
   Command.BindShader shader,
   Command.Uniform uTransform sampleMatrix DataType.Float32 4 4,
   Command.DrawMesh mesh]

/-- The mesh object `CreateMeshFromObjFile` creates (main.cc:95-146): not indexed, six
vertices of three Float32 attributes. -/
def sampleMesh : Mesh :=
  { Indexed_ := false, VertexCount_ := 6, IndexCount_ := 0,
    VertexSpec_ :=
      { Attributes := [{ Type_ := DataType.Float32, Dimension := 3 },
          { Type_ := DataType.Float32, Dimension := 3 },
          { Type_ := DataType.Float32, Dimension := 2 }],
        IndexType := DataType.Int16 } }

/-- A heap in which every mesh handle refers to `sampleMesh`. -/
def sampleMeshes : Nat → Mesh := fun _ => sampleMesh

/-- The bytes of a buffer holding the 4x4 uniform of `main` followed by `End`. -/
def sampleUniformBytes : List Byte :=
  (CommandBuffer.empty.CmdUniform uTransform sampleMatrix DataType.Float32 4 4).End.GetData

/-- The bytes of a buffer holding an Int32 uniform named `"uTransform"` followed by `End`. -/
def sampleIntUniformBytes : List Byte :=
  (CommandBuffer.empty.CmdUniform uTransform [1, 0, 0, 0] DataType.Int32 1 1).End.GetData

/-- The bytes of a buffer holding a 3x1 Float32 uniform (1.0f, 2.0f, 3.0f) named
`"uTransform"` followed by `End`. -/
def sampleVec3Bytes : List Byte :=
  (CommandBuffer.empty.CmdUniform uTransform [0, 0, 128, 63, 0, 0, 0, 64, 0, 0, 64, 64]
    DataType.Float32 3 1).End.GetData

/-! ## Memory lemmas -/

theorem toByte_val (n : Nat) : (toByte n).val = n % 256 := rfl

theorem toByte_val_of_lt {n : Nat} (h : n < 256) : (toByte n).val = n := by
  simp [toByte_val, Nat.mod_eq_of_lt h]

theorem storeLE_length (n v : Nat) : (storeLE n v).length = n := by
  induction n generalizing v with
  | zero => rfl
  | succ k ih => simp [storeLE, ih]

theorem loadLE_storeLE (n v : Nat) : loadLE (storeLE n v) = v % 256 ^ n := by
  induction n generalizing v with
  | zero => simp [storeLE, loadLE, Nat.mod_one]
  | succ k ih =>
    simp only [storeLE, loadLE, ih, toByte_val]
    rw [pow_succ', Nat.mod_mul]

theorem resize_grow (d : List Byte) (k : Nat) :
    OwningSpan.Resize d (d.length + k) = d ++ List.replicate k 0 := by
  unfold OwningSpan.Resize
  by_cases hk : k = 0
  · subst hk; simp
  · have : d.length + k > d.length := by omega
    simp [this]

theorem set_append_at (pre post : List Byte) (a v : Byte) (i : Nat) (hi : i = pre.length) :
    (pre ++ a :: post).set i v = pre ++ v :: post := by
  subst hi
  induction pre with
  | nil => rfl
  | cons p ps ih => simp [List.set, ih]

theorem writeBytes_append (bs : List Byte) :
    ∀ (pre mid post : List Byte) (i : Nat), i = pre.length → mid.length = bs.length →
      writeBytes (pre ++ mid ++ post) i bs = pre ++ bs ++ post := by
  induction bs with
  | nil =>
    intro pre mid post i _ hm
    have : mid = [] := List.length_eq_zero.mp hm
    subst this
    simp [writeBytes]
  | cons b bs ih =>
    intro pre mid post i hi hm
    cases mid with
    | nil => simp at hm
    | cons m mid =>
      simp only [writeBytes]
      have h1 : (pre ++ m :: mid ++ post).set i b = (pre ++ [b]) ++ mid ++ post := by
        have := set_append_at pre (mid ++ post) m b i hi
        simpa using this
      rw [h1, ih (pre ++ [b]) mid post (i + 1) (by simp [hi]) (by simpa using hm)]
      simp

theorem readBytes_append (pre bs post : List Byte) (i n : Nat) (hi : i = pre.length)
    (hn : n = bs.length) : readBytes (pre ++ bs ++ post) i n = some bs := by
  subst hi hn
  unfold readBytes
  have : pre.length + bs.length ≤ (pre ++ bs ++ post).length := by simp
  simp [this]

theorem getElem?_append_at (pre post : List Byte) (a : Byte) (i : Nat) (hi : i = pre.length) :
    (pre ++ a :: post)[i]? = some a := by
  subst hi
  rw [List.getElem?_append_right (Nat.le_refl _)]
  simp

theorem takeWhile_append_nul (name post : List Byte) (h : ∀ c ∈ name, c ≠ 0) :
    (name ++ 0 :: post).takeWhile (fun b => b ≠ 0) = name := by
  induction name with
  | nil => simp [List.takeWhile]
  | cons c cs ih =>
    have hc : c ≠ 0 := h c (by simp)
    have := ih (fun d hd => h d (by simp [hd]))
    simp only [List.cons_append, List.takeWhile_cons, hc, ne_eq, not_false_eq_true,
      decide_True, ite_true]
    simpa using this

theorem strlen_append_nul (name : List Byte) (h : ∀ c ∈ name, c ≠ 0) :
    strlen (name ++ [0]) = name.length := by
  unfold strlen
  rw [takeWhile_append_nul name [] h]

theorem cstrAt_append (pre name post : List Byte) (i : Nat) (hi : i = pre.length)
    (h : ∀ c ∈ name, c ≠ 0) : cstrAt (pre ++ name ++ 0 :: post) i = some name := by
  subst hi
  unfold cstrAt
  have hd : (pre ++ name ++ 0 :: post).drop pre.length = name ++ 0 :: post := by simp
  rw [hd, takeWhile_append_nul name post h]
  simp
/-! ## The writer appends records -/

theorem write_record (d : List Byte) (tag : Byte) (payload : List Byte) (n : Nat)
    (hn : payload.length = n) :
    writeBytes ((OwningSpan.Resize d (d.length + 1 + n)).set d.length tag) (d.length + 1)
      payload = d ++ tag :: payload := by
  rw [Nat.add_assoc, resize_grow, Nat.add_comm 1 n, List.replicate_succ,
    set_append_at d _ 0 tag d.length rfl]
  have h := writeBytes_append payload (d ++ [tag]) (List.replicate n 0) [] (d.length + 1)
    (by simp) (by simp [hn])
  simpa using h

theorem CmdBindShader_eq (buf : CommandBuffer) (h : buf.Inv) (shader : Nat) :
    buf.CmdBindShader shader =
      { Count_ := buf.Count_ + 1, Offset_ := buf.Data_.length + 9,
        Data_ := buf.Data_ ++ CommandType.BindShader.toByte :: storeLE 8 shader } := by
  unfold CommandBuffer.Inv at h
  unfold CommandBuffer.CmdBindShader
  simp only [h, sizeofPtr]
  rw [write_record _ _ _ 8 (storeLE_length 8 shader)]

theorem CmdDrawMesh_eq (buf : CommandBuffer) (h : buf.Inv) (mesh : Nat) :
    buf.CmdDrawMesh mesh =
      { Count_ := buf.Count_ + 1, Offset_ := buf.Data_.length + 9,
        Data_ := buf.Data_ ++ CommandType.DrawMesh.toByte :: storeLE 8 mesh } := by
  unfold CommandBuffer.Inv at h
  unfold CommandBuffer.CmdDrawMesh
  simp only [h, sizeofPtr]
  rw [write_record _ _ _ 8 (storeLE_length 8 mesh)]

theorem CmdClear_eq (buf : CommandBuffer) (h : buf.Inv) (r g b a : Nat) :
    buf.CmdClear r g b a =
      { Count_ := buf.Count_ + 1, Offset_ := buf.Data_.length + 17,
        Data_ := buf.Data_ ++ CommandType.Clear.toByte ::
          (storeLE 4 r ++ storeLE 4 g ++ storeLE 4 b ++ storeLE 4 a) } := by
  unfold CommandBuffer.Inv at h
  unfold CommandBuffer.CmdClear
  simp only [h, sizeofClearColor]
  rw [write_record _ _ _ 16 (by simp [storeLE_length])]

theorem End_eq (buf : CommandBuffer) (h : buf.Inv) :
    buf.End =
      { Count_ := buf.Count_ + 1, Offset_ := buf.Data_.length + 1,
        Data_ := buf.Data_ ++ [CommandType.End.toByte] } := by
  unfold CommandBuffer.Inv at h
  unfold CommandBuffer.End
  simp only [h]
  rw [resize_grow, List.replicate_one, set_append_at buf.Data_ [] 0 _ _ rfl]

theorem strlen_append_nul_le (name : List Byte) : strlen (name ++ [0]) ≤ name.length := by
  unfold strlen
  induction name with
  | nil => simp [List.takeWhile]
  | cons c cs ih =>
    by_cases hc : c = 0
    · simp [List.takeWhile, hc]
    · simp only [List.cons_append, List.takeWhile_cons, hc, ne_eq, not_false_eq_true,
        decide_True, ite_true, List.length_cons]
      simp only [ne_eq] at ih
      omega

theorem CmdUniform_eq (buf : CommandBuffer) (h : buf.Inv) (name value : List Byte)
    (dataType : DataType) (x y N M : Nat) (hN : N = strlen (name ++ [0]) + 1)
    (hM : M = GetElementSize dataType * x * y) (hv : M ≤ value.length) :
    buf.CmdUniform name value dataType x y =
      { Count_ := buf.Count_ + 1, Offset_ := buf.Data_.length + 1 + 1 + 1 + 1 + N + 1 + M,
        Data_ := buf.Data_ ++ (CommandType.Uniform.toByte :: dataType.toByte ::
          toByte ((x &&& 0xFF) ||| (y <<< 4)) :: toByte N ::
          ((name ++ [0]).take N ++ toByte M :: value.take M)) } := by
  unfold CommandBuffer.Inv at h
  unfold CommandBuffer.CmdUniform CopyItems
  simp only [h, ← hN, ← hM]
  have hNle : N ≤ name.length + 1 := by
    have := strlen_append_nul_le name
    omega
  generalize buf.Data_ = d
  generalize CommandType.Uniform.toByte = tag
  generalize dataType.toByte = ty
  generalize toByte ((x &&& 0xFF) ||| (y <<< 4)) = pk
  generalize hnm : (name ++ [0]).take N = nm
  generalize hvl : value.take M = vl
  have hnml : nm.length = N := by rw [← hnm]; simp; omega
  have hvll : vl.length = M := by rw [← hvl]; simp; omega
  have hr : OwningSpan.Resize d (d.length + 1 + 4 + N + M) =
      d ++ 0 :: 0 :: 0 :: 0 :: (List.replicate N 0 ++ 0 :: List.replicate M 0) := by
    have e : d.length + 1 + 4 + N + M = d.length + (4 + (N + (1 + M))) := by omega
    rw [e, resize_grow]
    simp [List.replicate_add, List.replicate_succ]
  rw [hr, set_append_at d _ 0 tag _ rfl, List.append_cons d tag,
    set_append_at (d ++ [tag]) _ 0 ty _ (by simp), List.append_cons (d ++ [tag]) ty,
    set_append_at (d ++ [tag] ++ [ty]) _ 0 pk _ (by simp),
    List.append_cons (d ++ [tag] ++ [ty]) pk,
    set_append_at (d ++ [tag] ++ [ty] ++ [pk]) _ 0 (toByte N) _ (by simp),
    List.append_cons (d ++ [tag] ++ [ty] ++ [pk]) (toByte N),
    ← List.append_assoc (d ++ [tag] ++ [ty] ++ [pk] ++ [toByte N]),
    writeBytes_append nm (d ++ [tag] ++ [ty] ++ [pk] ++ [toByte N]) (List.replicate N 0) _ _
      (by simp) (by simp [hnml]),
    set_append_at (d ++ [tag] ++ [ty] ++ [pk] ++ [toByte N] ++ nm) _ 0 (toByte M) _
      (by simp [hnml]; omega),
    List.append_cons (d ++ [tag] ++ [ty] ++ [pk] ++ [toByte N] ++ nm) (toByte M)]
  have hw := writeBytes_append vl (d ++ [tag] ++ [ty] ++ [pk] ++ [toByte N] ++ nm ++ [toByte M])
    (List.replicate M 0) [] (d.length + 1 + 1 + 1 + 1 + N + 1) (by simp [hnml]; omega) (by simp [hvll])
  simp only [List.append_nil] at hw
  rw [hw]
  simp


theorem pack_sizes (x y : Nat) (hx : x ≤ 15) (hy : y ≤ 15) :
    toByte ((x &&& 0xFF) ||| (y <<< 4)) = toByte (x + 16 * y) := by
  have key : ∀ a < 16, ∀ b < 16,
      toByte ((a &&& 0xFF) ||| (b <<< 4)) = toByte (a + 16 * b) := by decide
  exact key x (by omega) y (by omega)

theorem unpack_sizes (x y : Nat) (hx : x ≤ 15) (hy : y ≤ 15) :
    ((toByte (x + 16 * y)).val &&& 0xFF) % 16 = x ∧
      ((toByte (x + 16 * y)).val >>> 4) % 16 = y := by
  have key : ∀ a < 16, ∀ b < 16,
      ((toByte (a + 16 * b)).val &&& 0xFF) % 16 = a ∧
        ((toByte (a + 16 * b)).val >>> 4) % 16 = b := by decide
  exact key x (by omega) y (by omega)

theorem record_eq (buf : CommandBuffer) (h : buf.Inv) (c : Command) (hc : c.WellFormed) :
    buf.record c =
      { Count_ := buf.Count_ + 1, Offset_ := buf.Data_.length + c.encode.length,
        Data_ := buf.Data_ ++ c.encode } := by
  cases c with
  | Clear r g b a =>
    simp [CommandBuffer.record, Command.encode, CmdClear_eq buf h, storeLE_length]
  | BindShader s =>
    simp [CommandBuffer.record, Command.encode, CmdBindShader_eq buf h, storeLE_length]
  | DrawMesh m =>
    simp [CommandBuffer.record, Command.encode, CmdDrawMesh_eq buf h, storeLE_length]
  | Uniform name value t x y =>
    obtain ⟨hx, hy, hnul, hlen, hval, hmax⟩ := hc
    have hN := strlen_append_nul name hnul
    simp only [CommandBuffer.record, Command.encode]
    rw [CmdUniform_eq buf h name value t x y (name.length + 1) value.length (by rw [hN])
      hval (Nat.le_refl _), pack_sizes x y hx hy,
      List.take_of_length_le (show (name ++ [0]).length ≤ name.length + 1 by simp),
      List.take_of_length_le (Nat.le_refl value.length)]
    simp
    omega

theorem record_inv (buf : CommandBuffer) (h : buf.Inv) (c : Command) (hc : c.WellFormed) :
    (buf.record c).Inv := by
  rw [record_eq buf h c hc]
  simp [CommandBuffer.Inv]

theorem recordAll_eq (cs : List Command) :
    ∀ (buf : CommandBuffer), buf.Inv → (∀ c ∈ cs, c.WellFormed) →
      buf.recordAll cs =
        { Count_ := buf.Count_ + cs.length, Offset_ := buf.Data_.length + (encodeAll cs).length,
          Data_ := buf.Data_ ++ encodeAll cs } := by
  induction cs with
  | nil =>
    intro buf h _
    unfold CommandBuffer.Inv at h
    cases buf
    simp_all [CommandBuffer.recordAll, encodeAll]
  | cons c cs ih =>
    intro buf h hw
    have hc := hw c (by simp)
    have hrest : ∀ d ∈ cs, d.WellFormed := fun d hd => hw d (by simp [hd])
    have := ih (buf.record c) (record_inv buf h c hc) hrest
    simp only [CommandBuffer.recordAll, List.foldl_cons] at this ⊢
    rw [this, record_eq buf h c hc]
    simp [encodeAll]
    omega

/-! ## The reader on appended records -/

theorem ReadType_at (pre post : List Byte) (t : Byte) (o : Nat) (ho : o = pre.length) :
    CommandBufferReader.ReadType { Offset_ := o, Data_ := pre ++ t :: post } =
      some (t, { Offset_ := o + 1, Data_ := pre ++ t :: post }) := by
  unfold CommandBufferReader.ReadType
  simp only [getElem?_append_at pre post t o ho]

theorem ReadCmdDrawMesh_at (pre post : List Byte) (t : Byte) (mesh o : Nat)
    (ho : o = pre.length + 1) :
    CommandBufferReader.ReadCmdDrawMesh
        { Offset_ := o, Data_ := pre ++ t :: storeLE 8 mesh ++ post } =
      some (mesh % 2 ^ 64, { Offset_ := o + 8, Data_ := pre ++ t :: storeLE 8 mesh ++ post }) := by
  unfold CommandBufferReader.ReadCmdDrawMesh
  have e : pre ++ t :: storeLE 8 mesh ++ post = (pre ++ [t]) ++ storeLE 8 mesh ++ post := by
    simp
  have hr := readBytes_append (pre ++ [t]) (storeLE 8 mesh) post o sizeofPtr (by simp [ho])
    (by simp [storeLE_length, sizeofPtr])
  rw [← e] at hr
  simp only [hr, loadLE_storeLE]
  norm_num

theorem ReadCmdBindShader_at (pre post : List Byte) (t : Byte) (shader o : Nat)
    (ho : o = pre.length + 1) :
    CommandBufferReader.ReadCmdBindShader
        { Offset_ := o, Data_ := pre ++ t :: storeLE 8 shader ++ post } =
      some (shader % 2 ^ 64,
        { Offset_ := o + 8, Data_ := pre ++ t :: storeLE 8 shader ++ post }) := by
  unfold CommandBufferReader.ReadCmdBindShader
  have e : pre ++ t :: storeLE 8 shader ++ post = (pre ++ [t]) ++ storeLE 8 shader ++ post := by
    simp
  have hr := readBytes_append (pre ++ [t]) (storeLE 8 shader) post o sizeofPtr (by simp [ho])
    (by simp [storeLE_length, sizeofPtr])
  rw [← e] at hr
  simp only [hr, loadLE_storeLE]
  norm_num

theorem ReadCmdClear_at (pre post : List Byte) (t : Byte) (r g b a o : Nat)
    (ho : o = pre.length + 1) :
    CommandBufferReader.ReadCmdClear
        { Offset_ := o,
          Data_ := pre ++ t :: (storeLE 4 r ++ storeLE 4 g ++ storeLE 4 b ++ storeLE 4 a) ++ post } =
      some ({ r := r % 2 ^ 32, g := g % 2 ^ 32, b := b % 2 ^ 32, a := a % 2 ^ 32 },
        { Offset_ := o + 16,
          Data_ := pre ++ t :: (storeLE 4 r ++ storeLE 4 g ++ storeLE 4 b ++ storeLE 4 a) ++ post }) := by
  unfold CommandBufferReader.ReadCmdClear
  have e : pre ++ t :: (storeLE 4 r ++ storeLE 4 g ++ storeLE 4 b ++ storeLE 4 a) ++ post =
      (pre ++ [t]) ++ (storeLE 4 r ++ storeLE 4 g ++ storeLE 4 b ++ storeLE 4 a) ++ post := by
    simp
  have hr := readBytes_append (pre ++ [t])
    (storeLE 4 r ++ storeLE 4 g ++ storeLE 4 b ++ storeLE 4 a) post o sizeofClearColor
    (by simp [ho]) (by simp [storeLE_length, sizeofClearColor])
  rw [← e] at hr
  simp only [hr]
  have t1 : (storeLE 4 r ++ storeLE 4 g ++ storeLE 4 b ++ storeLE 4 a).take 4 = storeLE 4 r := by
    rw [List.append_assoc, List.append_assoc]
    exact List.take_left' (storeLE_length 4 r)
  have d1 : (storeLE 4 r ++ storeLE 4 g ++ storeLE 4 b ++ storeLE 4 a).drop 4 =
      storeLE 4 g ++ storeLE 4 b ++ storeLE 4 a := by
    rw [List.append_assoc, List.append_assoc]
    rw [List.drop_left' (storeLE_length 4 r), List.append_assoc]
  have t2 : (storeLE 4 g ++ storeLE 4 b ++ storeLE 4 a).take 4 = storeLE 4 g := by
    rw [List.append_assoc]
    exact List.take_left' (storeLE_length 4 g)
  have d2 : (storeLE 4 r ++ storeLE 4 g ++ storeLE 4 b ++ storeLE 4 a).drop 8 =
      storeLE 4 b ++ storeLE 4 a := by
    rw [List.append_assoc]
    exact List.drop_left' (by simp [storeLE_length])
  have t3 : (storeLE 4 b ++ storeLE 4 a).take 4 = storeLE 4 b :=
    List.take_left' (storeLE_length 4 b)
  have d3 : (storeLE 4 r ++ storeLE 4 g ++ storeLE 4 b ++ storeLE 4 a).drop 12 =
      storeLE 4 a := List.drop_left' (by simp [storeLE_length])
  have t4 : (storeLE 4 a).take 4 = storeLE 4 a :=
    List.take_of_length_le (by simp [storeLE_length])
  rw [t1, d1, t2, d2, t3, d3, t4]
  simp only [loadLE_storeLE, sizeofClearColor]
  norm_num

theorem ReadCmdUniform_of (data : List Byte) (o : Nat) (ty sz ns ds : Byte)
    (h0 : data[o]? = some ty) (h1 : data[o + 1]? = some sz) (h2 : data[o + 1 + 1]? = some ns)
    (h3 : data[o + 1 + 1 + 1 + ns.val]? = some ds) :
    CommandBufferReader.ReadCmdUniform { Offset_ := o, Data_ := data } =
      some ({ Type_ := ty, SizeX := (sz.val &&& 0xFF) % 16, SizeY := (sz.val >>> 4) % 16,
              Name := o + 1 + 1 + 1, Data := (o + 1 + 1 + 1 + ns.val + 1, ds.val) },
            { Offset_ := o + 1 + 1 + 1 + ns.val + 1 + ds.val, Data_ := data }) := by
  unfold CommandBufferReader.ReadCmdUniform
  simp only [h0, h1, h2, h3]

theorem getElem?_append_add (pre l : List Byte) (i k : Nat) (hi : i = pre.length + k) :
    (pre ++ l)[i]? = l[k]? := by
  subst hi
  rw [List.getElem?_append_right (Nat.le_add_right _ _)]
  simp

theorem ReadCmdUniform_at (pre post name value : List Byte) (tag ty pk : Byte) (o : Nat)
    (ho : o = pre.length + 1) (hn : name.length + 1 < 256) (hv : value.length < 256) :
    CommandBufferReader.ReadCmdUniform
        { Offset_ := o,
          Data_ := pre ++ (tag :: ty :: pk :: toByte (name.length + 1) ::
            (name ++ [0] ++ toByte value.length :: value)) ++ post } =
      some ({ Type_ := ty, SizeX := (pk.val &&& 0xFF) % 16, SizeY := (pk.val >>> 4) % 16,
              Name := pre.length + 4, Data := (pre.length + 4 + (name.length + 1) + 1, value.length) },
            { Offset_ := pre.length + 4 + (name.length + 1) + 1 + value.length,
              Data_ := pre ++ (tag :: ty :: pk :: toByte (name.length + 1) ::
                (name ++ [0] ++ toByte value.length :: value)) ++ post }) := by
  generalize hd : pre ++ (tag :: ty :: pk :: toByte (name.length + 1) ::
            (name ++ [0] ++ toByte value.length :: value)) ++ post = data
  have e : data = pre ++ (tag :: ty :: pk :: toByte (name.length + 1) ::
      ((name ++ [0]) ++ toByte value.length :: (value ++ post))) := by
    rw [← hd]; simp
  have h0 : data[o]? = some ty := by
    rw [e, getElem?_append_add pre _ o 1 ho]; simp
  have h1 : data[o + 1]? = some pk := by
    rw [e, getElem?_append_add pre _ (o + 1) 2 (by omega)]; simp
  have h2 : data[o + 1 + 1]? = some (toByte (name.length + 1)) := by
    rw [e, getElem?_append_add pre _ (o + 1 + 1) 3 (by omega)]; simp
  have h3 : data[o + 1 + 1 + 1 + (toByte (name.length + 1)).val]? =
      some (toByte value.length) := by
    rw [toByte_val_of_lt hn, e,
      getElem?_append_add pre _ (o + 1 + 1 + 1 + (name.length + 1)) (4 + (name.length + 1))
        (by omega)]
    have : (tag :: ty :: pk :: toByte (name.length + 1) ::
        ((name ++ [0]) ++ toByte value.length :: (value ++ post)))[4 + (name.length + 1)]? =
        ((name ++ [0]) ++ toByte value.length :: (value ++ post))[name.length + 1]? := by
      rw [Nat.add_comm 4]; simp only [List.getElem?_cons_succ]
    rw [this, getElem?_append_at (name ++ [0]) _ _ _ (by simp)]
  rw [ReadCmdUniform_of data o ty pk _ _ h0 h1 h2 h3, toByte_val_of_lt hn, toByte_val_of_lt hv]
  subst ho
  simp only [Option.some.injEq, Prod.mk.injEq, UniformData.mk.injEq,
    CommandBufferReader.mk.injEq, and_true, true_and]

theorem tags_distinct :
    CommandType.DrawMesh.toByte ≠ CommandType.End.toByte ∧
    CommandType.BindShader.toByte ≠ CommandType.End.toByte ∧
    CommandType.Uniform.toByte ≠ CommandType.End.toByte ∧
    CommandType.Clear.toByte ≠ CommandType.End.toByte ∧
    CommandType.BindShader.toByte ≠ CommandType.DrawMesh.toByte ∧
    CommandType.Uniform.toByte ≠ CommandType.DrawMesh.toByte ∧
    CommandType.Clear.toByte ≠ CommandType.DrawMesh.toByte ∧
    CommandType.Uniform.toByte ≠ CommandType.BindShader.toByte ∧
    CommandType.Clear.toByte ≠ CommandType.BindShader.toByte ∧
    CommandType.Clear.toByte ≠ CommandType.Uniform.toByte := by decide

theorem readCommand_encode (pre post : List Byte) (c : Command) (hc : c.WellFormed) (o : Nat)
    (ho : o = pre.length) :
    CommandBufferReader.readCommand { Offset_ := o, Data_ := pre ++ c.encode ++ post } =
      some (some c.fields,
        { Offset_ := o + c.encode.length, Data_ := pre ++ c.encode ++ post }) := by
  obtain ⟨t1, t2, t3, t4, t5, t6, t7, t8, t9, t10⟩ := tags_distinct
  unfold CommandBufferReader.readCommand
  cases c with
  | Clear r g b a =>
    obtain ⟨hr, hg, hb, ha⟩ := hc
    simp only [Command.encode, Command.fields]
    have e : pre ++ CommandType.Clear.toByte ::
        (storeLE 4 r ++ storeLE 4 g ++ storeLE 4 b ++ storeLE 4 a) ++ post =
        pre ++ CommandType.Clear.toByte ::
          ((storeLE 4 r ++ storeLE 4 g ++ storeLE 4 b ++ storeLE 4 a) ++ post) := by simp
    rw [e, ReadType_at pre _ _ o ho]
    simp only [t4, t7, t9, t10, if_false]
    rw [← e, ReadCmdClear_at pre post _ r g b a (o + 1) (by omega)]
    simp [Nat.mod_eq_of_lt hr, Nat.mod_eq_of_lt hg, Nat.mod_eq_of_lt hb, Nat.mod_eq_of_lt ha,
      storeLE_length]
    omega
  | BindShader s =>
    simp only [Command.encode, Command.fields]
    have e : pre ++ CommandType.BindShader.toByte :: storeLE 8 s ++ post =
        pre ++ CommandType.BindShader.toByte :: (storeLE 8 s ++ post) := by simp
    rw [e, ReadType_at pre _ _ o ho]
    simp only [t2, t5, if_false, if_true]
    rw [← e, ReadCmdBindShader_at pre post _ s (o + 1) (by omega)]
    have hs : s < 2 ^ 64 := hc
    simp [Nat.mod_eq_of_lt hs, storeLE_length]
    omega
  | DrawMesh m =>
    simp only [Command.encode, Command.fields]
    have e : pre ++ CommandType.DrawMesh.toByte :: storeLE 8 m ++ post =
        pre ++ CommandType.DrawMesh.toByte :: (storeLE 8 m ++ post) := by simp
    rw [e, ReadType_at pre _ _ o ho]
    simp only [t1, if_false, if_true]
    rw [← e, ReadCmdDrawMesh_at pre post _ m (o + 1) (by omega)]
    have hm : m < 2 ^ 64 := hc
    simp [Nat.mod_eq_of_lt hm, storeLE_length]
    omega
  | Uniform name value t x y =>
    obtain ⟨hx, hy, hnul, hlen, hval, hmax⟩ := hc
    simp only [Command.encode, Command.fields]
    have e : pre ++ CommandType.Uniform.toByte :: t.toByte :: toByte (x + 16 * y) ::
        toByte (name.length + 1) :: (name ++ [0] ++ toByte value.length :: value) ++ post =
        pre ++ CommandType.Uniform.toByte :: ((t.toByte :: toByte (x + 16 * y) ::
        toByte (name.length + 1) :: (name ++ [0] ++ toByte value.length :: value)) ++ post) := by
      simp
    rw [e, ReadType_at pre _ _ o ho]
    simp only [t3, t6, t8, if_false, if_true]
    rw [← e, ReadCmdUniform_at pre post name value _ t.toByte (toByte (x + 16 * y)) (o + 1)
      (by omega) (by omega) (by omega)]
    obtain ⟨ux, uy⟩ := unpack_sizes x y hx hy
    simp only [ux, uy]
    have hname : cstrAt (pre ++ CommandType.Uniform.toByte :: t.toByte :: toByte (x + 16 * y) ::
        toByte (name.length + 1) :: (name ++ [0] ++ toByte value.length :: value) ++ post)
        (pre.length + 4) = some name := by
      have := cstrAt_append (pre ++ [CommandType.Uniform.toByte, t.toByte, toByte (x + 16 * y),
        toByte (name.length + 1)]) name (toByte value.length :: value ++ post) (pre.length + 4)
        (by simp) hnul
      simpa using this
    have hdata : readBytes (pre ++ CommandType.Uniform.toByte :: t.toByte ::
        toByte (x + 16 * y) :: toByte (name.length + 1) ::
        (name ++ [0] ++ toByte value.length :: value) ++ post)
        (pre.length + 4 + (name.length + 1) + 1) value.length = some value := by
      have := readBytes_append (pre ++ [CommandType.Uniform.toByte, t.toByte,
        toByte (x + 16 * y), toByte (name.length + 1)] ++ name ++ [0] ++ [toByte value.length])
        value post (pre.length + 4 + (name.length + 1) + 1) value.length (by simp; omega) rfl
      simpa using this
    simp only [hname, hdata]
    simp
    omega

theorem readAll_encode (cs : List Command) :
    ∀ (pre post : List Byte) (o : Nat), o = pre.length → (∀ c ∈ cs, c.WellFormed) →
      CommandBufferReader.readAll (cs.length + 1)
          { Offset_ := o,
            Data_ := pre ++ encodeAll cs ++ CommandType.End.toByte :: post } =
        some (cs.map Command.fields,
          { Offset_ := o + (encodeAll cs).length + 1,
            Data_ := pre ++ encodeAll cs ++ CommandType.End.toByte :: post }) := by
  induction cs with
  | nil =>
    intro pre post o ho _
    simp only [encodeAll, List.append_nil, List.length_nil, Nat.zero_add, List.map_nil,
      Nat.add_zero, CommandBufferReader.readAll, CommandBufferReader.readCommand]
    rw [ReadType_at pre post _ o ho]
    simp
  | cons c cs ih =>
    intro pre post o ho hw
    have hc := hw c (by simp)
    have hrest : ∀ d ∈ cs, d.WellFormed := fun d hd => hw d (by simp [hd])
    have e : pre ++ encodeAll (c :: cs) ++ CommandType.End.toByte :: post =
        pre ++ c.encode ++ (encodeAll cs ++ CommandType.End.toByte :: post) := by
      simp [encodeAll]
    have e2 : pre ++ encodeAll (c :: cs) ++ CommandType.End.toByte :: post =
        (pre ++ c.encode) ++ encodeAll cs ++ CommandType.End.toByte :: post := by
      simp [encodeAll]
    have h1 := readCommand_encode pre (encodeAll cs ++ CommandType.End.toByte :: post) c hc o ho
    rw [← e] at h1
    have h2 := ih (pre ++ c.encode) post (o + c.encode.length) (by simp [ho]) hrest
    rw [← e2] at h2
    show CommandBufferReader.readAll ((cs.length + 1) + 1) _ = _
    rw [CommandBufferReader.readAll, h1]
    simp only []
    rw [h2]
    simp only [List.map_cons, Option.some.injEq, Prod.mk.injEq, CommandBufferReader.mk.injEq,
      true_and, and_true]
    simp [encodeAll]
    omega

theorem CmdUniform_data (buf : CommandBuffer) (h : buf.Inv) (name value : List Byte)
    (dataType : DataType) (x y : Nat) (hnul : ∀ c ∈ name, c ≠ 0)
    (hval : value.length = GetElementSize dataType * x * y) :
    (buf.CmdUniform name value dataType x y).GetData =
      buf.Data_ ++ (CommandType.Uniform.toByte :: dataType.toByte ::
        toByte ((x &&& 0xFF) ||| (y <<< 4)) :: toByte (name.length + 1) ::
        (name ++ [0] ++ toByte value.length :: value)) := by
  have hN := strlen_append_nul name hnul
  rw [CommandBuffer.GetData,
    CmdUniform_eq buf h name value dataType x y (name.length + 1) value.length (by rw [hN])
      hval (Nat.le_refl _),
    List.take_of_length_le (show (name ++ [0]).length ≤ name.length + 1 by simp),
    List.take_of_length_le (Nat.le_refl value.length)]

theorem uniform_name_at (pre post name value : List Byte) (tag ty pk : Byte)
    (hnul : ∀ c ∈ name, c ≠ 0) :
    cstrAt (pre ++ (tag :: ty :: pk :: toByte (name.length + 1) ::
        (name ++ [0] ++ toByte value.length :: value)) ++ post) (pre.length + 4) = some name ∧
    (pre ++ (tag :: ty :: pk :: toByte (name.length + 1) ::
        (name ++ [0] ++ toByte value.length :: value)) ++ post)[pre.length + 4 + name.length]? =
      some 0 := by
  constructor
  · have := cstrAt_append (pre ++ [tag, ty, pk, toByte (name.length + 1)]) name
      (toByte value.length :: value ++ post) (pre.length + 4) (by simp) hnul
    simpa using this
  · have := getElem?_append_at (pre ++ [tag, ty, pk, toByte (name.length + 1)] ++ name)
      (toByte value.length :: value ++ post) 0 (pre.length + 4 + name.length) (by simp; omega)
    simpa using this

theorem uniform_data_at (pre post name value : List Byte) (tag ty pk : Byte) :
    readBytes (pre ++ (tag :: ty :: pk :: toByte (name.length + 1) ::
        (name ++ [0] ++ toByte value.length :: value)) ++ post)
      (pre.length + 4 + (name.length + 1) + 1) value.length = some value := by
  have := readBytes_append (pre ++ [tag, ty, pk, toByte (name.length + 1)] ++ name ++ [0] ++
    [toByte value.length]) value post (pre.length + 4 + (name.length + 1) + 1) value.length
    (by simp; omega) rfl
  simpa using this

set_option maxRecDepth 8000

/-! ## Claims -/

/-- C1 (uniform round trip): after `CmdUniform(name, value, type, sizeX, sizeY)` with
sizes in 0..15, a NUL-free name of at most 254 bytes and a payload of
`elementSize(type)*sizeX*sizeY <= 255` bytes is appended to a buffer, a reader positioned at
the first byte of the record gets the `Uniform` tag from `ReadType`, and `ReadCmdUniform`
then returns the same type, the same `SizeX` and `SizeY`, a `Name` pointing to the recorded
name followed by its NUL terminator, and a `Data` span with the length and the bytes of the
recorded payload. -/
theorem uniform_round_trip (buf : CommandBuffer) (hinv : buf.Inv) (name value : List Byte)
    (dataType : DataType) (sizeX sizeY : Nat)
    (hargs : UniformArgsOk name value dataType sizeX sizeY) :
    CommandBufferReader.ReadType
        { Offset_ := buf.Data_.length,
          Data_ := (buf.CmdUniform name value dataType sizeX sizeY).GetData } =
      some (CommandType.Uniform.toByte,
        { Offset_ := buf.Data_.length + 1,
          Data_ := (buf.CmdUniform name value dataType sizeX sizeY).GetData }) ∧
    CommandBufferReader.ReadCmdUniform
        { Offset_ := buf.Data_.length + 1,
          Data_ := (buf.CmdUniform name value dataType sizeX sizeY).GetData } =
      some ({ Type_ := dataType.toByte, SizeX := sizeX, SizeY := sizeY,
              Name := buf.Data_.length + 4,
              Data := (buf.Data_.length + 4 + (name.length + 1) + 1, value.length) },
        { Offset_ := buf.Data_.length + 4 + (name.length + 1) + 1 + value.length,
          Data_ := (buf.CmdUniform name value dataType sizeX sizeY).GetData }) ∧
    cstrAt (buf.CmdUniform name value dataType sizeX sizeY).GetData (buf.Data_.length + 4) =
      some name ∧
    (buf.CmdUniform name value dataType sizeX sizeY).GetData[buf.Data_.length + 4 + name.length]? =
      some 0 ∧
    readBytes (buf.CmdUniform name value dataType sizeX sizeY).GetData
      (buf.Data_.length + 4 + (name.length + 1) + 1) value.length = some value := by
  obtain ⟨hx, hy, hnul, hlen, hval, hmax⟩ := hargs
  rw [CmdUniform_data buf hinv name value dataType sizeX sizeY hnul hval, pack_sizes _ _ hx hy]
  generalize buf.Data_ = pre
  have hU := ReadCmdUniform_at pre [] name value CommandType.Uniform.toByte dataType.toByte
    (toByte (sizeX + 16 * sizeY)) (pre.length + 1) rfl (by omega) (by omega)
  obtain ⟨hn1, hn2⟩ := uniform_name_at pre [] name value CommandType.Uniform.toByte
    dataType.toByte (toByte (sizeX + 16 * sizeY)) hnul
  have hD := uniform_data_at pre [] name value CommandType.Uniform.toByte dataType.toByte
    (toByte (sizeX + 16 * sizeY))
  obtain ⟨ux, uy⟩ := unpack_sizes sizeX sizeY hx hy
  rw [ux, uy] at hU
  simp only [List.append_nil] at hU hn1 hn2 hD
  exact ⟨ReadType_at pre _ _ pre.length rfl, hU, hn1, hn2, hD⟩

/-- Witness for C1: `"uTransform"`, Float32, 4x4, 64 bytes, recorded on an empty buffer. -/
theorem uniform_round_trip_witness :
    CommandBuffer.empty.Inv ∧ UniformArgsOk uTransform sampleMatrix DataType.Float32 4 4 ∧
    CommandBufferReader.ReadCmdUniform
        { Offset_ := 1,
          Data_ := (CommandBuffer.empty.CmdUniform uTransform sampleMatrix
            DataType.Float32 4 4).GetData } =
      some ({ Type_ := 0, SizeX := 4, SizeY := 4, Name := 4, Data := (16, 64) },
        { Offset_ := 80,
          Data_ := (CommandBuffer.empty.CmdUniform uTransform sampleMatrix
            DataType.Float32 4 4).GetData }) ∧
    cstrAt (CommandBuffer.empty.CmdUniform uTransform sampleMatrix
      DataType.Float32 4 4).GetData 4 = some uTransform ∧
    readBytes (CommandBuffer.empty.CmdUniform uTransform sampleMatrix
      DataType.Float32 4 4).GetData 16 64 = some sampleMatrix :=
  have h := uniform_round_trip CommandBuffer.empty (by decide) uTransform sampleMatrix
    DataType.Float32 4 4 (by decide)
  ⟨by decide, by decide, h.2.1, h.2.2.1, h.2.2.2.2⟩

/-- C3 (fixed-size round trip): for four 32-bit floats `r g b a` and a 64-bit handle `h`,
a reader positioned at the record appended by `CmdClear(r,g,b,a)`, `CmdBindShader(h)` or
`CmdDrawMesh(h)` gets the tag `Clear`, `BindShader` or `DrawMesh` from `ReadType`;
`ReadCmdClear` then returns the same four bit patterns in the order r, g, b, a, and
`ReadCmdBindShader` / `ReadCmdDrawMesh` return exactly `h`. -/
theorem fixed_size_round_trip (buf : CommandBuffer) (hinv : buf.Inv) (r g b a h : Nat)
    (hr : r < 2 ^ 32) (hg : g < 2 ^ 32) (hb : b < 2 ^ 32) (ha : a < 2 ^ 32) (hh : h < 2 ^ 64) :
    (CommandBufferReader.ReadType
        { Offset_ := buf.Data_.length, Data_ := (buf.CmdClear r g b a).GetData } =
      some (CommandType.Clear.toByte,
        { Offset_ := buf.Data_.length + 1, Data_ := (buf.CmdClear r g b a).GetData }) ∧
     CommandBufferReader.ReadCmdClear
        { Offset_ := buf.Data_.length + 1, Data_ := (buf.CmdClear r g b a).GetData } =
      some ({ r := r, g := g, b := b, a := a },
        { Offset_ := buf.Data_.length + 1 + 16, Data_ := (buf.CmdClear r g b a).GetData })) ∧
    (CommandBufferReader.ReadType
        { Offset_ := buf.Data_.length, Data_ := (buf.CmdBindShader h).GetData } =
      some (CommandType.BindShader.toByte,
        { Offset_ := buf.Data_.length + 1, Data_ := (buf.CmdBindShader h).GetData }) ∧
     CommandBufferReader.ReadCmdBindShader
        { Offset_ := buf.Data_.length + 1, Data_ := (buf.CmdBindShader h).GetData } =
      some (h, { Offset_ := buf.Data_.length + 1 + 8, Data_ := (buf.CmdBindShader h).GetData })) ∧
    (CommandBufferReader.ReadType
        { Offset_ := buf.Data_.length, Data_ := (buf.CmdDrawMesh h).GetData } =
      some (CommandType.DrawMesh.toByte,
        { Offset_ := buf.Data_.length + 1, Data_ := (buf.CmdDrawMesh h).GetData }) ∧
     CommandBufferReader.ReadCmdDrawMesh
        { Offset_ := buf.Data_.length + 1, Data_ := (buf.CmdDrawMesh h).GetData } =
      some (h, { Offset_ := buf.Data_.length + 1 + 8, Data_ := (buf.CmdDrawMesh h).GetData })) := by
  simp only [CommandBuffer.GetData, CmdClear_eq buf hinv, CmdBindShader_eq buf hinv,
    CmdDrawMesh_eq buf hinv]
  generalize buf.Data_ = pre
  refine ⟨⟨ReadType_at pre _ _ _ rfl, ?_⟩, ⟨ReadType_at pre _ _ _ rfl, ?_⟩,
    ⟨ReadType_at pre _ _ _ rfl, ?_⟩⟩
  · have := ReadCmdClear_at pre [] CommandType.Clear.toByte r g b a (pre.length + 1) rfl
    rw [Nat.mod_eq_of_lt hr, Nat.mod_eq_of_lt hg, Nat.mod_eq_of_lt hb,
      Nat.mod_eq_of_lt ha] at this
    simpa using this
  · have := ReadCmdBindShader_at pre [] CommandType.BindShader.toByte h (pre.length + 1) rfl
    rw [Nat.mod_eq_of_lt hh] at this
    simpa using this
  · have := ReadCmdDrawMesh_at pre [] CommandType.DrawMesh.toByte h (pre.length + 1) rfl
    rw [Nat.mod_eq_of_lt hh] at this
    simpa using this

/-- Witness for C3: the clear colour of `main` and two 64-bit addresses on an empty buffer. -/
theorem fixed_size_round_trip_witness :
    CommandBuffer.empty.Inv ∧ 0x3E4CCCCD < 2 ^ 32 ∧ 0xFFFFFFFFFFFFFFFF < 2 ^ 64 ∧
    CommandBufferReader.ReadCmdClear
        { Offset_ := 1,
          Data_ := (CommandBuffer.empty.CmdClear 0x3E4CCCCD 0x3DCCCCCD 0x3E99999A
            0x3F800000).GetData } =
      some ({ r := 0x3E4CCCCD, g := 0x3DCCCCCD, b := 0x3E99999A, a := 0x3F800000 },
        { Offset_ := 17,
          Data_ := (CommandBuffer.empty.CmdClear 0x3E4CCCCD 0x3DCCCCCD 0x3E99999A
            0x3F800000).GetData }) ∧
    CommandBufferReader.ReadCmdBindShader
        { Offset_ := 1, Data_ := (CommandBuffer.empty.CmdBindShader 0xFFFFFFFFFFFFFFFF).GetData } =
      some (0xFFFFFFFFFFFFFFFF,
        { Offset_ := 9, Data_ := (CommandBuffer.empty.CmdBindShader 0xFFFFFFFFFFFFFFFF).GetData }) :=
  have h := fixed_size_round_trip CommandBuffer.empty (by decide) 0x3E4CCCCD 0x3DCCCCCD
    0x3E99999A 0x3F800000 0xFFFFFFFFFFFFFFFF (by decide) (by decide) (by decide) (by decide)
    (by decide)
  ⟨by decide, by decide, by decide, h.1.2, h.2.1.2⟩

/-- C4 (uniform record byte layout): for `CmdUniform(name, value, type, sizeX, sizeY)` with
sizes in 0..15, `N = strlen(name)+1 <= 255` and `M = elementSize(type)*sizeX*sizeY <= 255`,
the bytes appended are, in order: the `Uniform` tag `0x02`, the `DataType` value, one byte
with low nibble `sizeX` and high nibble `sizeY`, one byte equal to `N`, the name with its
terminating NUL, one byte equal to `M`, the `M` payload bytes; `5+N+M` bytes in total. -/
theorem uniform_record_layout (buf : CommandBuffer) (hinv : buf.Inv) (name value : List Byte)
    (dataType : DataType) (sizeX sizeY : Nat) (hx : sizeX ≤ 15) (hy : sizeY ≤ 15)
    (hnul : ∀ c ∈ name, c ≠ 0) (hN : name.length + 1 ≤ 255)
    (hval : value.length = GetElementSize dataType * sizeX * sizeY)
    (hM : GetElementSize dataType * sizeX * sizeY ≤ 255) :
    ∃ packed nameLen dataLen : Byte,
      (buf.CmdUniform name value dataType sizeX sizeY).GetData =
        buf.Data_ ++ ([0x02, dataType.toByte, packed, nameLen] ++ (name ++ [0]) ++
          [dataLen] ++ value) ∧
      packed.val % 16 = sizeX ∧ packed.val / 16 = sizeY ∧
      nameLen.val = name.length + 1 ∧
      dataLen.val = GetElementSize dataType * sizeX * sizeY ∧
      ([0x02, dataType.toByte, packed, nameLen] ++ (name ++ [0]) ++ [dataLen] ++ value).length =
        5 + (name.length + 1) + GetElementSize dataType * sizeX * sizeY := by
  refine ⟨toByte (sizeX + 16 * sizeY), toByte (name.length + 1), toByte value.length, ?_, ?_, ?_,
    toByte_val_of_lt (by omega), ?_, ?_⟩
  · rw [CmdUniform_data buf hinv name value dataType sizeX sizeY hnul hval,
      pack_sizes _ _ hx hy]
    simp [CommandType.toByte]
  · rw [toByte_val_of_lt (by omega)]; omega
  · rw [toByte_val_of_lt (by omega)]; omega
  · rw [toByte_val_of_lt (by omega), hval]
  · simp [hval]; omega

/-- Witness for C4: `"uTransform"`, Float32, 4x4, 64 bytes, recorded on an empty buffer. -/
theorem uniform_record_layout_witness :
    CommandBuffer.empty.Inv ∧ (∀ c ∈ uTransform, c ≠ 0) ∧ uTransform.length + 1 ≤ 255 ∧
    sampleMatrix.length = GetElementSize DataType.Float32 * 4 * 4 ∧
    ∃ packed nameLen dataLen : Byte,
      (CommandBuffer.empty.CmdUniform uTransform sampleMatrix DataType.Float32 4 4).GetData =
        CommandBuffer.empty.Data_ ++ ([0x02, DataType.Float32.toByte, packed, nameLen] ++
          (uTransform ++ [0]) ++ [dataLen] ++ sampleMatrix) ∧
      packed.val % 16 = 4 ∧ packed.val / 16 = 4 ∧
      nameLen.val = uTransform.length + 1 ∧
      dataLen.val = GetElementSize DataType.Float32 * 4 * 4 ∧
      ([0x02, DataType.Float32.toByte, packed, nameLen] ++ (uTransform ++ [0]) ++ [dataLen] ++
        sampleMatrix).length = 5 + (uTransform.length + 1) + GetElementSize DataType.Float32 * 4 * 4 :=
  ⟨by decide, by decide, by decide, by decide,
    uniform_record_layout CommandBuffer.empty (by decide) uTransform sampleMatrix
      DataType.Float32 4 4 (by decide) (by decide) (by decide) (by decide) (by decide)
      (by decide)⟩

/-- C6 (255-byte boundary): for a `CmdUniform` call whose name is exactly 254 non-NUL
bytes (255 with terminator) and whose payload byte count `elementSize(type)*sizeX*sizeY` is
exactly 255, the record stores the length bytes 255 and 255, `ReadCmdUniform` on the record
returns a `Name` pointing to the full name followed by its NUL and a `Data` span of length
255 with the bytes of the payload, and leaves the cursor at the end of the record. -/
theorem uniform_boundary_255 (buf : CommandBuffer) (hinv : buf.Inv) (name value : List Byte)
    (dataType : DataType) (sizeX sizeY : Nat) (hnul : ∀ c ∈ name, c ≠ 0)
    (hname : name.length = 254)
    (hval : value.length = GetElementSize dataType * sizeX * sizeY)
    (hM : GetElementSize dataType * sizeX * sizeY = 255) :
    (buf.CmdUniform name value dataType sizeX sizeY).GetData[buf.Data_.length + 3]? = some 255 ∧
    (buf.CmdUniform name value dataType sizeX sizeY).GetData[buf.Data_.length + 4 + 255]? =
      some 255 ∧
    (∃ sx sy, CommandBufferReader.ReadCmdUniform
        { Offset_ := buf.Data_.length + 1,
          Data_ := (buf.CmdUniform name value dataType sizeX sizeY).GetData } =
      some ({ Type_ := dataType.toByte, SizeX := sx, SizeY := sy,
              Name := buf.Data_.length + 4, Data := (buf.Data_.length + 4 + 255 + 1, 255) },
        { Offset_ := (buf.CmdUniform name value dataType sizeX sizeY).GetData.length,
          Data_ := (buf.CmdUniform name value dataType sizeX sizeY).GetData })) ∧
    cstrAt (buf.CmdUniform name value dataType sizeX sizeY).GetData (buf.Data_.length + 4) =
      some name ∧
    (buf.CmdUniform name value dataType sizeX sizeY).GetData[buf.Data_.length + 4 + 254]? =
      some 0 ∧
    readBytes (buf.CmdUniform name value dataType sizeX sizeY).GetData
      (buf.Data_.length + 4 + 255 + 1) 255 = some value ∧
    (buf.CmdUniform name value dataType sizeX sizeY).GetData.length =
      buf.Data_.length + 5 + 255 + 255 := by
  have hvl : value.length = 255 := by rw [hval, hM]
  rw [CmdUniform_data buf hinv name value dataType sizeX sizeY hnul hval]
  generalize buf.Data_ = pre
  generalize toByte ((sizeX &&& 0xFF) ||| (sizeY <<< 4)) = pk
  have hU := ReadCmdUniform_at pre [] name value CommandType.Uniform.toByte dataType.toByte
    pk (pre.length + 1) rfl (by omega) (by omega)
  obtain ⟨hn1, hn2⟩ := uniform_name_at pre [] name value CommandType.Uniform.toByte
    dataType.toByte pk hnul
  have hD := uniform_data_at pre [] name value CommandType.Uniform.toByte dataType.toByte pk
  simp only [List.append_nil, hname, hvl] at hU hn1 hn2 hD
  have hlen : (pre ++ CommandType.Uniform.toByte :: dataType.toByte :: pk :: toByte (254 + 1) ::
      (name ++ [0] ++ toByte 255 :: value)).length = pre.length + 5 + 255 + 255 := by
    simp [hname, hvl]
  simp only [hname, hvl]
  refine ⟨?_, ?_, ⟨(pk.val &&& 0xFF) % 16, (pk.val >>> 4) % 16, ?_⟩, hn1, hn2, hD, hlen⟩
  · rw [getElem?_append_add pre _ _ 3 rfl]
    simp only [List.getElem?_cons_succ, List.getElem?_cons_zero]
    rfl
  · rw [getElem?_append_add pre _ _ (4 + 255) (by omega)]
    simp only [Nat.add_comm 4 255, List.getElem?_cons_succ]
    rw [getElem?_append_at (name ++ [0]) _ _ _ (by simp [hname])]
    rfl
  · rw [hU, hlen]

/-- Witness for C6: a UInt8 uniform of shape 255x1 with a 254-character name. -/
theorem uniform_boundary_255_witness :
    CommandBuffer.empty.Inv ∧ (∀ c ∈ List.replicate 254 (97 : Byte), c ≠ 0) ∧
    (List.replicate 254 (97 : Byte)).length = 254 ∧
    (List.replicate 255 (255 : Byte)).length = GetElementSize DataType.UInt8 * 255 * 1 ∧
    GetElementSize DataType.UInt8 * 255 * 1 = 255 ∧
    readBytes (CommandBuffer.empty.CmdUniform (List.replicate 254 97) (List.replicate 255 255)
      DataType.UInt8 255 1).GetData (CommandBuffer.empty.Data_.length + 4 + 255 + 1) 255 =
      some (List.replicate 255 255) ∧
    (CommandBuffer.empty.CmdUniform (List.replicate 254 97) (List.replicate 255 255)
      DataType.UInt8 255 1).GetData.length = CommandBuffer.empty.Data_.length + 5 + 255 + 255 :=
  have h := uniform_boundary_255 CommandBuffer.empty (by decide) (List.replicate 254 97)
    (List.replicate 255 255) DataType.UInt8 255 1 (by decide) (by decide) (by decide)
    (by decide)
  ⟨by decide, by decide, by decide, by decide, by decide, h.2.2.2.2.2.1, h.2.2.2.2.2.2⟩

/-- C7 (append-only growth): for every buffer state and every writer operation
(`CmdClear`, `CmdBindShader`, `CmdDrawMesh`, `CmdUniform` within the 255-byte limits,
`End`), the bytes before the call are an unchanged prefix of the bytes after the call,
and the byte length grows by exactly the size of the appended record: 17 for `Clear`, 9 for
`BindShader` and `DrawMesh`, `5+N+M` for `Uniform`, 1 for `End`. -/
theorem append_only_growth (buf : CommandBuffer) (hinv : buf.Inv) :
    (∀ r g b a : Nat, buf.GetData <+: (buf.CmdClear r g b a).GetData ∧
      (buf.CmdClear r g b a).GetData.length = buf.GetData.length + 17) ∧
    (∀ shader : Nat, buf.GetData <+: (buf.CmdBindShader shader).GetData ∧
      (buf.CmdBindShader shader).GetData.length = buf.GetData.length + 9) ∧
    (∀ mesh : Nat, buf.GetData <+: (buf.CmdDrawMesh mesh).GetData ∧
      (buf.CmdDrawMesh mesh).GetData.length = buf.GetData.length + 9) ∧
    (∀ (name value : List Byte) (dataType : DataType) (x y : Nat),
      (∀ c ∈ name, c ≠ 0) → name.length + 1 ≤ 255 →
      value.length = GetElementSize dataType * x * y → GetElementSize dataType * x * y ≤ 255 →
      buf.GetData <+: (buf.CmdUniform name value dataType x y).GetData ∧
      (buf.CmdUniform name value dataType x y).GetData.length =
        buf.GetData.length + (5 + (name.length + 1) + GetElementSize dataType * x * y)) ∧
    (buf.GetData <+: buf.End.GetData ∧ buf.End.GetData.length = buf.GetData.length + 1) := by
  refine ⟨fun r g b a => ?_, fun shader => ?_, fun mesh => ?_,
    fun name value dataType x y hnul _ hval _ => ?_, ?_⟩
  · simp [CommandBuffer.GetData, CmdClear_eq buf hinv, storeLE_length]
  · simp [CommandBuffer.GetData, CmdBindShader_eq buf hinv, storeLE_length]
  · simp [CommandBuffer.GetData, CmdDrawMesh_eq buf hinv, storeLE_length]
  · rw [CmdUniform_data buf hinv name value dataType x y hnul hval]
    simp [CommandBuffer.GetData, hval]
    omega
  · simp [CommandBuffer.GetData, End_eq buf hinv]

/-- Witness for C7: the buffer holding the frame of `main`, extended by one more uniform. -/
theorem append_only_growth_witness :
    (CommandBuffer.empty.recordAll (sampleFrame 1 2)).Inv ∧
    (CommandBuffer.empty.recordAll (sampleFrame 1 2)).GetData <+:
      ((CommandBuffer.empty.recordAll (sampleFrame 1 2)).CmdUniform uTransform sampleMatrix
        DataType.Float32 4 4).GetData ∧
    ((CommandBuffer.empty.recordAll (sampleFrame 1 2)).CmdUniform uTransform sampleMatrix
        DataType.Float32 4 4).GetData.length =
      (CommandBuffer.empty.recordAll (sampleFrame 1 2)).GetData.length +
        (5 + (uTransform.length + 1) + GetElementSize DataType.Float32 * 4 * 4) :=
  ⟨by decide,
    (append_only_growth (CommandBuffer.empty.recordAll (sampleFrame 1 2)) (by decide)).2.2.2.1
      uTransform sampleMatrix DataType.Float32 4 4 (by decide) (by decide) (by decide)
      (by decide)⟩

/-- C2 (order preservation): for every list of commands (each a `Clear`, `BindShader`,
`DrawMesh`, or a `Uniform` with sizes at most 15 and name and payload lengths at most 255)
recorded in order on an empty buffer and followed by `End()`, repeatedly calling `ReadType`
and the `ReadCmd*` matching the returned tag yields exactly the recorded commands with all
fields equal, in order; the `ReadType` after the last of them yields `End`, and the cursor
is then at the end of the buffer. -/
theorem order_preservation (cs : List Command) (hwf : ∀ c ∈ cs, c.WellFormed) :
    CommandBufferReader.readAll (cs.length + 1)
        (CommandBufferReader.new (CommandBuffer.empty.recordAll cs).End.GetData) =
      some (cs.map Command.fields,
        { Offset_ := (CommandBuffer.empty.recordAll cs).End.GetData.length,
          Data_ := (CommandBuffer.empty.recordAll cs).End.GetData }) := by
  have hrec := recordAll_eq cs CommandBuffer.empty rfl hwf
  have hinv : (CommandBuffer.empty.recordAll cs).Inv := by
    rw [hrec]; simp [CommandBuffer.Inv, CommandBuffer.empty]
  rw [End_eq _ hinv, hrec]
  have := readAll_encode cs [] [] 0 rfl hwf
  simpa [CommandBufferReader.new, CommandBuffer.GetData, CommandBuffer.empty] using this

/-- Witness for C2: a frame whose payloads contain bytes equal to the `End` tag `0xFF`. -/
theorem order_preservation_witness :
    (∀ c ∈ [Command.Uniform uTransform [255, 255, 255, 255] DataType.Int32 1 1,
        Command.DrawMesh 0xFFFFFFFFFFFFFFFF,
        Command.Clear 0xFFFFFFFF 0 0xFF 0xFF00], c.WellFormed) ∧
    CommandBufferReader.readAll 4
        (CommandBufferReader.new (CommandBuffer.empty.recordAll
          [Command.Uniform uTransform [255, 255, 255, 255] DataType.Int32 1 1,
            Command.DrawMesh 0xFFFFFFFFFFFFFFFF,
            Command.Clear 0xFFFFFFFF 0 0xFF 0xFF00]).End.GetData) =
      some ([Decoded.Uniform 4 1 1 uTransform [255, 255, 255, 255],
          Decoded.DrawMesh 0xFFFFFFFFFFFFFFFF,
          Decoded.Clear { r := 0xFFFFFFFF, g := 0, b := 0xFF, a := 0xFF00 }],
        { Offset_ := 47,
          Data_ := (CommandBuffer.empty.recordAll
            [Command.Uniform uTransform [255, 255, 255, 255] DataType.Int32 1 1,
              Command.DrawMesh 0xFFFFFFFFFFFFFFFF,
              Command.Clear 0xFFFFFFFF 0 0xFF 0xFF00]).End.GetData }) :=
  ⟨by decide,
    order_preservation [Command.Uniform uTransform [255, 255, 255, 255] DataType.Int32 1 1,
      Command.DrawMesh 0xFFFFFFFFFFFFFFFF, Command.Clear 0xFFFFFFFF 0 0xFF 0xFF00] (by decide)⟩

/-- C9 (cursor advance): `ReadType` returns the byte at the cursor and advances the cursor
by exactly 1; the `ReadCmd*` call matching a record advances the cursor by exactly the
number of payload bytes the `Cmd*` call wrote (16 for `Clear`, 8 for `BindShader` and
`DrawMesh`, `4+N+M` for a `Uniform` with name length `N` and data length `M`), so that
after `ReadType` and the matching `ReadCmd*` the cursor is at the first byte after the
record, whatever bytes `post` later calls append. -/
theorem cursor_advance (buf : CommandBuffer) (hinv : buf.Inv) (post : List Byte) :
    (∀ (reader : CommandBufferReader) (h : reader.Offset_ < reader.Data_.length),
      reader.ReadType =
        some (reader.Data_[reader.Offset_],
          { Offset_ := reader.Offset_ + 1, Data_ := reader.Data_ })) ∧
    (∀ r g b a : Nat, ∃ col,
      CommandBufferReader.ReadCmdClear
          { Offset_ := buf.Data_.length + 1, Data_ := (buf.CmdClear r g b a).GetData ++ post } =
        some (col, { Offset_ := buf.Data_.length + 1 + 16,
                     Data_ := (buf.CmdClear r g b a).GetData ++ post }) ∧
      buf.Data_.length + 1 + 16 = (buf.CmdClear r g b a).GetData.length) ∧
    (∀ shader : Nat, ∃ v,
      CommandBufferReader.ReadCmdBindShader
          { Offset_ := buf.Data_.length + 1, Data_ := (buf.CmdBindShader shader).GetData ++ post } =
        some (v, { Offset_ := buf.Data_.length + 1 + 8,
                   Data_ := (buf.CmdBindShader shader).GetData ++ post }) ∧
      buf.Data_.length + 1 + 8 = (buf.CmdBindShader shader).GetData.length) ∧
    (∀ mesh : Nat, ∃ v,
      CommandBufferReader.ReadCmdDrawMesh
          { Offset_ := buf.Data_.length + 1, Data_ := (buf.CmdDrawMesh mesh).GetData ++ post } =
        some (v, { Offset_ := buf.Data_.length + 1 + 8,
                   Data_ := (buf.CmdDrawMesh mesh).GetData ++ post }) ∧
      buf.Data_.length + 1 + 8 = (buf.CmdDrawMesh mesh).GetData.length) ∧
    (∀ (name value : List Byte) (dataType : DataType) (x y : Nat),
      (∀ c ∈ name, c ≠ 0) → name.length + 1 ≤ 255 →
      value.length = GetElementSize dataType * x * y → GetElementSize dataType * x * y ≤ 255 →
      ∃ u, CommandBufferReader.ReadCmdUniform
          { Offset_ := buf.Data_.length + 1,
            Data_ := (buf.CmdUniform name value dataType x y).GetData ++ post } =
        some (u, { Offset_ := buf.Data_.length + 1 +
                     (4 + (name.length + 1) + GetElementSize dataType * x * y),
                   Data_ := (buf.CmdUniform name value dataType x y).GetData ++ post }) ∧
      buf.Data_.length + 1 + (4 + (name.length + 1) + GetElementSize dataType * x * y) =
        (buf.CmdUniform name value dataType x y).GetData.length) := by
  refine ⟨fun reader h => ?_, fun r g b a => ?_, fun shader => ?_, fun mesh => ?_,
    fun name value dataType x y hnul hN hval hM => ?_⟩
  · unfold CommandBufferReader.ReadType
    rw [List.getElem?_eq_getElem h]
  · simp only [CommandBuffer.GetData, CmdClear_eq buf hinv]
    refine ⟨_, ReadCmdClear_at buf.Data_ post _ r g b a _ rfl, ?_⟩
    simp [storeLE_length]
  · simp only [CommandBuffer.GetData, CmdBindShader_eq buf hinv]
    refine ⟨_, ReadCmdBindShader_at buf.Data_ post _ shader _ rfl, ?_⟩
    simp [storeLE_length]
  · simp only [CommandBuffer.GetData, CmdDrawMesh_eq buf hinv]
    refine ⟨_, ReadCmdDrawMesh_at buf.Data_ post _ mesh _ rfl, ?_⟩
    simp [storeLE_length]
  · rw [CmdUniform_data buf hinv name value dataType x y hnul hval]
    have hU := ReadCmdUniform_at buf.Data_ post name value CommandType.Uniform.toByte
      dataType.toByte (toByte ((x &&& 0xFF) ||| (y <<< 4))) (buf.Data_.length + 1) rfl
      (by omega) (by omega)
    refine ⟨{ Type_ := dataType.toByte,
              SizeX := ((toByte ((x &&& 0xFF) ||| (y <<< 4))).val &&& 0xFF) % 16,
              SizeY := ((toByte ((x &&& 0xFF) ||| (y <<< 4))).val >>> 4) % 16,
              Name := buf.Data_.length + 4,
              Data := (buf.Data_.length + 4 + (name.length + 1) + 1, value.length) }, ?_, ?_⟩
    · rw [hU, ← hval]
      simp only [Option.some.injEq, Prod.mk.injEq, CommandBufferReader.mk.injEq, true_and,
        and_true]
      omega
    · simp [← hval]; omega

/-- Witness for C9: the uniform record of `main` appended after its clear and bind records,
followed by an `End` byte. -/
theorem cursor_advance_witness :
    (CommandBuffer.empty.CmdClear 1 2 3 4).Inv ∧
    ∃ u, CommandBufferReader.ReadCmdUniform
        { Offset_ := (CommandBuffer.empty.CmdClear 1 2 3 4).Data_.length + 1,
          Data_ := ((CommandBuffer.empty.CmdClear 1 2 3 4).CmdUniform uTransform sampleMatrix
            DataType.Float32 4 4).GetData ++ [255] } =
      some (u, { Offset_ := (CommandBuffer.empty.CmdClear 1 2 3 4).Data_.length + 1 +
                   (4 + (uTransform.length + 1) + GetElementSize DataType.Float32 * 4 * 4),
                 Data_ := ((CommandBuffer.empty.CmdClear 1 2 3 4).CmdUniform uTransform
                   sampleMatrix DataType.Float32 4 4).GetData ++ [255] }) ∧
      (CommandBuffer.empty.CmdClear 1 2 3 4).Data_.length + 1 +
          (4 + (uTransform.length + 1) + GetElementSize DataType.Float32 * 4 * 4) =
        ((CommandBuffer.empty.CmdClear 1 2 3 4).CmdUniform uTransform sampleMatrix
          DataType.Float32 4 4).GetData.length :=
  ⟨by decide,
    (cursor_advance (CommandBuffer.empty.CmdClear 1 2 3 4) (by decide) [255]).2.2.2.2
      uTransform sampleMatrix DataType.Float32 4 4 (by decide) (by decide) (by decide)
      (by decide)⟩

/-! ## The flush loop on recorded buffers -/

theorem floats_getD (i : Nat) :
    ∀ (value : List Byte), 4 * i + 4 ≤ value.length →
      (floats value).getD i 0 = loadLE ((value.drop (4 * i)).take 4) := by
  induction i with
  | zero =>
    intro value h
    match value, h with
    | b0 :: b1 :: b2 :: b3 :: rest, _ => simp [floats]
  | succ k ih =>
    intro value h
    match value, h with
    | b0 :: b1 :: b2 :: b3 :: rest, h =>
      have hk : 4 * k + 4 ≤ rest.length := by simp at h; omega
      have e : 4 * (k + 1) = 4 * k + 1 + 1 + 1 + 1 := by omega
      simp only [floats, List.getD_cons_succ, ih rest hk, e, List.drop_succ_cons]

theorem readFloat_at (pre value post : List Byte) (ptr i : Nat) (hp : ptr = pre.length)
    (h : 4 * i + 4 ≤ value.length) :
    readFloat (pre ++ value ++ post) ptr i = some ((floats value).getD i 0) := by
  have hsplit : value = value.take (4 * i) ++ ((value.drop (4 * i)).take 4 ++
      (value.drop (4 * i)).drop 4) := by simp
  have hr := readBytes_append (pre ++ value.take (4 * i)) ((value.drop (4 * i)).take 4)
    ((value.drop (4 * i)).drop 4 ++ post) (ptr + 4 * i) 4
    (by simp [hp]; omega) (by simp; omega)
  have e : pre ++ value.take (4 * i) ++ (value.drop (4 * i)).take 4 ++
      ((value.drop (4 * i)).drop 4 ++ post) = pre ++ value ++ post := by
    conv_rhs => rw [hsplit]
    simp only [List.append_assoc]
  rw [e] at hr
  unfold readFloat
  rw [hr, floats_getD i value h]
  rfl

theorem readFloats_at (pre value post : List Byte) (ptr n : Nat) (hp : ptr = pre.length)
    (h : value.length = 4 * n) :
    readFloats (pre ++ value ++ post) ptr n = some (floats value) := by
  unfold readFloats
  rw [readBytes_append pre value post ptr (4 * n) hp h.symm]
  rfl

theorem DrawMesh_of_bound (mesh : Mesh) (meshPtr shader : Nat) (hs : shader ≠ 0)
    (hm : meshPtr ≠ 0) :
    DrawMesh_ mesh meshPtr shader = Except.ok (expectedDraw mesh meshPtr shader) := by
  unfold DrawMesh_ expectedDraw toGLsizei
  rw [if_neg hs, if_neg hm]
  cases mesh.Indexed_ <;> simp

theorem DrawMesh_of_null (mesh : Mesh) (meshPtr shader : Nat) (h : shader = 0 ∨ meshPtr = 0) :
    DrawMesh_ mesh meshPtr shader = Except.error Stop.Fault := by
  unfold DrawMesh_
  by_cases hs : shader = 0
  · simp [hs]
  · have hm : meshPtr = 0 := h.resolve_left hs
    simp [hs, hm]

theorem SetUniform_float32 (mem name value : List Byte) (x y np dp shader : Nat)
    (hs : shader ≠ 0)
    (hx : x ≤ 15) (hy : y ≤ 15) (hlen : value.length = 4 * x * y)
    (hname : cstrAt mem np = some name)
    (hfl : ∀ i, 4 * i + 4 ≤ value.length → readFloat mem dp i = some ((floats value).getD i 0))
    (hfs : ∀ n, value.length = 4 * n → readFloats mem dp n = some (floats value)) :
    SetUniform_ mem
        { Type_ := DataType.Float32.toByte, SizeX := x, SizeY := y, Name := np,
          Data := (dp, value.length) } shader =
      Except.ok (expectedUploads shader name value x y) := by
  unfold SetUniform_ expectedUploads SupportedShape
  rw [if_neg hs]
  simp only [hname, if_true]
  by_cases hg : y = 1 ∨ x = y
  · simp only [hg, if_true, true_and]
    rcases hg with h1 | h1
    · subst h1
      interval_cases x <;> simp +decide [uploadOf] at hlen ⊢ <;>
        simp [hfl, hfs, hlen]
    · subst h1
      interval_cases x <;> simp +decide [uploadOf] at hlen ⊢ <;>
        simp [hfl, hfs, hlen]
  · simp [hg]

theorem FlushLoop_encode (meshes : Nat → Mesh) (cs : List Command) :
    ∀ (pre post : List Byte) (o shader fuel : Nat), o = pre.length → cs.length + 1 ≤ fuel →
      (∀ c ∈ cs, Flushable c) → HandlesBound shader cs →
      FlushLoop meshes fuel
          { Offset_ := o, Data_ := pre ++ encodeAll cs ++ CommandType.End.toByte :: post }
          shader =
        { Actions := expectedActions meshes shader cs, Status := Status.Completed,
          Cursor := o + (encodeAll cs).length + 1 } := by
  obtain ⟨t1, t2, t3, t4, t5, t6, t7, t8, t9, t10⟩ := tags_distinct
  induction cs with
  | nil =>
    intro pre post o shader fuel ho hf _ _
    obtain ⟨f, rfl⟩ : ∃ f, fuel = f + 1 := ⟨fuel - 1, by simp at hf; omega⟩
    simp only [encodeAll, List.append_nil, List.length_nil, Nat.add_zero]
    rw [FlushLoop, ReadType_at pre post _ o ho]
    simp [expectedActions]
  | cons c cs ih =>
    intro pre post o shader fuel ho hf hfl hb
    obtain ⟨f, rfl⟩ : ∃ f, fuel = f + 1 := ⟨fuel - 1, by simp at hf; omega⟩
    have hf' : cs.length + 1 ≤ f := by simp at hf; omega
    have hc := hfl c (by simp)
    have hrest : ∀ d ∈ cs, Flushable d := fun d hd => hfl d (by simp [hd])
    generalize hD : pre ++ encodeAll (c :: cs) ++ CommandType.End.toByte :: post = D
    have e3 : (pre ++ c.encode) ++ encodeAll cs ++ CommandType.End.toByte :: post = D := by
      rw [← hD]; simp [encodeAll]
    have hIH := fun s (hs : HandlesBound s cs) =>
      ih (pre ++ c.encode) post (o + c.encode.length) s f (by simp [ho]) hf' hrest hs
    rw [e3] at hIH
    have hcur : o + c.encode.length + (encodeAll cs).length + 1 =
        o + (encodeAll (c :: cs)).length + 1 := by simp [encodeAll]; omega
    rw [hcur] at hIH
    cases c with
    | Clear r g b a =>
      obtain ⟨hr, hg, hbl, ha⟩ := hc
      have hb1 : HandlesBound shader cs := hb
      have e1 : pre ++ CommandType.Clear.toByte ::
          ((storeLE 4 r ++ storeLE 4 g ++ storeLE 4 b ++ storeLE 4 a) ++
            (encodeAll cs ++ CommandType.End.toByte :: post)) = D := by
        rw [← hD]; simp [encodeAll, Command.encode]
      have e2 : pre ++ CommandType.Clear.toByte ::
          (storeLE 4 r ++ storeLE 4 g ++ storeLE 4 b ++ storeLE 4 a) ++
            (encodeAll cs ++ CommandType.End.toByte :: post) = D := by
        rw [← hD]; simp [encodeAll, Command.encode]
      have hT := ReadType_at pre ((storeLE 4 r ++ storeLE 4 g ++ storeLE 4 b ++ storeLE 4 a) ++
        (encodeAll cs ++ CommandType.End.toByte :: post)) CommandType.Clear.toByte o ho
      have hR := ReadCmdClear_at pre (encodeAll cs ++ CommandType.End.toByte :: post)
        CommandType.Clear.toByte r g b a (o + 1) (by omega)
      rw [e1] at hT
      rw [e2, Nat.mod_eq_of_lt hr, Nat.mod_eq_of_lt hg, Nat.mod_eq_of_lt hbl,
        Nat.mod_eq_of_lt ha] at hR
      have hlen : (Command.Clear r g b a).encode.length = 17 := by
        simp [Command.encode, storeLE_length]
      rw [hlen] at hIH
      rw [FlushLoop, hT]
      simp only [t4, t7, t9, t10, if_false, if_true]
      rw [hR]
      simp only [Nat.add_assoc] at hIH ⊢
      rw [hIH _ hb1]
      simp [FlushResult.after, expectedActions, Clear_]
    | BindShader s =>
      have hs : s < 2 ^ 64 := hc
      have hb1 : HandlesBound s cs := hb
      have e1 : pre ++ CommandType.BindShader.toByte ::
          (storeLE 8 s ++ (encodeAll cs ++ CommandType.End.toByte :: post)) = D := by
        rw [← hD]; simp [encodeAll, Command.encode]
      have e2 : pre ++ CommandType.BindShader.toByte :: storeLE 8 s ++
            (encodeAll cs ++ CommandType.End.toByte :: post) = D := by
        rw [← hD]; simp [encodeAll, Command.encode]
      have hT := ReadType_at pre (storeLE 8 s ++
        (encodeAll cs ++ CommandType.End.toByte :: post)) CommandType.BindShader.toByte o ho
      have hR := ReadCmdBindShader_at pre (encodeAll cs ++ CommandType.End.toByte :: post)
        CommandType.BindShader.toByte s (o + 1) (by omega)
      rw [e1] at hT
      rw [e2, Nat.mod_eq_of_lt hs] at hR
      have hlen : (Command.BindShader s).encode.length = 9 := by
        simp [Command.encode, storeLE_length]
      rw [hlen] at hIH
      rw [FlushLoop, hT]
      simp only [t2, t5, if_false, if_true]
      rw [hR]
      simp only [Nat.add_assoc] at hIH ⊢
      rw [hIH _ hb1]
      simp [expectedActions]
    | DrawMesh m =>
      have hm : m < 2 ^ 64 := hc
      obtain ⟨hs0, hm0, hb1⟩ : shader ≠ 0 ∧ m ≠ 0 ∧ HandlesBound shader cs := hb
      have e1 : pre ++ CommandType.DrawMesh.toByte ::
          (storeLE 8 m ++ (encodeAll cs ++ CommandType.End.toByte :: post)) = D := by
        rw [← hD]; simp [encodeAll, Command.encode]
      have e2 : pre ++ CommandType.DrawMesh.toByte :: storeLE 8 m ++
            (encodeAll cs ++ CommandType.End.toByte :: post) = D := by
        rw [← hD]; simp [encodeAll, Command.encode]
      have hT := ReadType_at pre (storeLE 8 m ++
        (encodeAll cs ++ CommandType.End.toByte :: post)) CommandType.DrawMesh.toByte o ho
      have hR := ReadCmdDrawMesh_at pre (encodeAll cs ++ CommandType.End.toByte :: post)
        CommandType.DrawMesh.toByte m (o + 1) (by omega)
      rw [e1] at hT
      rw [e2, Nat.mod_eq_of_lt hm] at hR
      have hlen : (Command.DrawMesh m).encode.length = 9 := by
        simp [Command.encode, storeLE_length]
      rw [hlen] at hIH
      rw [FlushLoop, hT]
      simp only [t1, if_false, if_true]
      rw [hR]
      simp only []
      rw [DrawMesh_of_bound _ _ _ hs0 hm0]
      simp only [Nat.add_assoc] at hIH ⊢
      rw [hIH _ hb1]
      simp [FlushResult.after, expectedActions]
    | Uniform name value t x y =>
      obtain ⟨⟨hx, hy, hnul, hlenN, hval, hmax⟩, ht⟩ := hc
      obtain ⟨hs0, hb1⟩ : shader ≠ 0 ∧ HandlesBound shader cs := hb
      subst ht
      have hval4 : value.length = 4 * x * y := hval
      generalize hpost : encodeAll cs ++ CommandType.End.toByte :: post = post' at *
      have e1 : pre ++ CommandType.Uniform.toByte :: (DataType.Float32.toByte ::
          toByte (x + 16 * y) :: toByte (name.length + 1) ::
          (name ++ [0] ++ toByte value.length :: value) ++ post') = D := by
        rw [← hD, ← hpost]; simp [encodeAll, Command.encode]
      have e2 : pre ++ (CommandType.Uniform.toByte :: DataType.Float32.toByte ::
          toByte (x + 16 * y) :: toByte (name.length + 1) ::
          (name ++ [0] ++ toByte value.length :: value)) ++ post' = D := by
        rw [← hD, ← hpost]; simp [encodeAll, Command.encode]
      have e4 : (pre ++ [CommandType.Uniform.toByte, DataType.Float32.toByte,
          toByte (x + 16 * y), toByte (name.length + 1)] ++ name ++ [0] ++
          [toByte value.length]) ++ value ++ post' = D := by
        rw [← hD, ← hpost]; simp [encodeAll, Command.encode]
      have hT := ReadType_at pre (DataType.Float32.toByte ::
          toByte (x + 16 * y) :: toByte (name.length + 1) ::
          (name ++ [0] ++ toByte value.length :: value) ++ post') CommandType.Uniform.toByte o ho
      have hR := ReadCmdUniform_at pre post' name value CommandType.Uniform.toByte
        DataType.Float32.toByte (toByte (x + 16 * y)) (o + 1) (by omega) (by omega) (by omega)
      obtain ⟨hn1, -⟩ := uniform_name_at pre post' name value CommandType.Uniform.toByte
        DataType.Float32.toByte (toByte (x + 16 * y)) hnul
      obtain ⟨ux, uy⟩ := unpack_sizes x y hx hy
      rw [e1] at hT
      rw [e2, ux, uy] at hR
      rw [e2] at hn1
      have hS := SetUniform_float32 D name value x y (pre.length + 4)
        (pre.length + 4 + (name.length + 1) + 1) shader hs0 hx hy hval4 hn1
        (fun i hi => by
          rw [← e4]
          exact readFloat_at _ value post' _ i (by simp; omega) hi)
        (fun n hn => by
          rw [← e4]
          exact readFloats_at _ value post' _ n (by simp; omega) hn)
      have hlen : (Command.Uniform name value DataType.Float32 x y).encode.length =
          4 + (name.length + 1) + 1 + value.length := by
        simp [Command.encode]; omega
      rw [hlen] at hIH
      rw [FlushLoop, hT]
      simp only [t3, t6, t8, if_false, if_true]
      rw [hR]
      simp only []
      rw [hS]
      simp only [ho, Nat.add_assoc] at hIH ⊢
      rw [hIH _ hb1]
      simp [FlushResult.after, expectedActions]

theorem encodeAll_length_ge (cs : List Command) : cs.length ≤ (encodeAll cs).length := by
  induction cs with
  | nil => simp [encodeAll]
  | cons c cs ih =>
    have hc : 1 ≤ c.encode.length := by cases c <;> simp [Command.encode]
    simp only [encodeAll, List.length_cons, List.length_append]
    omega

theorem Flushable.wellFormed {c : Command} (h : Flushable c) : c.WellFormed := by
  cases c with
  | Uniform name value t x y => exact h.1
  | Clear r g b a => exact h
  | BindShader s => exact h
  | DrawMesh m => exact h

theorem Dispatchable.flushable {c : Command} (h : Dispatchable c) : Flushable c := by
  cases c with
  | Uniform name value t x y => exact ⟨h.1, h.2.1⟩
  | Clear r g b a => exact h
  | BindShader s => exact h
  | DrawMesh m => exact h

theorem FlushCommandBuffer_recorded (meshes : Nat → Mesh) (cs : List Command)
    (hfl : ∀ c ∈ cs, Flushable c) (hb : HandlesBound 0 cs) :
    FlushCommandBuffer meshes (CommandBuffer.empty.recordAll cs).End =
      { Actions := expectedActions meshes 0 cs, Status := Status.Completed,
        Cursor := (CommandBuffer.empty.recordAll cs).End.GetData.length } := by
  have hwf : ∀ c ∈ cs, c.WellFormed := fun c hc => (hfl c hc).wellFormed
  have hrec := recordAll_eq cs CommandBuffer.empty rfl hwf
  have hinv : (CommandBuffer.empty.recordAll cs).Inv := by
    rw [hrec]; simp [CommandBuffer.Inv, CommandBuffer.empty]
  rw [End_eq _ hinv, hrec]
  have hge := encodeAll_length_ge cs
  have := FlushLoop_encode meshes cs [] [] 0 0 ((encodeAll cs).length + 1 + 1) rfl (by omega)
    hfl hb
  simpa [FlushCommandBuffer, CommandBufferReader.new, CommandBuffer.GetData,
    CommandBuffer.empty] using this

theorem expectedUploads_length (shader : Nat) (name value : List Byte) (x y : Nat)
    (h : SupportedShape x y) : (expectedUploads shader name value x y).length = 1 := by
  unfold expectedUploads
  simp only [h, if_true]
  obtain ⟨-, h1 | h1 | h1 | h1 | h1 | h1⟩ := h <;> simp [uploadOf, h1]

theorem expectedActions_length (meshes : Nat → Mesh) (cs : List Command) :
    ∀ shader, (∀ c ∈ cs, Dispatchable c) →
      (expectedActions meshes shader cs).length =
        (cs.filter (fun c => !c.isBindShader)).length := by
  induction cs with
  | nil => intro _ _; rfl
  | cons c cs ih =>
    intro shader hd
    have hrest : ∀ d ∈ cs, Dispatchable d := fun d hm => hd d (by simp [hm])
    have hc := hd c (by simp)
    cases c with
    | Clear r g b a => simp [expectedActions, Command.isBindShader, ih shader hrest]
    | BindShader s => simp [expectedActions, Command.isBindShader, ih s hrest]
    | DrawMesh m => simp [expectedActions, Command.isBindShader, ih shader hrest]
    | Uniform name value t x y =>
      simp [expectedActions, Command.isBindShader, ih shader hrest,
        expectedUploads_length shader name value x y hc.2.2]
      omega

/-! ## The iteration bound of the flush loop is never reached -/

theorem ReadType_some {r r1 : CommandBufferReader} {t : Byte}
    (h : r.ReadType = some (t, r1)) :
    r.Offset_ < r.Data_.length ∧ r1.Offset_ = r.Offset_ + 1 ∧ r1.Data_ = r.Data_ := by
  unfold CommandBufferReader.ReadType at h
  cases hg : r.Data_[r.Offset_]? with
  | none => simp [hg] at h
  | some b =>
    simp only [hg, Option.some.injEq, Prod.mk.injEq] at h
    obtain ⟨-, rfl⟩ := h
    have := List.getElem?_eq_some_iff.mp hg
    exact ⟨this.1, rfl, rfl⟩

theorem ReadCmdDrawMesh_some {r r1 : CommandBufferReader} {v : Nat}
    (h : r.ReadCmdDrawMesh = some (v, r1)) :
    r.Offset_ ≤ r1.Offset_ ∧ r1.Data_ = r.Data_ := by
  unfold CommandBufferReader.ReadCmdDrawMesh at h
  split at h
  · simp at h
  · simp only [Option.some.injEq, Prod.mk.injEq] at h
    obtain ⟨-, rfl⟩ := h
    exact ⟨Nat.le_add_right _ _, rfl⟩

theorem ReadCmdBindShader_some {r r1 : CommandBufferReader} {v : Nat}
    (h : r.ReadCmdBindShader = some (v, r1)) :
    r.Offset_ ≤ r1.Offset_ ∧ r1.Data_ = r.Data_ := by
  unfold CommandBufferReader.ReadCmdBindShader at h
  split at h
  · simp at h
  · simp only [Option.some.injEq, Prod.mk.injEq] at h
    obtain ⟨-, rfl⟩ := h
    exact ⟨Nat.le_add_right _ _, rfl⟩

theorem ReadCmdClear_some {r r1 : CommandBufferReader} {v : ClearColor}
    (h : r.ReadCmdClear = some (v, r1)) :
    r.Offset_ ≤ r1.Offset_ ∧ r1.Data_ = r.Data_ := by
  unfold CommandBufferReader.ReadCmdClear at h
  split at h
  · simp at h
  · simp only [Option.some.injEq, Prod.mk.injEq] at h
    obtain ⟨-, rfl⟩ := h
    exact ⟨Nat.le_add_right _ _, rfl⟩

theorem ReadCmdUniform_some {r r1 : CommandBufferReader} {v : UniformData}
    (h : r.ReadCmdUniform = some (v, r1)) :
    r.Offset_ ≤ r1.Offset_ ∧ r1.Data_ = r.Data_ := by
  unfold CommandBufferReader.ReadCmdUniform at h
  cases h0 : r.Data_[r.Offset_]? with
  | none => simp [h0] at h
  | some ty =>
    cases h1 : r.Data_[r.Offset_ + 1]? with
    | none => simp [h0, h1] at h
    | some sz =>
      cases h2 : r.Data_[r.Offset_ + 1 + 1]? with
      | none => simp [h0, h1, h2] at h
      | some ns =>
        cases h3 : r.Data_[r.Offset_ + 1 + 1 + 1 + ns.val]? with
        | none => simp [h0, h1, h2, h3] at h
        | some ds =>
          simp only [h0, h1, h2, h3, Option.some.injEq, Prod.mk.injEq] at h
          obtain ⟨-, rfl⟩ := h
          exact ⟨by simp only []; omega, rfl⟩

theorem FlushLoop_fuel (meshes : Nat → Mesh) (fuel : Nat) :
    ∀ (r : CommandBufferReader) (shader : Nat), r.Data_.length - r.Offset_ < fuel →
      (FlushLoop meshes fuel r shader).Status ≠ Status.OutOfFuel := by
  induction fuel with
  | zero => intro r _ h; omega
  | succ f ih =>
    intro r shader h
    rw [FlushLoop]
    split
    · simp
    · rename_i t r1 hT
      obtain ⟨h1, h2, h3⟩ := ReadType_some hT
      have hnext : ∀ r2 : CommandBufferReader, r1.Offset_ ≤ r2.Offset_ ∧ r2.Data_ = r1.Data_ →
          r2.Data_.length - r2.Offset_ < f := by
        intro r2 ⟨ha, hb⟩
        rw [hb, h3]; omega
      split
      · simp
      · split
        · split
          · simp
          · rename_i hR
            split
            · simp
            · simpa [FlushResult.after] using ih _ _ (hnext _ (ReadCmdDrawMesh_some hR))
        · split
          · split
            · simp
            · rename_i hR
              exact ih _ _ (hnext _ (ReadCmdBindShader_some hR))
          · split
            · split
              · simp
              · rename_i hR
                split
                · simp
                · simp
                · simpa [FlushResult.after] using ih _ _ (hnext _ (ReadCmdUniform_some hR))
            · split
              · split
                · simp
                · rename_i hR
                  simpa [FlushResult.after] using ih _ _ (hnext _ (ReadCmdClear_some hR))
              · exact ih _ _ (hnext _ ⟨Nat.le_refl _, rfl⟩)

theorem FlushCommandBuffer_total (meshes : Nat → Mesh) (cmdBuf : CommandBuffer) :
    (FlushCommandBuffer meshes cmdBuf).Status ≠ Status.OutOfFuel :=
  FlushLoop_fuel meshes _ _ _ (by simp [CommandBufferReader.new])

theorem after_cursor (acts : List Action) (res : FlushResult) :
    (res.after acts).Cursor = res.Cursor := rfl

theorem FlushLoop_withReader (meshes : Nat → Mesh) (fuel : Nat) :
    ∀ (r : CommandBufferReader) (shader : Nat),
      (FlushLoop.withReader meshes fuel r shader).1 = FlushLoop meshes fuel r shader ∧
      (FlushLoop.withReader meshes fuel r shader).2.Data_ = r.Data_ ∧
      (FlushLoop.withReader meshes fuel r shader).2.Offset_ =
        (FlushLoop meshes fuel r shader).Cursor := by
  induction fuel with
  | zero => intro r s; simp [FlushLoop.withReader, FlushLoop]
  | succ f ih =>
    intro r shader
    rw [FlushLoop.withReader, FlushLoop]
    cases hT : r.ReadType with
    | none => simp
    | some p =>
      obtain ⟨t, r1⟩ := p
      obtain ⟨-, -, hd1⟩ := ReadType_some hT
      simp only []
      by_cases h1 : t = CommandType.End.toByte
      · simp [h1, hd1]
      · simp only [h1, if_false]
        by_cases h2 : t = CommandType.DrawMesh.toByte
        · simp only [h2, if_true]
          cases hR : r1.ReadCmdDrawMesh with
          | none => simp [hd1]
          | some q =>
            obtain ⟨m, r2⟩ := q
            have hd2 := (ReadCmdDrawMesh_some hR).2
            simp only []
            cases hD : DrawMesh_ (meshes m) m shader with
            | error e => simp [hd2, hd1]
            | ok act =>
              obtain ⟨i1, i2, i3⟩ := ih r2 shader
              simp [i1, i2, i3, hd2, hd1, after_cursor]
        · simp only [h2, if_false]
          by_cases h3 : t = CommandType.BindShader.toByte
          · simp only [h3, if_true]
            cases hR : r1.ReadCmdBindShader with
            | none => simp [hd1]
            | some q =>
              obtain ⟨s2, r2⟩ := q
              have hd2 := (ReadCmdBindShader_some hR).2
              obtain ⟨i1, i2, i3⟩ := ih r2 s2
              simp [i1, i2, i3, hd2, hd1]
          · simp only [h3, if_false]
            by_cases h4 : t = CommandType.Uniform.toByte
            · simp only [h4, if_true]
              cases hR : r1.ReadCmdUniform with
              | none => simp [hd1]
              | some q =>
                obtain ⟨u, r2⟩ := q
                have hd2 := (ReadCmdUniform_some hR).2
                simp only []
                cases hS : SetUniform_ r2.Data_ u shader with
                | error e => cases e <;> simp [hd2, hd1]
                | ok acts =>
                  obtain ⟨i1, i2, i3⟩ := ih r2 shader
                  simp [i1, i2, i3, hd2, hd1, after_cursor]
            · simp only [h4, if_false]
              by_cases h5 : t = CommandType.Clear.toByte
              · simp only [h5, if_true]
                cases hR : r1.ReadCmdClear with
                | none => simp [hd1]
                | some q =>
                  obtain ⟨c, r2⟩ := q
                  have hd2 := (ReadCmdClear_some hR).2
                  obtain ⟨i1, i2, i3⟩ := ih r2 shader
                  simp [i1, i2, i3, hd2, hd1, after_cursor]
              · simp only [h5, if_false]
                obtain ⟨i1, i2, i3⟩ := ih r1 shader
                simp [i1, i2, i3, hd1]

theorem FlushCommandBuffer_withBuffer (meshes : Nat → Mesh) (cmdBuf : CommandBuffer) :
    (FlushCommandBuffer.withBuffer meshes cmdBuf).1 = FlushCommandBuffer meshes cmdBuf ∧
    (FlushCommandBuffer.withBuffer meshes cmdBuf).2 = cmdBuf := by
  obtain ⟨h1, h2, -⟩ := FlushLoop_withReader meshes (cmdBuf.GetData.length + 1)
    (CommandBufferReader.new cmdBuf.GetData) 0
  unfold FlushCommandBuffer.withBuffer FlushCommandBuffer
  simp only [h1, h2, true_and]
  cases cmdBuf
  simp [CommandBufferReader.new, CommandBuffer.GetData]

/-! ## Claims on oversized uniforms and on the flush -/

/-- C5 (counterexample): `CmdUniform` with a 255-character name (256 bytes with the
terminator) is not rejected: the call appends a record of 265 bytes whose name-length byte
is 0, the truncation of 256. -/
theorem oversized_uniform_accepted :
    CommandBuffer.empty.CmdUniform (List.replicate 255 65) [1, 2, 3, 4] DataType.Float32 1 1 =
      { Count_ := 1, Offset_ := 265,
        Data_ := [2, 0, 17, 0] ++ List.replicate 255 65 ++ [0, 4, 1, 2, 3, 4] } := by
  decide

/-- C5 (amended): the writer performs no length check. A `CmdUniform` call whose name
length with terminator `N` or payload byte count `M` is 256 or more is accepted like any
other: the command count grows by one and a record of `5+N+M` bytes is appended whose
length bytes hold `N mod 256` and `M mod 256`, at least one of which differs from the real
length. Keeping both within 255 is left to the caller. -/
theorem oversized_uniform_not_rejected (buf : CommandBuffer) (hinv : buf.Inv)
    (name value : List Byte) (dataType : DataType) (x y : Nat) (hnul : ∀ c ∈ name, c ≠ 0)
    (hval : value.length = GetElementSize dataType * x * y)
    (hover : 256 ≤ name.length + 1 ∨ 256 ≤ GetElementSize dataType * x * y) :
    (buf.CmdUniform name value dataType x y).Count_ = buf.Count_ + 1 ∧
    (buf.CmdUniform name value dataType x y).GetData =
      buf.Data_ ++ (CommandType.Uniform.toByte :: dataType.toByte ::
        toByte ((x &&& 0xFF) ||| (y <<< 4)) :: toByte (name.length + 1) ::
        (name ++ [0] ++ toByte (GetElementSize dataType * x * y) :: value)) ∧
    (buf.CmdUniform name value dataType x y).GetData.length =
      buf.Data_.length + (5 + (name.length + 1) + GetElementSize dataType * x * y) ∧
    (toByte (name.length + 1)).val = (name.length + 1) % 256 ∧
    (toByte (GetElementSize dataType * x * y)).val = (GetElementSize dataType * x * y) % 256 ∧
    ((toByte (name.length + 1)).val ≠ name.length + 1 ∨
      (toByte (GetElementSize dataType * x * y)).val ≠ GetElementSize dataType * x * y) := by
  have hN := strlen_append_nul name hnul
  refine ⟨?_, ?_, ?_, rfl, rfl, ?_⟩
  · rw [CmdUniform_eq buf hinv name value dataType x y (name.length + 1) value.length
      (by rw [hN]) hval (Nat.le_refl _)]
  · rw [CmdUniform_data buf hinv name value dataType x y hnul hval, hval]
  · rw [CmdUniform_data buf hinv name value dataType x y hnul hval]
    simp [← hval]; omega
  · simp only [toByte_val]
    rcases hover with h | h
    · left; omega
    · right; omega

/-- Witness for C5 (amended): a 255-character name on an empty buffer. -/
theorem oversized_uniform_not_rejected_witness :
    CommandBuffer.empty.Inv ∧ (∀ c ∈ List.replicate 255 (65 : Byte), c ≠ 0) ∧
    (256 ≤ (List.replicate 255 (65 : Byte)).length + 1 ∨
      256 ≤ GetElementSize DataType.Float32 * 1 * 1) ∧
    (CommandBuffer.empty.CmdUniform (List.replicate 255 65) [1, 2, 3, 4]
      DataType.Float32 1 1).Count_ = CommandBuffer.empty.Count_ + 1 ∧
    (toByte ((List.replicate 255 (65 : Byte)).length + 1)).val =
      ((List.replicate 255 (65 : Byte)).length + 1) % 256 :=
  have h := oversized_uniform_not_rejected CommandBuffer.empty (by decide)
    (List.replicate 255 65) [1, 2, 3, 4] DataType.Float32 1 1 (by decide) (by decide)
    (by decide)
  ⟨by decide, by decide, by decide, h.1, h.2.2.2.1⟩

theorem readBytes_some {mem bs : List Byte} {off n : Nat} (h : readBytes mem off n = some bs) :
    mem = mem.take off ++ bs ++ mem.drop (off + n) ∧ bs.length = n ∧
      (mem.take off).length = off := by
  unfold readBytes at h
  split at h
  · rename_i hle
    simp only [Option.some.injEq] at h
    subst h
    refine ⟨?_, ?_, ?_⟩
    · rw [List.append_assoc, ← List.drop_drop, List.take_append_drop, List.take_append_drop]
    · simp; omega
    · simp; omega
  · simp at h

theorem readFloat_of_readBytes {mem bs : List Byte} {off n : Nat}
    (h : readBytes mem off n = some bs) (i : Nat) (hi : 4 * i + 4 ≤ n) :
    readFloat mem off i = some ((floats bs).getD i 0) := by
  obtain ⟨h1, h2, h3⟩ := readBytes_some h
  rw [h1]
  exact readFloat_at _ bs _ off i h3.symm (by omega)

theorem readFloats_of_readBytes {mem bs : List Byte} {off k : Nat}
    (h : readBytes mem off (4 * k) = some bs) :
    readFloats mem off k = some (floats bs) := by
  unfold readFloats
  rw [h]; rfl

theorem FlushLoop_uniform_step (meshes : Nat → Mesh) (fuel : Nat)
    (r r1 r2 : CommandBufferReader) (data : UniformData) (shader : Nat)
    (hT : r.ReadType = some (CommandType.Uniform.toByte, r1))
    (hU : r1.ReadCmdUniform = some (data, r2)) :
    FlushLoop meshes (fuel + 1) r shader =
      match SetUniform_ r2.Data_ data shader with
      | Except.error Stop.Exit => { Actions := [], Status := Status.Exited, Cursor := r2.Offset_ }
      | Except.error Stop.Fault => { Actions := [], Status := Status.Fault, Cursor := r2.Offset_ }
      | Except.ok acts => (FlushLoop meshes fuel r2 shader).after acts := by
  obtain ⟨t1, t2, t3, t4, t5, t6, t7, t8, t9, t10⟩ := tags_distinct
  rw [FlushLoop, hT]
  simp only [t3, t6, t8, if_false, if_true]
  rw [hU]

theorem SetUniform_supported (mem : List Byte) (data : UniformData) (shader : Nat)
    (hs0 : shader ≠ 0)
    (name bytes : List Byte) (hty : data.Type_ = DataType.Float32.toByte)
    (hg : data.SizeY = 1 ∨ data.SizeX = data.SizeY)
    (hp : data.SizeX * data.SizeY = 1 ∨ data.SizeX * data.SizeY = 2 ∨
      data.SizeX * data.SizeY = 3 ∨ data.SizeX * data.SizeY = 4 ∨
      data.SizeX * data.SizeY = 9 ∨ data.SizeX * data.SizeY = 16)
    (hname : cstrAt mem data.Name = some name)
    (hbytes : readBytes mem data.Data.1 (4 * (data.SizeX * data.SizeY)) = some bytes) :
    ∃ up, uploadOf bytes data.SizeX data.SizeY = some up ∧
      SetUniform_ mem data shader = Except.ok [Action.SetUniform shader name up] := by
  unfold SetUniform_ uploadOf
  rw [if_neg hs0]
  simp only [hname, hty, if_true, hg]
  rcases hp with h | h | h | h | h | h <;> rw [h] at hbytes ⊢
  · simp [readFloat_of_readBytes hbytes 0 (by omega)]
  · simp [readFloat_of_readBytes hbytes 0 (by omega), readFloat_of_readBytes hbytes 1 (by omega)]
  · simp [readFloat_of_readBytes hbytes 0 (by omega), readFloat_of_readBytes hbytes 1 (by omega),
      readFloat_of_readBytes hbytes 2 (by omega)]
  · simp [readFloat_of_readBytes hbytes 0 (by omega), readFloat_of_readBytes hbytes 1 (by omega),
      readFloat_of_readBytes hbytes 2 (by omega), readFloat_of_readBytes hbytes 3 (by omega)]
  · simp [readFloats_of_readBytes hbytes]
  · simp [readFloats_of_readBytes hbytes]

theorem SetUniform_unguarded (mem : List Byte) (data : UniformData) (shader : Nat)
    (hg : ¬(data.SizeY = 1 ∨ data.SizeX = data.SizeY)) (acts : List Action)
    (h : SetUniform_ mem data shader = Except.ok acts) : acts = [] := by
  unfold SetUniform_ at h
  by_cases hs0 : shader = 0
  · simp [hs0] at h
  · rw [if_neg hs0] at h
    cases hn : cstrAt mem data.Name with
    | none => simp [hn] at h
    | some name =>
      by_cases hty : data.Type_ = DataType.Float32.toByte
      · simp only [hn, hty, if_true, hg, if_false, Except.ok.injEq] at h
        exact h.symm
      · simp [hn, hty] at h

theorem SetUniform_other_type (mem : List Byte) (data : UniformData) (shader : Nat)
    (hs0 : shader ≠ 0)
    (name : List Byte) (hty : data.Type_ ≠ DataType.Float32.toByte)
    (hname : cstrAt mem data.Name = some name) :
    SetUniform_ mem data shader = Except.error Stop.Exit := by
  unfold SetUniform_
  rw [if_neg hs0]
  simp only [hname, hty, if_false]

theorem SetUniform_null (mem : List Byte) (data : UniformData) :
    SetUniform_ mem data 0 = Except.error Stop.Fault := by
  unfold SetUniform_
  simp

/-! ## Claims on uniform shapes, meshes and draws -/

/-- C11 (the code at the failing inputs): a Float32 uniform of shape 5x1, and one of shape
2x3, recorded between a `BindShader` and a `DrawMesh`: the flush performs no upload,
signals no error, goes on to the draw and completes at `End`. -/
theorem unsupported_shape_silently_skipped :
    FlushCommandBuffer sampleMeshes (CommandBuffer.empty.recordAll
        [Command.BindShader 0x7F00DEADBEEF,
          Command.Uniform uTransform (List.replicate 20 0) DataType.Float32 5 1,
          Command.DrawMesh 0x55AA00112233]).End =
      { Actions := [Action.Draw 0x7F00DEADBEEF 0x55AA00112233 (DrawCall.DrawArrays 0 6)],
        Status := Status.Completed, Cursor := 55 } ∧
    FlushCommandBuffer sampleMeshes (CommandBuffer.empty.recordAll
        [Command.BindShader 0x7F00DEADBEEF,
          Command.Uniform uTransform (List.replicate 24 0) DataType.Float32 2 3,
          Command.DrawMesh 0x55AA00112233]).End =
      { Actions := [Action.Draw 0x7F00DEADBEEF 0x55AA00112233 (DrawCall.DrawArrays 0 6)],
        Status := Status.Completed, Cursor := 59 } := by
  decide

/-- C12 (supported uniform shapes dispatch): for a Float32 `Uniform` record whose decoded
sizes satisfy `sizeX*sizeY` in {1,2,3,4,9,16} and (`sizeY == 1` or `sizeX == sizeY`), whose
name is NUL-terminated in the buffer and whose `sizeX*sizeY` floats lie in the buffer,
`SetUniform_` with a bound shader performs exactly one upload to the bound shader at the
named location, of the kind selected by the product (1 to 4 scalars from the first floats
in order, a 3x3 matrix for 9, a 4x4 matrix for 16), without error, and the flush continues
with the next record. (With no shader bound, `shader = 0`, the dispatch is the invalid
read of `boundShader->Id` and the flush ends there.) -/
theorem supported_shape_dispatch (meshes : Nat → Mesh) (fuel : Nat)
    (r r1 r2 : CommandBufferReader) (data : UniformData) (shader : Nat)
    (name bytes : List Byte)
    (hT : r.ReadType = some (CommandType.Uniform.toByte, r1))
    (hU : r1.ReadCmdUniform = some (data, r2))
    (hty : data.Type_ = DataType.Float32.toByte)
    (hs : SupportedShape data.SizeX data.SizeY)
    (hname : cstrAt r2.Data_ data.Name = some name)
    (hbytes : readBytes r2.Data_ data.Data.1 (4 * (data.SizeX * data.SizeY)) = some bytes) :
    ∃ up, uploadOf bytes data.SizeX data.SizeY = some up ∧
      SetUniform_ r2.Data_ data shader =
        (if shader = 0 then Except.error Stop.Fault
          else Except.ok [Action.SetUniform shader name up]) ∧
      FlushLoop meshes (fuel + 1) r shader =
        (if shader = 0 then { Actions := [], Status := Status.Fault, Cursor := r2.Offset_ }
          else (FlushLoop meshes fuel r2 shader).after [Action.SetUniform shader name up]) := by
  by_cases hs0 : shader = 0
  · subst hs0
    obtain ⟨up, h1, -⟩ := SetUniform_supported r2.Data_ data 1 (by decide) name bytes hty hs.1
      hs.2 hname hbytes
    refine ⟨up, h1, ?_, ?_⟩
    · rw [SetUniform_null]; rfl
    · rw [FlushLoop_uniform_step meshes fuel r r1 r2 data 0 hT hU, SetUniform_null]; rfl
  · obtain ⟨up, h1, h2⟩ := SetUniform_supported r2.Data_ data shader hs0 name bytes hty hs.1
      hs.2 hname hbytes
    refine ⟨up, h1, ?_, ?_⟩
    · rw [h2, if_neg hs0]
    · rw [FlushLoop_uniform_step meshes fuel r r1 r2 data shader hT hU, h2, if_neg hs0]

/-- Witness for C12: the 4x4 uniform of `main` followed by `End`, shader `0x7F00DEADBEEF`. -/
theorem supported_shape_dispatch_witness :
    SupportedShape 4 4 ∧
    cstrAt sampleUniformBytes 4 = some uTransform ∧
    readBytes sampleUniformBytes 16 (4 * (4 * 4)) = some sampleMatrix ∧
    ∃ up, uploadOf sampleMatrix 4 4 = some up ∧
      SetUniform_ sampleUniformBytes
          { Type_ := 0, SizeX := 4, SizeY := 4, Name := 4, Data := (16, 64) } 0x7F00DEADBEEF =
        Except.ok [Action.SetUniform 0x7F00DEADBEEF uTransform up] ∧
      FlushLoop sampleMeshes (1 + 1) { Offset_ := 0, Data_ := sampleUniformBytes }
          0x7F00DEADBEEF =
        (FlushLoop sampleMeshes 1 { Offset_ := 80, Data_ := sampleUniformBytes }
          0x7F00DEADBEEF).after [Action.SetUniform 0x7F00DEADBEEF uTransform up] :=
  ⟨by decide, by decide, by decide,
    let ⟨up, h1, h2, h3⟩ :=
      supported_shape_dispatch sampleMeshes 1 { Offset_ := 0, Data_ := sampleUniformBytes }
        { Offset_ := 1, Data_ := sampleUniformBytes }
        { Offset_ := 80, Data_ := sampleUniformBytes }
        { Type_ := 0, SizeX := 4, SizeY := 4, Name := 4, Data := (16, 64) } 0x7F00DEADBEEF
        uTransform sampleMatrix (by decide) (by decide) (by decide) (by decide) (by decide)
        (by decide)
    ⟨up, h1, h2.trans (if_neg (by decide)), h3.trans (if_neg (by decide))⟩⟩

/-- C13 (the code at the failing input): the indexed `CreateMesh` with 192 vertex bytes, 12
index bytes and index type Int16 (element size 2) returns an indexed mesh with vertex
count 6 and index count 12, the byte count, where the division gives 6. -/
theorem indexed_mesh_index_count_is_byte_count :
    OpenGL_Renderer.CreateMeshIndexed (List.replicate 192 0) (List.replicate 12 0)
        sampleMesh.VertexSpec_ =
      some { Indexed_ := true, VertexCount_ := 6, IndexCount_ := 12,
             VertexSpec_ := sampleMesh.VertexSpec_ } ∧
    GetElementSize sampleMesh.VertexSpec_.IndexType = 2 ∧
    GetByteSize (List.replicate 12 (0 : Byte)) / GetElementSize sampleMesh.VertexSpec_.IndexType =
      6 := by
  decide

/-- C14 (vertex count and non-indexed mesh): for a vertex specification with
`PackedSize > 0` and a vertex byte span whose length is a multiple of `PackedSize`, both
`CreateMesh` overloads return a mesh with `GetVertexCount() * PackedSize` equal to the
vertex byte length; the non-indexed overload returns `IsIndexed() == false` and
`GetIndexCount() == 0`. With attributes [(Float32,3),(Float32,3),(Float32,2)] and 192
vertex bytes the vertex count is 6. -/
theorem vertex_count_by_division (spec : VertexSpecification) (vertexData indexData : List Byte)
    (hp : 0 < spec.PackedSize) (hm : vertexData.length % spec.PackedSize = 0) :
    (OpenGL_Renderer.CreateMeshIndexed vertexData indexData spec).map
        (fun m => m.GetVertexCount * spec.PackedSize) = some vertexData.length ∧
    (OpenGL_Renderer.CreateMesh vertexData spec).map
        (fun m => (m.GetVertexCount * spec.PackedSize, m.IsIndexed, m.GetIndexCount)) =
      some (vertexData.length, false, 0) ∧
    (∀ vs : List Byte, vs.length = 192 →
      (OpenGL_Renderer.CreateMesh vs
          { Attributes := [{ Type_ := DataType.Float32, Dimension := 3 },
              { Type_ := DataType.Float32, Dimension := 3 },
              { Type_ := DataType.Float32, Dimension := 2 }],
            IndexType := spec.IndexType }).map Mesh.GetVertexCount = some 6) := by
  have hne : spec.PackedSize ≠ 0 := by omega
  have hdiv : vertexData.length / spec.PackedSize * spec.PackedSize = vertexData.length :=
    Nat.div_mul_cancel (Nat.dvd_of_mod_eq_zero hm)
  refine ⟨?_, ?_, fun vs hvs => ?_⟩
  · simp [OpenGL_Renderer.CreateMeshIndexed, hne, Mesh.GetVertexCount, GetByteSize, hdiv]
  · simp [OpenGL_Renderer.CreateMesh, hne, Mesh.GetVertexCount, GetByteSize, hdiv,
      Mesh.IsIndexed, Mesh.GetIndexCount]
  · simp [OpenGL_Renderer.CreateMesh, Mesh.GetVertexCount, GetByteSize, hvs,
      VertexSpecification.PackedSize, VertexAttribute.GetPackedSize, GetElementSize]

/-- Witness for C14: the specification of `main` with 192 vertex bytes. -/
theorem vertex_count_by_division_witness :
    0 < sampleMesh.VertexSpec_.PackedSize ∧
    (List.replicate 192 (0 : Byte)).length % sampleMesh.VertexSpec_.PackedSize = 0 ∧
    (OpenGL_Renderer.CreateMesh (List.replicate 192 0) sampleMesh.VertexSpec_).map
        (fun m => (m.GetVertexCount * sampleMesh.VertexSpec_.PackedSize, m.IsIndexed,
          m.GetIndexCount)) =
      some ((List.replicate 192 (0 : Byte)).length, false, 0) :=
  ⟨by decide, by decide,
    (vertex_count_by_division sampleMesh.VertexSpec_ (List.replicate 192 0) [] (by decide)
      (by decide)).2.1⟩

theorem foldl_packed_mod (l : List VertexAttribute) :
    ∀ acc : Nat,
      l.foldl (fun total attr => (total + attr.GetPackedSize) % 2 ^ 64) acc % 2 ^ 64 =
        (acc + (l.map (fun a => GetElementSize a.Type_ * a.Dimension)).sum) % 2 ^ 64 := by
  induction l with
  | nil => intro acc; simp
  | cons a l ih =>
    intro acc
    rw [List.foldl_cons, ih]
    simp only [List.map_cons, List.sum_cons, VertexAttribute.GetPackedSize]
    omega

theorem foldl_packed_lt (l : List VertexAttribute) :
    ∀ acc : Nat, acc < 2 ^ 64 →
      l.foldl (fun total attr => (total + attr.GetPackedSize) % 2 ^ 64) acc < 2 ^ 64 := by
  induction l with
  | nil => intro acc h; simpa using h
  | cons a l ih =>
    intro acc _
    simp only [List.foldl_cons]
    exact ih _ (Nat.mod_lt _ (by decide))

theorem PackedSize_eq_sum_mod (spec : VertexSpecification) :
    spec.PackedSize =
      (spec.Attributes.map (fun a => GetElementSize a.Type_ * a.Dimension)).sum % 2 ^ 64 := by
  have h1 := foldl_packed_mod spec.Attributes 0
  have h2 := foldl_packed_lt spec.Attributes 0 (by decide)
  unfold VertexSpecification.PackedSize
  rw [Nat.mod_eq_of_lt h2, Nat.zero_add] at h1
  exact h1

/-- C15 (counterexample): for the single attribute (Float32, `2 ^ 62`) the product of
element size and dimension is `2 ^ 64`, while `GetPackedSize()` and `PackedSize()`, both
computed in `size_t`, are 0. -/
theorem stride_wraps_around :
    GetElementSize DataType.Float32 * 2 ^ 62 = 2 ^ 64 ∧
    VertexAttribute.GetPackedSize { Type_ := DataType.Float32, Dimension := 2 ^ 62 } = 0 ∧
    VertexSpecification.PackedSize
        { Attributes := [{ Type_ := DataType.Float32, Dimension := 2 ^ 62 }],
          IndexType := DataType.Int16 } = 0 := by
  decide

/-- C15 (amended): for every `VertexSpecification`, `PackedSize()` is the sum over its
attributes, in order, of `GetElementSize(Type) * Dimension` modulo `2 ^ 64`, and each
attribute's `GetPackedSize()` is its element size times its dimension modulo `2 ^ 64`
(both are `size_t` computations); whenever the sum is below `2 ^ 64`, `PackedSize()` is the
sum itself, and whenever a product is below `2 ^ 64`, `GetPackedSize()` is the product
itself. For attributes [(Float32,3),(Float32,3),(Float32,2)] the packed size is 32. -/
theorem stride_computation (spec : VertexSpecification) :
    spec.PackedSize =
      (spec.Attributes.map (fun a => GetElementSize a.Type_ * a.Dimension)).sum % 2 ^ 64 ∧
    (∀ a : VertexAttribute,
      a.GetPackedSize = (GetElementSize a.Type_ * a.Dimension) % 2 ^ 64) ∧
    ((spec.Attributes.map (fun a => GetElementSize a.Type_ * a.Dimension)).sum < 2 ^ 64 →
      spec.PackedSize =
        (spec.Attributes.map (fun a => GetElementSize a.Type_ * a.Dimension)).sum) ∧
    (∀ a : VertexAttribute, GetElementSize a.Type_ * a.Dimension < 2 ^ 64 →
      a.GetPackedSize = GetElementSize a.Type_ * a.Dimension) ∧
    VertexSpecification.PackedSize
        { Attributes := [{ Type_ := DataType.Float32, Dimension := 3 },
            { Type_ := DataType.Float32, Dimension := 3 },
            { Type_ := DataType.Float32, Dimension := 2 }],
          IndexType := spec.IndexType } = 32 := by
  refine ⟨PackedSize_eq_sum_mod spec, fun a => rfl, fun h => ?_, fun a h => ?_, rfl⟩
  · rw [PackedSize_eq_sum_mod spec, Nat.mod_eq_of_lt h]
  · unfold VertexAttribute.GetPackedSize
    exact Nat.mod_eq_of_lt h

/-- Witness for C15 (amended): the specification of `main`, whose sum 32 is below
`2 ^ 64`. -/
theorem stride_computation_witness :
    (sampleMesh.VertexSpec_.Attributes.map
      (fun a => GetElementSize a.Type_ * a.Dimension)).sum < 2 ^ 64 ∧
    sampleMesh.VertexSpec_.PackedSize =
      (sampleMesh.VertexSpec_.Attributes.map
        (fun a => GetElementSize a.Type_ * a.Dimension)).sum :=
  ⟨by decide, (stride_computation sampleMesh.VertexSpec_).2.2.1 (by decide)⟩

/-- C16 (element size is total and fixed): for each of the twelve `DataType` variants
`GetElementSize` returns a value in {1,2,4,8}: 4 for Float32, Int32, UInt32,
Uniform_Sampler2D and Uniform_SamplerCube; 8 for Float64, Int64 and UInt64; 2 for Int16
and UInt16; 1 for Int8 and UInt8. -/
theorem element_size_total (t : DataType) :
    (GetElementSize t = 1 ∨ GetElementSize t = 2 ∨ GetElementSize t = 4 ∨
      GetElementSize t = 8) ∧
    GetElementSize DataType.Float32 = 4 ∧ GetElementSize DataType.Int32 = 4 ∧
    GetElementSize DataType.UInt32 = 4 ∧ GetElementSize DataType.Uniform_Sampler2D = 4 ∧
    GetElementSize DataType.Uniform_SamplerCube = 4 ∧
    GetElementSize DataType.Float64 = 8 ∧ GetElementSize DataType.Int64 = 8 ∧
    GetElementSize DataType.UInt64 = 8 ∧
    GetElementSize DataType.Int16 = 2 ∧ GetElementSize DataType.UInt16 = 2 ∧
    GetElementSize DataType.Int8 = 1 ∧ GetElementSize DataType.UInt8 = 1 := by
  refine ⟨?_, rfl, rfl, rfl, rfl, rfl, rfl, rfl, rfl, rfl, rfl, rfl, rfl⟩
  cases t <;> simp [GetElementSize]

/-- C17 (unsupported uniform data type is fatal): for a `Uniform` record whose data type is
not Float32, whatever its sizes, with its name NUL-terminated in the buffer, dispatching it
with a bound shader performs no uniform upload and terminates the process: `SetUniform_`
ends in `exit(1)` and the flush stops with no further action, later records are not read.
(With no shader bound, `shader = 0`, the flush stops as well, at the invalid read of
`boundShader->Id`.) -/
theorem unsupported_type_fatal (meshes : Nat → Mesh) (fuel : Nat)
    (r r1 r2 : CommandBufferReader) (data : UniformData) (shader : Nat) (name : List Byte)
    (hT : r.ReadType = some (CommandType.Uniform.toByte, r1))
    (hU : r1.ReadCmdUniform = some (data, r2))
    (hty : data.Type_ ≠ DataType.Float32.toByte)
    (hname : cstrAt r2.Data_ data.Name = some name) :
    SetUniform_ r2.Data_ data shader =
      Except.error (if shader = 0 then Stop.Fault else Stop.Exit) ∧
    FlushLoop meshes (fuel + 1) r shader =
      { Actions := [], Status := if shader = 0 then Status.Fault else Status.Exited,
        Cursor := r2.Offset_ } := by
  by_cases hs0 : shader = 0
  · subst hs0
    refine ⟨by rw [SetUniform_null]; rfl, ?_⟩
    rw [FlushLoop_uniform_step meshes fuel r r1 r2 data 0 hT hU, SetUniform_null]
    rfl
  · have h := SetUniform_other_type r2.Data_ data shader hs0 name hty hname
    refine ⟨by rw [h, if_neg hs0], ?_⟩
    rw [FlushLoop_uniform_step meshes fuel r r1 r2 data shader hT hU, h, if_neg hs0]

/-- Witness for C17: an Int32 uniform followed by `End`, shader `0x7F00DEADBEEF`. -/
theorem unsupported_type_fatal_witness :
    (4 : Byte) ≠ DataType.Float32.toByte ∧
    cstrAt sampleIntUniformBytes 4 = some uTransform ∧
    SetUniform_ sampleIntUniformBytes
        { Type_ := 4, SizeX := 1, SizeY := 1, Name := 4, Data := (16, 4) } 0x7F00DEADBEEF =
      Except.error Stop.Exit ∧
    FlushLoop sampleMeshes (21 + 1) { Offset_ := 0, Data_ := sampleIntUniformBytes }
        0x7F00DEADBEEF =
      { Actions := [], Status := Status.Exited, Cursor := 20 } :=
  ⟨by decide, by decide,
    unsupported_type_fatal sampleMeshes 21 { Offset_ := 0, Data_ := sampleIntUniformBytes }
      { Offset_ := 1, Data_ := sampleIntUniformBytes }
      { Offset_ := 20, Data_ := sampleIntUniformBytes }
      { Type_ := 4, SizeX := 1, SizeY := 1, Name := 4, Data := (16, 4) } 0x7F00DEADBEEF
      uTransform (by decide) (by decide) (by decide) (by decide)⟩

/-- C18 (counterexample): the count of a draw is not always the stored count. A
non-indexed mesh whose stored vertex count is `2 ^ 32 + 6` is drawn with count 6, the
stored count cut to the 32-bit `count` parameter of `glDrawArrays`; and with no shader
bound `DrawMesh_` issues no draw at all, it reads `shader->Id` through the null pointer. -/
theorem draw_count_truncated :
    DrawMesh_
        { Indexed_ := false, VertexCount_ := 2 ^ 32 + 6, IndexCount_ := 0,
          VertexSpec_ := sampleMesh.VertexSpec_ } 0x55AA00112233 0x7F00DEADBEEF =
      Except.ok (Action.Draw 0x7F00DEADBEEF 0x55AA00112233 (DrawCall.DrawArrays 0 6)) ∧
    DrawMesh_ sampleMesh 0x55AA00112233 0 = Except.error Stop.Fault :=
  ⟨rfl, rfl⟩

/-- C18 (amended): for every mesh behind a non-null handle, drawn with a non-null shader,
`DrawMesh_` issues an indexed draw with the element type equal to the `IndexType` of the
stored vertex specification when the mesh is indexed, and otherwise a non-indexed draw
starting at 0; the count passed is the stored index count, respectively the stored vertex
count, modulo `2 ^ 32`, which is the stored count whenever that is below `2 ^ 31` (the
range of the 32-bit `count` parameter). The choice depends only on the indexed flag, which
the indexed `CreateMesh` overload sets and the other one clears. -/
theorem draw_dispatch (mesh : Mesh) (meshPtr shader : Nat) (hs : shader ≠ 0)
    (hm : meshPtr ≠ 0) :
    (mesh.IsIndexed = true →
      DrawMesh_ mesh meshPtr shader =
        Except.ok (Action.Draw shader meshPtr
          (DrawCall.DrawElements (mesh.GetIndexCount % 2 ^ 32) mesh.GetVertexSpec.IndexType))) ∧
    (mesh.IsIndexed = false →
      DrawMesh_ mesh meshPtr shader =
        Except.ok (Action.Draw shader meshPtr
          (DrawCall.DrawArrays 0 (mesh.GetVertexCount % 2 ^ 32)))) ∧
    (mesh.IsIndexed = true → mesh.GetIndexCount < 2 ^ 31 →
      DrawMesh_ mesh meshPtr shader =
        Except.ok (Action.Draw shader meshPtr
          (DrawCall.DrawElements mesh.GetIndexCount mesh.GetVertexSpec.IndexType))) ∧
    (mesh.IsIndexed = false → mesh.GetVertexCount < 2 ^ 31 →
      DrawMesh_ mesh meshPtr shader =
        Except.ok (Action.Draw shader meshPtr (DrawCall.DrawArrays 0 mesh.GetVertexCount))) ∧
    (∀ (vertexData indexData : List Byte) (spec : VertexSpecification) (m : Mesh),
      OpenGL_Renderer.CreateMeshIndexed vertexData indexData spec = some m →
      DrawMesh_ m meshPtr shader =
        Except.ok (Action.Draw shader meshPtr
          (DrawCall.DrawElements (m.GetIndexCount % 2 ^ 32) spec.IndexType))) ∧
    (∀ (vertexData : List Byte) (spec : VertexSpecification) (m : Mesh),
      OpenGL_Renderer.CreateMesh vertexData spec = some m →
      DrawMesh_ m meshPtr shader =
        Except.ok (Action.Draw shader meshPtr
          (DrawCall.DrawArrays 0 (m.GetVertexCount % 2 ^ 32)))) := by
  have hI : mesh.Indexed_ = true → DrawMesh_ mesh meshPtr shader =
      Except.ok (Action.Draw shader meshPtr
        (DrawCall.DrawElements (mesh.IndexCount_ % 2 ^ 32) mesh.VertexSpec_.IndexType)) := by
    intro h
    unfold DrawMesh_ toGLsizei
    rw [if_neg hs, if_neg hm, if_pos h]
  have hN : mesh.Indexed_ = false → DrawMesh_ mesh meshPtr shader =
      Except.ok (Action.Draw shader meshPtr
        (DrawCall.DrawArrays 0 (mesh.VertexCount_ % 2 ^ 32))) := by
    intro h
    unfold DrawMesh_ toGLsizei
    rw [if_neg hs, if_neg hm, if_neg (by simp [h])]
  refine ⟨hI, hN, fun h hlt => ?_, fun h hlt => ?_, fun vd id spec m h => ?_,
    fun vd spec m h => ?_⟩
  · have e : mesh.IndexCount_ % 2 ^ 32 = mesh.IndexCount_ :=
      Nat.mod_eq_of_lt (Nat.lt_trans hlt (by decide))
    have := hI h
    rw [e] at this
    exact this
  · have e : mesh.VertexCount_ % 2 ^ 32 = mesh.VertexCount_ :=
      Nat.mod_eq_of_lt (Nat.lt_trans hlt (by decide))
    have := hN h
    rw [e] at this
    exact this
  · unfold OpenGL_Renderer.CreateMeshIndexed at h
    split at h
    · simp at h
    · simp only [Option.some.injEq] at h
      subst h
      unfold DrawMesh_ toGLsizei
      rw [if_neg hs, if_neg hm]
      simp [Mesh.GetIndexCount]
  · unfold OpenGL_Renderer.CreateMesh at h
    split at h
    · simp at h
    · simp only [Option.some.injEq] at h
      subst h
      unfold DrawMesh_ toGLsizei
      rw [if_neg hs, if_neg hm]
      simp [Mesh.GetVertexCount]

/-- Witness for C18 (amended): the non-indexed mesh of `main` draws its 6 vertices from
0. -/
theorem draw_dispatch_witness :
    (0x7F00DEADBEEF : Nat) ≠ 0 ∧ (0x55AA00112233 : Nat) ≠ 0 ∧
    sampleMesh.IsIndexed = false ∧ sampleMesh.GetVertexCount < 2 ^ 31 ∧
    DrawMesh_ sampleMesh 0x55AA00112233 0x7F00DEADBEEF =
      Except.ok (Action.Draw 0x7F00DEADBEEF 0x55AA00112233 (DrawCall.DrawArrays 0 6)) :=
  ⟨by decide, by decide, by decide, by decide,
    (draw_dispatch sampleMesh 0x55AA00112233 0x7F00DEADBEEF (by decide) (by decide)).2.2.2.1
      (by decide) (by decide)⟩

/-- C19 (idempotent flush): `FlushCommandBuffer` leaves the command buffer as it was: the
bytes its reader ends with are the bytes of the buffer before the call, and command count
and write offset are not touched. So a second flush, of the buffer as the first flush left
it and again starting with no shader bound, has the same outcome as the first: the
identical sequence of backend actions, ended in the same way at the same cursor. For the
frame of `main` both flushes issue the clear, the upload and the draw. -/
theorem flush_idempotent (meshes : Nat → Mesh) (cmdBuf : CommandBuffer) :
    (FlushCommandBuffer.withBuffer meshes cmdBuf).1 = FlushCommandBuffer meshes cmdBuf ∧
    (FlushLoop.withReader meshes (cmdBuf.GetData.length + 1)
      (CommandBufferReader.new cmdBuf.GetData) 0).2.Data_ = cmdBuf.GetData ∧
    (FlushCommandBuffer.withBuffer meshes cmdBuf).2.GetData = cmdBuf.GetData ∧
    (FlushCommandBuffer.withBuffer meshes cmdBuf).2.Count_ = cmdBuf.Count_ ∧
    (FlushCommandBuffer.withBuffer meshes cmdBuf).2 = cmdBuf ∧
    (FlushCommandBuffer.withBuffer meshes
        (FlushCommandBuffer.withBuffer meshes cmdBuf).2).1.Actions =
      (FlushCommandBuffer.withBuffer meshes cmdBuf).1.Actions ∧
    (FlushCommandBuffer.withBuffer meshes (FlushCommandBuffer.withBuffer meshes cmdBuf).2).1 =
      (FlushCommandBuffer.withBuffer meshes cmdBuf).1 ∧
    (FlushCommandBuffer.withBuffer sampleMeshes
        (FlushCommandBuffer.withBuffer sampleMeshes
          (CommandBuffer.empty.recordAll
            (sampleFrame 0x7F00DEADBEEF 0x55AA00112233)).End).2).1.Actions =
      [Action.Clear 0x3E4CCCCD 0x3DCCCCCD 0x3E99999A 0x3F800000,
        Action.SetUniform 0x7F00DEADBEEF uTransform
          (Upload.UniformMatrix4fv [0x3F800000, 0, 0, 0, 0, 0x3F800000, 0, 0,
            0, 0, 0x3F800000, 0, 0, 0, 0, 0x3F800000]),
        Action.Draw 0x7F00DEADBEEF 0x55AA00112233 (DrawCall.DrawArrays 0 6)] := by
  obtain ⟨h1, h2⟩ := FlushCommandBuffer_withBuffer meshes cmdBuf
  have hr := (FlushLoop_withReader meshes (cmdBuf.GetData.length + 1)
    (CommandBufferReader.new cmdBuf.GetData) 0).2.1
  refine ⟨h1, ?_, ?_, ?_, h2, ?_, ?_, by decide⟩
  · rw [hr]; rfl
  · rw [h2]
  · rw [h2]
  · rw [h2]
  · rw [h2]

/-- C20 (counterexample): a Float32 uniform of shape sizeX=1, sizeY=3 recorded after a
`BindShader` results in no upload, whereas the same payload with sizeX=3, sizeY=1 results
in a 3-component upload. -/
theorem vector_shape_1x3_not_uploaded :
    (FlushCommandBuffer sampleMeshes (CommandBuffer.empty.recordAll
        [Command.BindShader 0x7F00DEADBEEF,
          Command.Uniform uTransform [0, 0, 128, 63, 0, 0, 0, 64, 0, 0, 64, 64]
            DataType.Float32 1 3]).End).Actions = [] ∧
    (FlushCommandBuffer sampleMeshes (CommandBuffer.empty.recordAll
        [Command.BindShader 0x7F00DEADBEEF,
          Command.Uniform uTransform [0, 0, 128, 63, 0, 0, 0, 64, 0, 0, 64, 64]
            DataType.Float32 3 1]).End).Actions =
      [Action.SetUniform 0x7F00DEADBEEF uTransform
        (Upload.Uniform3f 0x3F800000 0x40000000 0x40400000)] := by
  decide

/-- C20 (amended): vector shapes are not exempt from the constraint. A Float32 `Uniform`
record whose shape is a vector case (`sizeX*sizeY` in {2,3,4}) is uploaded to the bound
shader when `sizeY == 1` or `sizeX == sizeY`, as 2, 3 or 4 components taken from the first
floats of the payload; when neither holds (sizeX=1 with sizeY in {2,3,4}) `SetUniform_`
performs no upload. (With no shader bound, `shader = 0`, `SetUniform_` is the invalid read
of `boundShader->Id`.) -/
theorem vector_shape_guard (mem : List Byte) (data : UniformData) (shader : Nat)
    (name bytes : List Byte) (hty : data.Type_ = DataType.Float32.toByte)
    (hp : data.SizeX * data.SizeY = 2 ∨ data.SizeX * data.SizeY = 3 ∨
      data.SizeX * data.SizeY = 4)
    (hname : cstrAt mem data.Name = some name)
    (hbytes : readBytes mem data.Data.1 (4 * (data.SizeX * data.SizeY)) = some bytes) :
    ((data.SizeY = 1 ∨ data.SizeX = data.SizeY) →
      ∃ up, uploadOf bytes data.SizeX data.SizeY = some up ∧
        SetUniform_ mem data shader =
          (if shader = 0 then Except.error Stop.Fault
            else Except.ok [Action.SetUniform shader name up])) ∧
    (¬(data.SizeY = 1 ∨ data.SizeX = data.SizeY) →
      (data.SizeX = 1 ∧ (data.SizeY = 2 ∨ data.SizeY = 3 ∨ data.SizeY = 4)) ∧
      ∀ acts, SetUniform_ mem data shader = Except.ok acts → acts = []) := by
  have hp6 : data.SizeX * data.SizeY = 1 ∨ data.SizeX * data.SizeY = 2 ∨
      data.SizeX * data.SizeY = 3 ∨ data.SizeX * data.SizeY = 4 ∨
      data.SizeX * data.SizeY = 9 ∨ data.SizeX * data.SizeY = 16 := by
    rcases hp with h | h | h <;> simp [h]
  refine ⟨fun hg => ?_, fun hg => ⟨?_, fun acts h => ?_⟩⟩
  · by_cases hs0 : shader = 0
    · subst hs0
      obtain ⟨up, h1, -⟩ := SetUniform_supported mem data 1 (by decide) name bytes hty hg hp6
        hname hbytes
      exact ⟨up, h1, by rw [SetUniform_null]; rfl⟩
    · obtain ⟨up, h1, h2⟩ := SetUniform_supported mem data shader hs0 name bytes hty hg hp6
        hname hbytes
      exact ⟨up, h1, by rw [h2, if_neg hs0]⟩
  · have hx : data.SizeX ≤ 4 := by
      rcases hp with h | h | h <;>
        exact Nat.le_trans (Nat.le_of_dvd (by omega) (Dvd.intro _ h)) (by omega)
    have hy : data.SizeY ≤ 4 := by
      rcases hp with h | h | h <;>
        exact Nat.le_trans (Nat.le_of_dvd (by omega) (Dvd.intro_left _ h)) (by omega)
    generalize data.SizeX = x at *
    generalize data.SizeY = y at *
    interval_cases x <;> interval_cases y <;> simp_all
  · exact SetUniform_unguarded mem data shader hg acts h

/-- Witness for C20 (amended): the record of a 3x1 Float32 uniform followed by `End`. -/
theorem vector_shape_guard_witness :
    cstrAt sampleVec3Bytes 4 = some uTransform ∧
    readBytes sampleVec3Bytes 16 (4 * (3 * 1)) =
      some [0, 0, 128, 63, 0, 0, 0, 64, 0, 0, 64, 64] ∧
    ∃ up, uploadOf [0, 0, 128, 63, 0, 0, 0, 64, 0, 0, 64, 64] 3 1 = some up ∧
      SetUniform_ sampleVec3Bytes
          { Type_ := 0, SizeX := 3, SizeY := 1, Name := 4, Data := (16, 12) } 0x7F00DEADBEEF =
        Except.ok [Action.SetUniform 0x7F00DEADBEEF uTransform up] :=
  ⟨by decide, by decide,
    let ⟨up, h1, h2⟩ := (vector_shape_guard sampleVec3Bytes
      { Type_ := 0, SizeX := 3, SizeY := 1, Name := 4, Data := (16, 12) } 0x7F00DEADBEEF
      uTransform [0, 0, 128, 63, 0, 0, 0, 64, 0, 0, 64, 64] (by decide) (by decide) (by decide)
      (by decide)).1 (by decide)
    ⟨up, h1, h2.trans (if_neg (by decide))⟩⟩

/-! ## Attribute loop, packed size byte and flush of all well-formed commands -/

theorem layoutInOrder_final (l : List VertexAttribute) :
    ∀ index offset : Nat, (OpenGL_Mesh.layoutInOrder l index offset).2 =
      (index + l.length,
        offset + (l.map (fun a => GetElementSize a.Type_ * a.Dimension)).sum) := by
  induction l with
  | nil => intro index offset; simp [OpenGL_Mesh.layoutInOrder]
  | cons a l ih =>
    intro index offset
    simp only [OpenGL_Mesh.layoutInOrder, ih, List.length_cons, List.map_cons, List.sum_cons]
    simp only [Prod.mk.injEq]
    omega

theorem layoutInOrder_format (l : List VertexAttribute) :
    ∀ (index offset idx size : Nat) (ty : DataType) (nrm : Bool) (off : Nat),
      GLCall.VertexArrayAttribFormat idx size ty nrm off ∈
          (OpenGL_Mesh.layoutInOrder l index offset).1 ↔
        ∃ i, ∃ a, l[i]? = some a ∧ idx = index + i ∧ size = a.Dimension ∧ ty = a.Type_ ∧
          nrm = false ∧
          off = offset +
            ((l.take i).map (fun a => GetElementSize a.Type_ * a.Dimension)).sum := by
  induction l with
  | nil => intro index offset idx size ty nrm off; simp [OpenGL_Mesh.layoutInOrder]
  | cons a l ih =>
    intro index offset idx size ty nrm off
    simp only [OpenGL_Mesh.layoutInOrder, List.mem_cons,
      GLCall.VertexArrayAttribFormat.injEq, ih, reduceCtorEq, false_or]
    constructor
    · rintro (⟨h1, h2, h3, h4, h5⟩ | ⟨i, b, hb, h1, h2, h3, h4, h5⟩)
      · exact ⟨0, a, by simp, by omega, h2, h3, h4, by simp [h5]⟩
      · exact ⟨i + 1, b, by simpa using hb, by omega, h2, h3, h4, by
          simp only [List.take_succ_cons, List.map_cons, List.sum_cons]; omega⟩
    · rintro ⟨i, b, hb, h1, h2, h3, h4, h5⟩
      cases i with
      | zero =>
        simp only [List.getElem?_cons_zero, Option.some.injEq] at hb
        subst hb
        left
        exact ⟨by omega, h2, h3, h4, by simpa using h5⟩
      | succ i =>
        right
        refine ⟨i, b, by simpa using hb, by omega, h2, h3, h4, ?_⟩
        simp only [List.take_succ_cons, List.map_cons, List.sum_cons] at h5
        omega

theorem layoutInOrder_calls (l : List VertexAttribute) :
    ∀ (index offset i : Nat) (a : VertexAttribute), l[i]? = some a →
      (OpenGL_Mesh.layoutInOrder l index offset).1[3 * i]? =
          some (GLCall.VertexArrayAttribFormat (index + i) a.Dimension a.Type_ false
            (offset +
              ((l.take i).map (fun a => GetElementSize a.Type_ * a.Dimension)).sum)) ∧
      (OpenGL_Mesh.layoutInOrder l index offset).1[3 * i + 1]? =
          some (GLCall.VertexArrayAttribBinding (index + i) 0) ∧
      (OpenGL_Mesh.layoutInOrder l index offset).1[3 * i + 2]? =
          some (GLCall.EnableVertexArrayAttrib (index + i)) := by
  induction l with
  | nil => intro index offset i a h; simp at h
  | cons b l ih =>
    intro index offset i a h
    cases i with
    | zero =>
      simp only [List.getElem?_cons_zero, Option.some.injEq] at h
      subst h
      simp [OpenGL_Mesh.layoutInOrder]
    | succ i =>
      simp only [List.getElem?_cons_succ] at h
      obtain ⟨h1, h2, h3⟩ :=
        ih (index + 1) (offset + GetElementSize b.Type_ * b.Dimension) i a h
      have e0 : 3 * (i + 1) = 3 * i + 1 + 1 + 1 := by omega
      have e1 : 3 * (i + 1) + 1 = 3 * i + 1 + 1 + 1 + 1 := by omega
      have e2 : 3 * (i + 1) + 2 = 3 * i + 2 + 1 + 1 + 1 := by omega
      have ei : index + (i + 1) = index + 1 + i := by omega
      have eo : offset + (((b :: l).take (i + 1)).map
            (fun a => GetElementSize a.Type_ * a.Dimension)).sum =
          offset + GetElementSize b.Type_ * b.Dimension +
            ((l.take i).map (fun a => GetElementSize a.Type_ * a.Dimension)).sum := by
        simp only [List.take_succ_cons, List.map_cons, List.sum_cons]; omega
      simp only [OpenGL_Mesh.layoutInOrder, e0, e1, e2, ei, List.getElem?_cons_succ]
      rw [eo]
      exact ⟨h1, h2, h3⟩

theorem GetElementSize_pos (t : DataType) : 1 ≤ GetElementSize t := by
  cases t <;> simp [GetElementSize]

theorem attribLoop_eq_layout (l : List VertexAttribute) :
    ∀ index offset : Nat, index + l.length ≤ 2 ^ 32 →
      offset + (l.map (fun a => GetElementSize a.Type_ * a.Dimension)).sum < 2 ^ 32 →
      OpenGL_Mesh.attribLoop l index offset = OpenGL_Mesh.layoutInOrder l index offset := by
  induction l with
  | nil => intro index offset _ _; rfl
  | cons a l ih =>
    intro index offset hi ho
    simp only [List.length_cons, List.map_cons, List.sum_cons] at hi ho
    have hpos := GetElementSize_pos a.Type_
    have hd : a.Dimension ≤ GetElementSize a.Type_ * a.Dimension :=
      Nat.le_mul_of_pos_left _ hpos
    have e1 : (index + 1) % 2 ^ 64 = index + 1 := Nat.mod_eq_of_lt (by omega)
    have e2 : a.GetPackedSize = GetElementSize a.Type_ * a.Dimension := by
      unfold VertexAttribute.GetPackedSize
      exact Nat.mod_eq_of_lt (by omega)
    have e3 : (offset + GetElementSize a.Type_ * a.Dimension) % 2 ^ 64 =
        offset + GetElementSize a.Type_ * a.Dimension := Nat.mod_eq_of_lt (by omega)
    have e4 : toGLuint index = index := Nat.mod_eq_of_lt (by omega)
    have e5 : toGLsizei a.Dimension = a.Dimension := Nat.mod_eq_of_lt (by omega)
    have e6 : toGLuint offset = offset := Nat.mod_eq_of_lt (by omega)
    simp only [OpenGL_Mesh.attribLoop, OpenGL_Mesh.layoutInOrder, e2, e1, e3, e4, e5, e6]
    rw [ih (index + 1) (offset + GetElementSize a.Type_ * a.Dimension) (by omega) (by omega)]

theorem GetPackedSize_of_sum_lt (l : List VertexAttribute)
    (h : (l.map (fun a => GetElementSize a.Type_ * a.Dimension)).sum < 2 ^ 64) :
    ∀ a ∈ l, a.GetPackedSize = GetElementSize a.Type_ * a.Dimension := by
  intro a ha
  have hle : GetElementSize a.Type_ * a.Dimension ≤
      (l.map (fun a => GetElementSize a.Type_ * a.Dimension)).sum :=
    List.single_le_sum (fun _ _ => Nat.zero_le _) _
      (List.mem_map_of_mem (fun a => GetElementSize a.Type_ * a.Dimension) ha)
  unfold VertexAttribute.GetPackedSize
  exact Nat.mod_eq_of_lt (by omega)

set_option maxRecDepth 100000

theorem packed_bounded : ∀ a < 256, ∀ b < 16,
    ((a ||| b * 16) &&& 0xFF) % 16 = a % 16 ∧ ((a ||| b * 16) >>> 4) % 16 = (a / 16) ||| b ∧
    (a ||| b * 16) < 256 := by
  decide

theorem or_absorb_bounded : ∀ a < 16, ∀ b < 16, (a ||| b = b ↔ a &&& b = a) := by decide

theorem or_mod_two_pow (a b n : Nat) : (a ||| b) % 2 ^ n = a % 2 ^ n ||| b % 2 ^ n := by
  apply Nat.eq_of_testBit_eq
  intro i
  simp only [Nat.testBit_mod_two_pow, Nat.testBit_or]
  by_cases h : i < n <;> simp [h]

theorem packed_byte (x y : Nat) :
    (toByte ((x &&& 0xFF) ||| (y <<< 4))).val = (x % 256) ||| ((y % 16) * 16) := by
  have h1 : x &&& 0xFF = x % 256 := Nat.and_pow_two_sub_one_eq_mod x 8
  have h2 : y <<< 4 = y * 16 := by rw [Nat.shiftLeft_eq]
  rw [toByte_val, h1, h2]
  have h3 : (x % 256 ||| y * 16) % 2 ^ 8 = (x % 256) % 2 ^ 8 ||| (y * 16) % 2 ^ 8 :=
    or_mod_two_pow _ _ 8
  have h4 : (y * 16) % 256 = (y % 16) * 16 := by omega
  simpa [h4] using h3

theorem toByte_eq_float32 (t : DataType) :
    t.toByte = DataType.Float32.toByte ↔ t = DataType.Float32 := by
  cases t <;> simp +decide [DataType.toByte]

theorem FlushLoop_expected (meshes : Nat → Mesh) (cs : List Command) :
    ∀ (pre post : List Byte) (o shader fuel : Nat), o = pre.length → cs.length + 1 ≤ fuel →
      (∀ c ∈ cs, c.WellFormed) →
      FlushLoop meshes fuel
          { Offset_ := o, Data_ := pre ++ encodeAll cs ++ CommandType.End.toByte :: post }
          shader =
        expectedFlush meshes shader o cs := by
  obtain ⟨t1, t2, t3, t4, t5, t6, t7, t8, t9, t10⟩ := tags_distinct
  induction cs with
  | nil =>
    intro pre post o shader fuel ho hf _
    obtain ⟨f, rfl⟩ : ∃ f, fuel = f + 1 := ⟨fuel - 1, by simp at hf; omega⟩
    simp only [encodeAll, List.append_nil, List.length_nil, Nat.add_zero]
    rw [FlushLoop, ReadType_at pre post _ o ho]
    simp [expectedFlush]
  | cons c cs ih =>
    intro pre post o shader fuel ho hf hfl
    obtain ⟨f, rfl⟩ : ∃ f, fuel = f + 1 := ⟨fuel - 1, by simp at hf; omega⟩
    have hf' : cs.length + 1 ≤ f := by simp at hf; omega
    have hc := hfl c (by simp)
    have hrest : ∀ d ∈ cs, d.WellFormed := fun d hd => hfl d (by simp [hd])
    generalize hD : pre ++ encodeAll (c :: cs) ++ CommandType.End.toByte :: post = D
    have e3 : (pre ++ c.encode) ++ encodeAll cs ++ CommandType.End.toByte :: post = D := by
      rw [← hD]; simp [encodeAll]
    have hIH := fun s => ih (pre ++ c.encode) post (o + c.encode.length) s f (by simp [ho]) hf'
      hrest
    rw [e3] at hIH
    cases c with
    | Clear r g b a =>
      obtain ⟨hr, hg, hb, ha⟩ := hc
      have e1 : pre ++ CommandType.Clear.toByte ::
          ((storeLE 4 r ++ storeLE 4 g ++ storeLE 4 b ++ storeLE 4 a) ++
            (encodeAll cs ++ CommandType.End.toByte :: post)) = D := by
        rw [← hD]; simp [encodeAll, Command.encode]
      have e2 : pre ++ CommandType.Clear.toByte ::
          (storeLE 4 r ++ storeLE 4 g ++ storeLE 4 b ++ storeLE 4 a) ++
            (encodeAll cs ++ CommandType.End.toByte :: post) = D := by
        rw [← hD]; simp [encodeAll, Command.encode]
      have hT := ReadType_at pre ((storeLE 4 r ++ storeLE 4 g ++ storeLE 4 b ++ storeLE 4 a) ++
        (encodeAll cs ++ CommandType.End.toByte :: post)) CommandType.Clear.toByte o ho
      have hR := ReadCmdClear_at pre (encodeAll cs ++ CommandType.End.toByte :: post)
        CommandType.Clear.toByte r g b a (o + 1) (by omega)
      rw [e1] at hT
      rw [e2, Nat.mod_eq_of_lt hr, Nat.mod_eq_of_lt hg, Nat.mod_eq_of_lt hb,
        Nat.mod_eq_of_lt ha] at hR
      have hlen : (Command.Clear r g b a).encode.length = 17 := by
        simp [Command.encode, storeLE_length]
      rw [hlen] at hIH
      rw [FlushLoop, hT]
      simp only [t4, t7, t9, t10, if_false, if_true]
      rw [hR]
      simp only [Nat.add_assoc] at hIH ⊢
      rw [hIH]
      simp [FlushResult.after, expectedFlush, Clear_]
    | BindShader s =>
      have hs : s < 2 ^ 64 := hc
      have e1 : pre ++ CommandType.BindShader.toByte ::
          (storeLE 8 s ++ (encodeAll cs ++ CommandType.End.toByte :: post)) = D := by
        rw [← hD]; simp [encodeAll, Command.encode]
      have e2 : pre ++ CommandType.BindShader.toByte :: storeLE 8 s ++
            (encodeAll cs ++ CommandType.End.toByte :: post) = D := by
        rw [← hD]; simp [encodeAll, Command.encode]
      have hT := ReadType_at pre (storeLE 8 s ++
        (encodeAll cs ++ CommandType.End.toByte :: post)) CommandType.BindShader.toByte o ho
      have hR := ReadCmdBindShader_at pre (encodeAll cs ++ CommandType.End.toByte :: post)
        CommandType.BindShader.toByte s (o + 1) (by omega)
      rw [e1] at hT
      rw [e2, Nat.mod_eq_of_lt hs] at hR
      have hlen : (Command.BindShader s).encode.length = 9 := by
        simp [Command.encode, storeLE_length]
      rw [hlen] at hIH
      rw [FlushLoop, hT]
      simp only [t2, t5, if_false, if_true]
      rw [hR]
      simp only [Nat.add_assoc] at hIH ⊢
      rw [hIH]
      simp [expectedFlush]
    | DrawMesh m =>
      have hm : m < 2 ^ 64 := hc
      have e1 : pre ++ CommandType.DrawMesh.toByte ::
          (storeLE 8 m ++ (encodeAll cs ++ CommandType.End.toByte :: post)) = D := by
        rw [← hD]; simp [encodeAll, Command.encode]
      have e2 : pre ++ CommandType.DrawMesh.toByte :: storeLE 8 m ++
            (encodeAll cs ++ CommandType.End.toByte :: post) = D := by
        rw [← hD]; simp [encodeAll, Command.encode]
      have hT := ReadType_at pre (storeLE 8 m ++
        (encodeAll cs ++ CommandType.End.toByte :: post)) CommandType.DrawMesh.toByte o ho
      have hR := ReadCmdDrawMesh_at pre (encodeAll cs ++ CommandType.End.toByte :: post)
        CommandType.DrawMesh.toByte m (o + 1) (by omega)
      rw [e1] at hT
      rw [e2, Nat.mod_eq_of_lt hm] at hR
      have hlen : (Command.DrawMesh m).encode.length = 9 := by
        simp [Command.encode, storeLE_length]
      rw [hlen] at hIH
      rw [FlushLoop, hT]
      simp only [t1, if_false, if_true]
      rw [hR]
      simp only []
      by_cases hz : shader = 0 ∨ m = 0
      · rw [DrawMesh_of_null _ _ _ hz]
        simp [expectedFlush, hz, Nat.add_assoc]
      · have hs0 : shader ≠ 0 := fun h => hz (Or.inl h)
        have hm0 : m ≠ 0 := fun h => hz (Or.inr h)
        rw [DrawMesh_of_bound _ _ _ hs0 hm0]
        simp only [Nat.add_assoc] at hIH ⊢
        rw [hIH]
        simp [FlushResult.after, expectedFlush, hs0, hm0]
    | Uniform name value t x y =>
      obtain ⟨hx, hy, hnul, hlenN, hval, hmax⟩ := hc
      generalize hpost : encodeAll cs ++ CommandType.End.toByte :: post = post' at *
      have e1 : pre ++ CommandType.Uniform.toByte :: (t.toByte ::
          toByte (x + 16 * y) :: toByte (name.length + 1) ::
          (name ++ [0] ++ toByte value.length :: value) ++ post') = D := by
        rw [← hD, ← hpost]; simp [encodeAll, Command.encode]
      have e2 : pre ++ (CommandType.Uniform.toByte :: t.toByte ::
          toByte (x + 16 * y) :: toByte (name.length + 1) ::
          (name ++ [0] ++ toByte value.length :: value)) ++ post' = D := by
        rw [← hD, ← hpost]; simp [encodeAll, Command.encode]
      have e4 : (pre ++ [CommandType.Uniform.toByte, t.toByte,
          toByte (x + 16 * y), toByte (name.length + 1)] ++ name ++ [0] ++
          [toByte value.length]) ++ value ++ post' = D := by
        rw [← hD, ← hpost]; simp [encodeAll, Command.encode]
      have hT := ReadType_at pre (t.toByte ::
          toByte (x + 16 * y) :: toByte (name.length + 1) ::
          (name ++ [0] ++ toByte value.length :: value) ++ post') CommandType.Uniform.toByte o ho
      have hR := ReadCmdUniform_at pre post' name value CommandType.Uniform.toByte
        t.toByte (toByte (x + 16 * y)) (o + 1) (by omega) (by omega) (by omega)
      obtain ⟨hn1, -⟩ := uniform_name_at pre post' name value CommandType.Uniform.toByte
        t.toByte (toByte (x + 16 * y)) hnul
      obtain ⟨ux, uy⟩ := unpack_sizes x y hx hy
      rw [e1] at hT
      rw [e2, ux, uy] at hR
      rw [e2] at hn1
      have hlen : (Command.Uniform name value t x y).encode.length =
          5 + (name.length + 1) + value.length := by
        simp [Command.encode]; omega
      rw [hlen] at hIH
      have hoff : pre.length + 4 + (name.length + 1) + 1 + value.length =
          o + (5 + (name.length + 1) + value.length) := by omega
      rw [FlushLoop, hT]
      simp only [t3, t6, t8, if_false, if_true]
      rw [hR]
      simp only []
      by_cases hs0 : shader = 0
      · subst hs0
        rw [SetUniform_null]
        simp only [hoff]
        simp [expectedFlush]
      · by_cases ht : t = DataType.Float32
        · subst ht
          have hval4 : value.length = 4 * x * y := hval
          have hS := SetUniform_float32 D name value x y (pre.length + 4)
            (pre.length + 4 + (name.length + 1) + 1) shader hs0 hx hy hval4 hn1
            (fun i hi => by
              rw [← e4]
              exact readFloat_at _ value post' _ i (by simp; omega) hi)
            (fun n hn => by
              rw [← e4]
              exact readFloats_at _ value post' _ n (by simp; omega) hn)
          rw [hS]
          simp only [hoff]
          rw [hIH]
          simp [FlushResult.after, expectedFlush, hs0]
        · have hty : t.toByte ≠ DataType.Float32.toByte := fun h =>
            ht ((toByte_eq_float32 t).mp h)
          rw [SetUniform_other_type D _ shader hs0 name hty hn1]
          simp only [hoff]
          simp [expectedFlush, ht, hs0]

theorem expectedFlush_cursor_le (meshes : Nat → Mesh) (cs : List Command) :
    ∀ (shader o : Nat), (∀ c ∈ cs, c.WellFormed) →
      (expectedFlush meshes shader o cs).Cursor ≤ o + (encodeAll cs).length + 1 := by
  induction cs with
  | nil => intro shader o _; simp [expectedFlush, encodeAll]
  | cons c cs ih =>
    intro shader o hw
    have hrest : ∀ d ∈ cs, d.WellFormed := fun d hd => hw d (by simp [hd])
    cases c with
    | Clear r g b a =>
      have := ih shader (o + 17) hrest
      simp [expectedFlush, encodeAll, Command.encode, storeLE_length, FlushResult.after] at this ⊢
      omega
    | BindShader s =>
      have := ih s (o + 9) hrest
      simp [expectedFlush, encodeAll, Command.encode, storeLE_length] at this ⊢
      omega
    | DrawMesh m =>
      have := ih shader (o + 9) hrest
      by_cases hz : shader = 0 ∨ m = 0
      · simp [expectedFlush, encodeAll, Command.encode, storeLE_length, hz]
        omega
      · simp [expectedFlush, encodeAll, Command.encode, storeLE_length, FlushResult.after,
          hz] at this ⊢
        omega
    | Uniform name value t x y =>
      have := ih shader (o + (5 + (name.length + 1) + value.length)) hrest
      by_cases hs0 : shader = 0
      · simp [expectedFlush, encodeAll, Command.encode, hs0]
        omega
      · by_cases ht : t = DataType.Float32
        · simp [expectedFlush, encodeAll, Command.encode, FlushResult.after, ht,
            hs0] at this ⊢
          omega
        · simp [expectedFlush, encodeAll, Command.encode, ht, hs0]
          omega

theorem writeBytes_length (bs : List Byte) :
    ∀ (dst : List Byte) (off : Nat), (writeBytes dst off bs).length = dst.length := by
  induction bs with
  | nil => intro dst off; rfl
  | cons b bs ih => intro dst off; simp [writeBytes, ih]

theorem resize_length (d : List Byte) (n : Nat) : (OwningSpan.Resize d n).length = n := by
  unfold OwningSpan.Resize
  by_cases h : n > d.length
  · simp [h]; omega
  · simp [h]; omega

theorem CmdUniform_inv (buf : CommandBuffer) (h : buf.Inv) (name value : List Byte)
    (dataType : DataType) (x y : Nat) : (buf.CmdUniform name value dataType x y).Inv := by
  unfold CommandBuffer.Inv at h ⊢
  unfold CommandBuffer.CmdUniform CopyItems
  simp only [writeBytes_length, List.length_set, resize_length, h]
  omega

theorem CopyItems_length (dst src : List Byte) (off count : Nat) :
    (CopyItems dst off src count).length = dst.length := by
  unfold CopyItems
  exact writeBytes_length _ _ _

theorem storeChecked_some {d d1 : List Byte} {i : Nat} {v : Byte}
    (h : storeChecked d i v = some d1) : i < d.length ∧ d1 = d.set i v := by
  unfold storeChecked at h
  split at h
  · rename_i hlt
    simp only [Option.some.injEq] at h
    exact ⟨hlt, h.symm⟩
  · simp at h

theorem copyChecked_some {d d1 src : List Byte} {off n : Nat}
    (h : copyChecked d off src n = some d1) :
    n ≤ src.length ∧ off + n ≤ d.length ∧ d1 = CopyItems d off src n := by
  unfold copyChecked at h
  split at h
  · rename_i hle
    simp only [Option.some.injEq] at h
    exact ⟨hle.1, hle.2, h.symm⟩
  · simp at h

theorem storeChecked_of_lt (d : List Byte) (i : Nat) (v : Byte) (h : i < d.length) :
    storeChecked d i v = some (d.set i v) := by
  unfold storeChecked
  rw [if_pos h]

theorem copyChecked_of_le (d src : List Byte) (off n : Nat) (h1 : n ≤ src.length)
    (h2 : off + n ≤ d.length) : copyChecked d off src n = some (CopyItems d off src n) := by
  unfold copyChecked
  rw [if_pos ⟨h1, h2⟩]

theorem intToSize_natCast (n : Nat) : intToSize (n : Int) = n % 2 ^ 64 := by
  unfold intToSize
  omega

theorem CmdUniformInt_inv (buf next : CommandBuffer) (h : buf.Inv) (name value : List Byte)
    (dataType : DataType) (x y : Int)
    (hc : buf.CmdUniformInt name value dataType x y = some next) :
    next.Inv ∧
    next.Offset_ = buf.Offset_ + (5 + (strlen (name ++ [0]) + 1) +
      (GetElementSize dataType * intToSize x % 2 ^ 64 * intToSize y) % 2 ^ 64) ∧
    next.Count_ = buf.Count_ + 1 := by
  unfold CommandBuffer.Inv at h ⊢
  unfold CommandBuffer.CmdUniformInt at hc
  simp only [Option.bind_eq_some] at hc
  obtain ⟨d1, h1, d2, h2, d3, h3, d4, h4, d5, h5, d6, h6, d7, h7, hn⟩ := hc
  obtain ⟨-, rfl⟩ := storeChecked_some h1
  obtain ⟨-, rfl⟩ := storeChecked_some h2
  obtain ⟨-, rfl⟩ := storeChecked_some h3
  obtain ⟨-, rfl⟩ := storeChecked_some h4
  obtain ⟨-, -, rfl⟩ := copyChecked_some h5
  obtain ⟨-, rfl⟩ := storeChecked_some h6
  obtain ⟨-, hle, rfl⟩ := copyChecked_some h7
  simp only [Option.some.injEq] at hn
  subst hn
  simp only [CopyItems_length, List.length_set, resize_length] at hle ⊢
  generalize GetElementSize dataType * intToSize x % 2 ^ 64 * intToSize y = D at *
  refine ⟨?_, ?_, trivial⟩ <;> omega

theorem CmdUniformInt_eq (buf : CommandBuffer) (h : buf.Inv) (name value : List Byte)
    (dataType : DataType) (x y : Nat) (hx : x < 2 ^ 31) (hy : y < 2 ^ 31)
    (hv : GetElementSize dataType * x * y ≤ value.length)
    (hfit : buf.Data_.length + (5 + (strlen (name ++ [0]) + 1) +
      GetElementSize dataType * x * y) < 2 ^ 64) :
    buf.CmdUniformInt name value dataType (x : Int) (y : Int) =
      some (buf.CmdUniform name value dataType x y) := by
  have he : GetElementSize dataType ≤ 8 := by cases dataType <;> simp [GetElementSize]
  have hex : GetElementSize dataType * x < 2 ^ 64 := by
    calc GetElementSize dataType * x ≤ 8 * x := Nat.mul_le_mul_right _ he
      _ < 2 ^ 64 := by omega
  have hD : (GetElementSize dataType * intToSize (x : Int) % 2 ^ 64 * intToSize (y : Int)) %
      2 ^ 64 = GetElementSize dataType * x * y := by
    rw [intToSize_natCast, intToSize_natCast, Nat.mod_eq_of_lt (by omega : x < 2 ^ 64),
      Nat.mod_eq_of_lt (by omega : y < 2 ^ 64), Nat.mod_eq_of_lt hex]
    exact Nat.mod_eq_of_lt (by omega)
  have hpk : toByte (((x : Int) % 256).toNat ||| ((y : Int) * 16 % 256).toNat) =
      toByte ((x &&& 0xFF) ||| (y <<< 4)) := by
    apply Fin.ext
    rw [packed_byte, toByte_val]
    have e1 : ((x : Int) % 256).toNat = x % 256 := by omega
    have e2 : ((y : Int) * 16 % 256).toNat = (y % 16) * 16 := by omega
    rw [e1, e2]
    have h3 := or_mod_two_pow (x % 256) ((y % 16) * 16) 8
    have e3 : x % 256 % 2 ^ 8 = x % 256 := by omega
    have e4 : (y % 16) * 16 % 2 ^ 8 = (y % 16) * 16 := by omega
    rw [e3, e4] at h3
    exact h3
  have hle : strlen (name ++ [0]) + 1 ≤ (name ++ [0]).length := by
    have := strlen_append_nul_le name
    simp
    omega
  unfold CommandBuffer.Inv at h
  unfold CommandBuffer.CmdUniformInt CommandBuffer.CmdUniform
  simp only [hD, hpk]
  have hN : (buf.Data_.length + 1 + 4 + (strlen (name ++ [0]) + 1) +
      GetElementSize dataType * x * y) % 2 ^ 64 =
      buf.Data_.length + 1 + 4 + (strlen (name ++ [0]) + 1) +
        GetElementSize dataType * x * y := Nat.mod_eq_of_lt (by omega)
  have hO : (buf.Offset_ + 1 + 1 + 1 + 1 + (strlen (name ++ [0]) + 1) + 1 +
      GetElementSize dataType * x * y) % 2 ^ 64 =
      buf.Offset_ + 1 + 1 + 1 + 1 + (strlen (name ++ [0]) + 1) + 1 +
        GetElementSize dataType * x * y := Nat.mod_eq_of_lt (by omega)
  rw [hN, hO]
  generalize GetElementSize dataType * x * y = D at *
  rw [storeChecked_of_lt _ _ _ (by simp only [resize_length]; omega)]
  simp only [Option.some_bind]
  rw [storeChecked_of_lt _ _ _ (by simp only [List.length_set, resize_length]; omega)]
  simp only [Option.some_bind]
  rw [storeChecked_of_lt _ _ _ (by simp only [List.length_set, resize_length]; omega)]
  simp only [Option.some_bind]
  rw [storeChecked_of_lt _ _ _ (by simp only [List.length_set, resize_length]; omega)]
  simp only [Option.some_bind]
  rw [copyChecked_of_le _ _ _ _ hle
    (by simp only [List.length_set, resize_length]; omega)]
  simp only [Option.some_bind]
  rw [storeChecked_of_lt _ _ _
    (by simp only [CopyItems_length, List.length_set, resize_length]; omega)]
  simp only [Option.some_bind]
  rw [copyChecked_of_le _ _ _ _ hv
    (by simp only [CopyItems_length, List.length_set, resize_length]; omega)]
  simp only [Option.some_bind]

theorem Reachable_inv (buf : CommandBuffer) (h : buf.Reachable) : buf.Inv := by
  induction h with
  | empty => rfl
  | CmdClear buf r g b a _ ih =>
    rw [CmdClear_eq buf ih]; simp [CommandBuffer.Inv, storeLE_length]
  | CmdBindShader buf s _ ih =>
    rw [CmdBindShader_eq buf ih]; simp [CommandBuffer.Inv, storeLE_length]
  | CmdDrawMesh buf m _ ih =>
    rw [CmdDrawMesh_eq buf ih]; simp [CommandBuffer.Inv, storeLE_length]
  | CmdUniform buf next name value t x y _ hcall ih =>
    exact (CmdUniformInt_inv buf next ih name value t x y hcall).1
  | End buf _ ih => rw [End_eq buf ih]; simp [CommandBuffer.Inv]

theorem sum_products_eq_zero_iff (l : List VertexAttribute) :
    (l.map (fun a => GetElementSize a.Type_ * a.Dimension)).sum = 0 ↔
      ∀ a ∈ l, a.Dimension = 0 := by
  rw [List.sum_eq_zero_iff]
  constructor
  · intro h a ha
    have h0 := h _ (List.mem_map_of_mem (fun a => GetElementSize a.Type_ * a.Dimension) ha)
    have hp := GetElementSize_pos a.Type_
    rcases Nat.mul_eq_zero.mp h0 with h1 | h1
    · omega
    · exact h1
  · intro h n hn
    obtain ⟨a, ha, rfl⟩ := List.mem_map.mp hn
    simp [h a ha]

theorem PackedSize_eq_zero_of_dimensions (spec : VertexSpecification)
    (h : ∀ a ∈ spec.Attributes, a.Dimension = 0) : spec.PackedSize = 0 := by
  rw [PackedSize_eq_sum_mod, (sum_products_eq_zero_iff spec.Attributes).mpr h]
  rfl

theorem PackedSize_eq_zero_iff (spec : VertexSpecification)
    (hsum : (spec.Attributes.map (fun a => GetElementSize a.Type_ * a.Dimension)).sum <
      2 ^ 64) :
    spec.PackedSize = 0 ↔ ∀ a ∈ spec.Attributes, a.Dimension = 0 := by
  rw [PackedSize_eq_sum_mod, Nat.mod_eq_of_lt hsum]
  exact sum_products_eq_zero_iff spec.Attributes

theorem ReadCmdUniform_at_any (pre rest name : List Byte) (tag ty pk dl : Byte) (o : Nat)
    (ho : o = pre.length + 1) (hn : name.length + 1 < 256) :
    CommandBufferReader.ReadCmdUniform
        { Offset_ := o,
          Data_ := pre ++ (tag :: ty :: pk :: toByte (name.length + 1) ::
            (name ++ [0] ++ dl :: rest)) } =
      some ({ Type_ := ty, SizeX := (pk.val &&& 0xFF) % 16, SizeY := (pk.val >>> 4) % 16,
              Name := pre.length + 4, Data := (pre.length + 4 + (name.length + 1) + 1, dl.val) },
            { Offset_ := pre.length + 4 + (name.length + 1) + 1 + dl.val,
              Data_ := pre ++ (tag :: ty :: pk :: toByte (name.length + 1) ::
                (name ++ [0] ++ dl :: rest)) }) := by
  generalize hd : pre ++ (tag :: ty :: pk :: toByte (name.length + 1) ::
            (name ++ [0] ++ dl :: rest)) = data
  have h0 : data[o]? = some ty := by
    rw [← hd, getElem?_append_add pre _ o 1 ho]; simp
  have h1 : data[o + 1]? = some pk := by
    rw [← hd, getElem?_append_add pre _ (o + 1) 2 (by omega)]; simp
  have h2 : data[o + 1 + 1]? = some (toByte (name.length + 1)) := by
    rw [← hd, getElem?_append_add pre _ (o + 1 + 1) 3 (by omega)]; simp
  have h3 : data[o + 1 + 1 + 1 + (toByte (name.length + 1)).val]? = some dl := by
    rw [toByte_val_of_lt hn, ← hd,
      getElem?_append_add pre _ (o + 1 + 1 + 1 + (name.length + 1)) (4 + (name.length + 1))
        (by omega)]
    have : (tag :: ty :: pk :: toByte (name.length + 1) ::
        ((name ++ [0]) ++ dl :: rest))[4 + (name.length + 1)]? =
        ((name ++ [0]) ++ dl :: rest)[name.length + 1]? := by
      rw [Nat.add_comm 4]; simp only [List.getElem?_cons_succ]
    rw [this, getElem?_append_at (name ++ [0]) _ _ _ (by simp)]
  rw [ReadCmdUniform_of data o ty pk _ _ h0 h1 h2 h3, toByte_val_of_lt hn]
  subst ho
  simp only [Option.some.injEq, Prod.mk.injEq, UniformData.mk.injEq,
    CommandBufferReader.mk.injEq, and_true, true_and]

/-! ## Claims on attribute layout, writer invariant, packed sizes and trailing records -/

/-- C21 (counterexample): for the attributes [(Float32, `2 ^ 30`), (Float32, 3)] the packed
size of the first attribute is `2 ^ 32`, but the second attribute is configured with byte
offset 0: the offset is passed as a 32-bit `GLuint`. -/
theorem attribute_offset_truncated :
    VertexAttribute.GetPackedSize { Type_ := DataType.Float32, Dimension := 2 ^ 30 } =
      2 ^ 32 ∧
    (OpenGL_Mesh.attribLoop [{ Type_ := DataType.Float32, Dimension := 2 ^ 30 },
        { Type_ := DataType.Float32, Dimension := 3 }] 0 0).1[3]? =
      some (GLCall.VertexArrayAttribFormat 1 3 DataType.Float32 false 0) := by
  decide

/-- C21 (amended): when a mesh is set up whose vertex specification has at most `2 ^ 32`
attributes and a sum of `GetElementSize(Type) * Dimension` below `2 ^ 31` (so that the
indices, dimensions, offsets and the stride fit the 32-bit parameters they are passed
for), the i-th attribute is configured at attribute index i with component count equal to
its `Dimension` and byte offset equal to the sum of the packed sizes of the attributes
before it (and no other format call is issued); the offset reached after the last
attribute is `PackedSize()`, which is the stride bound to the vertex buffer. -/
theorem attribute_layout (mesh : Mesh) (vertexData indexData : List Byte)
    (hcount : mesh.GetVertexSpec.Attributes.length ≤ 2 ^ 32)
    (hsum : (mesh.GetVertexSpec.Attributes.map
      (fun a => GetElementSize a.Type_ * a.Dimension)).sum < 2 ^ 31) :
    (∀ (i : Nat) (a : VertexAttribute), mesh.GetVertexSpec.Attributes[i]? = some a →
      (OpenGL_Mesh.attribLoop mesh.GetVertexSpec.Attributes 0 0).1[3 * i]? =
        some (GLCall.VertexArrayAttribFormat i a.Dimension a.Type_ false
          ((mesh.GetVertexSpec.Attributes.take i).map VertexAttribute.GetPackedSize).sum)) ∧
    (∀ (idx size : Nat) (ty : DataType) (nrm : Bool) (off : Nat),
      GLCall.VertexArrayAttribFormat idx size ty nrm off ∈
          OpenGL_Mesh.Create_ mesh vertexData indexData ↔
        ∃ a, mesh.GetVertexSpec.Attributes[idx]? = some a ∧ size = a.Dimension ∧
          ty = a.Type_ ∧ nrm = false ∧
          off = ((mesh.GetVertexSpec.Attributes.take idx).map
            VertexAttribute.GetPackedSize).sum) ∧
    (OpenGL_Mesh.attribLoop mesh.GetVertexSpec.Attributes 0 0).2 =
      (mesh.GetVertexSpec.Attributes.length, mesh.GetVertexSpec.PackedSize) ∧
    (∀ bindingindex offset stride : Nat,
      GLCall.VertexArrayVertexBuffer bindingindex offset stride ∈
          OpenGL_Mesh.Create_ mesh vertexData indexData ↔
        bindingindex = 0 ∧ offset = 0 ∧ stride = mesh.GetVertexSpec.PackedSize) ∧
    mesh.GetVertexSpec.PackedSize =
      (mesh.GetVertexSpec.Attributes.map VertexAttribute.GetPackedSize).sum := by
  generalize hA : mesh.GetVertexSpec.Attributes = attrs at *
  have hEq : OpenGL_Mesh.attribLoop attrs 0 0 = OpenGL_Mesh.layoutInOrder attrs 0 0 :=
    attribLoop_eq_layout attrs 0 0 (by omega) (by omega)
  have hgp := GetPackedSize_of_sum_lt attrs (by omega)
  have hmap : ∀ i, (attrs.take i).map (fun a => GetElementSize a.Type_ * a.Dimension) =
      (attrs.take i).map VertexAttribute.GetPackedSize := fun i =>
    List.map_congr_left (fun a ha => (hgp a (List.mem_of_mem_take ha)).symm)
  have hmapAll : attrs.map (fun a => GetElementSize a.Type_ * a.Dimension) =
      attrs.map VertexAttribute.GetPackedSize :=
    List.map_congr_left (fun a ha => (hgp a ha).symm)
  have hP : mesh.GetVertexSpec.PackedSize =
      (attrs.map (fun a => GetElementSize a.Type_ * a.Dimension)).sum := by
    rw [PackedSize_eq_sum_mod, hA]
    exact Nat.mod_eq_of_lt (by omega)
  have hS : toGLsizei mesh.GetVertexSpec.PackedSize = mesh.GetVertexSpec.PackedSize := by
    unfold toGLsizei
    exact Nat.mod_eq_of_lt (by omega)
  refine ⟨fun i a h => ?_, fun idx size ty nrm off => ?_, ?_, fun b o s => ?_, ?_⟩
  · have := (layoutInOrder_calls attrs 0 0 i a h).1
    rw [hEq, ← hmap]
    simpa using this
  · have hloop := layoutInOrder_format attrs 0 0 idx size ty nrm off
    unfold OpenGL_Mesh.Create_
    rw [hA, hEq]
    by_cases hi : mesh.IsIndexed = true
    · simp only [hi, if_true, List.mem_append, List.mem_cons, List.mem_singleton,
        List.not_mem_nil, reduceCtorEq, or_false, false_or, hloop]
      constructor
      · rintro ⟨i, a, ha, rfl, h2, h3, h4, h5⟩
        exact ⟨a, by simpa using ha, h2, h3, h4, by rw [← hmap]; simpa using h5⟩
      · rintro ⟨a, ha, h2, h3, h4, h5⟩
        exact ⟨idx, a, ha, by simp, h2, h3, h4, by rw [← hmap] at h5; simpa using h5⟩
    · simp only [hi, if_false, List.mem_append, List.mem_cons, List.mem_singleton,
        List.not_mem_nil, reduceCtorEq, or_false, false_or, hloop, List.append_nil]
      constructor
      · rintro ⟨i, a, ha, rfl, h2, h3, h4, h5⟩
        exact ⟨a, by simpa using ha, h2, h3, h4, by rw [← hmap]; simpa using h5⟩
      · rintro ⟨a, ha, h2, h3, h4, h5⟩
        exact ⟨idx, a, ha, by simp, h2, h3, h4, by rw [← hmap] at h5; simpa using h5⟩
  · rw [hEq, layoutInOrder_final, hP]
    simp
  · have hno : ∀ (l : List VertexAttribute) (index offs : Nat),
        GLCall.VertexArrayVertexBuffer b o s ∉ (OpenGL_Mesh.attribLoop l index offs).1 := by
      intro l
      induction l with
      | nil => intro index offs; simp [OpenGL_Mesh.attribLoop]
      | cons a l ih => intro index offs; simp [OpenGL_Mesh.attribLoop, ih]
    unfold OpenGL_Mesh.Create_
    rw [hS]
    by_cases hi : mesh.IsIndexed = true
    · simp [hi, hno]
    · simp [hi, hno]
  · rw [hP, hmapAll]

/-- Witness for C21 (amended): the set-up calls for the mesh of `main` (offsets 0, 12, 24;
stride 32). -/
theorem attribute_layout_witness :
    sampleMesh.GetVertexSpec.Attributes.length ≤ 2 ^ 32 ∧
    (sampleMesh.GetVertexSpec.Attributes.map
      (fun a => GetElementSize a.Type_ * a.Dimension)).sum < 2 ^ 31 ∧
    OpenGL_Mesh.Create_ sampleMesh [1, 2] [] =
      [GLCall.CreateVertexArrays, GLCall.CreateBuffers BufferName.VBO,
        GLCall.VertexArrayVertexBuffer 0 0 32,
        GLCall.VertexArrayAttribFormat 0 3 DataType.Float32 false 0,
        GLCall.VertexArrayAttribBinding 0 0, GLCall.EnableVertexArrayAttrib 0,
        GLCall.VertexArrayAttribFormat 1 3 DataType.Float32 false 12,
        GLCall.VertexArrayAttribBinding 1 0, GLCall.EnableVertexArrayAttrib 1,
        GLCall.VertexArrayAttribFormat 2 2 DataType.Float32 false 24,
        GLCall.VertexArrayAttribBinding 2 0, GLCall.EnableVertexArrayAttrib 2,
        GLCall.NamedBufferStorage BufferName.VBO 2 [1, 2]] ∧
    (OpenGL_Mesh.attribLoop sampleMesh.GetVertexSpec.Attributes 0 0).2 =
      (sampleMesh.GetVertexSpec.Attributes.length, sampleMesh.GetVertexSpec.PackedSize) :=
  ⟨by decide, by decide, by decide,
    (attribute_layout sampleMesh [1, 2] [] (by decide) (by decide)).2.2.1⟩

/-- C23 (counterexample): `CmdUniform` with sizeX = 16, sizeY = 1 (UInt8, 16 bytes): the
reader returns SizeX = 0 and SizeY = 1, so this sizeX of 16 does not corrupt SizeY. -/
theorem sizeX_16_keeps_sizeY :
    (CommandBufferReader.ReadCmdUniform
        { Offset_ := 1,
          Data_ := (CommandBuffer.empty.CmdUniform uTransform (List.replicate 16 7)
            DataType.UInt8 16 1).GetData }).map (fun p => (p.1.SizeX, p.1.SizeY)) =
      some (0, 1) := by
  decide

/-- C23 (amended): for all non-negative `sizeX` and `sizeY` passed to `CmdUniform` (name of
at most 254 non-NUL bytes, `value` of `elementSize*sizeX*sizeY` bytes), the `SizeX`
returned by `ReadCmdUniform` is `sizeX mod 16` and the `SizeY` returned is
`((sizeX div 16) mod 16)` bitwise-or `(sizeY mod 16)`; both sizes are returned unchanged if
and only if `sizeX < 16` and `sizeY < 16`; a `sizeX` of 16 or more changes the decoded
`SizeX`, and the decoded `SizeY` differs from `sizeY mod 16` exactly when
`(sizeX div 16) mod 16` has a bit that `sizeY mod 16` lacks. -/
theorem packed_size_byte (buf : CommandBuffer) (hinv : buf.Inv) (name value : List Byte)
    (dataType : DataType) (sizeX sizeY : Nat) (hnul : ∀ c ∈ name, c ≠ 0)
    (hN : name.length + 1 ≤ 255)
    (hval : value.length = GetElementSize dataType * sizeX * sizeY) :
    (CommandBufferReader.ReadCmdUniform
        { Offset_ := buf.Data_.length + 1,
          Data_ := (buf.CmdUniform name value dataType sizeX sizeY).GetData }).map
        (fun p => (p.1.SizeX, p.1.SizeY)) =
      some (sizeX % 16, ((sizeX / 16) % 16) ||| (sizeY % 16)) ∧
    ((sizeX % 16 = sizeX ∧ ((sizeX / 16) % 16) ||| (sizeY % 16) = sizeY) ↔
      (sizeX < 16 ∧ sizeY < 16)) ∧
    (16 ≤ sizeX → sizeX % 16 ≠ sizeX) ∧
    (((sizeX / 16) % 16) ||| (sizeY % 16) = sizeY % 16 ↔
      ((sizeX / 16) % 16) &&& (sizeY % 16) = (sizeX / 16) % 16) := by
  refine ⟨?_, ?_, fun h => by omega, ?_⟩
  · rw [CmdUniform_data buf hinv name value dataType sizeX sizeY hnul hval,
      ReadCmdUniform_at_any buf.Data_ value name _ _ _ _ _ rfl (by omega)]
    have hb := packed_byte sizeX sizeY
    obtain ⟨k1, k2, -⟩ := packed_bounded (sizeX % 256) (Nat.mod_lt _ (by decide))
      (sizeY % 16) (Nat.mod_lt _ (by decide))
    simp only [Option.map_some', hb, k1, k2, Option.some.injEq, Prod.mk.injEq]
    constructor
    · omega
    · have : sizeX % 256 / 16 = sizeX / 16 % 16 := by omega
      rw [this]
  · constructor
    · rintro ⟨h1, h2⟩
      have hx : sizeX < 16 := by omega
      have h0 : sizeX / 16 % 16 = 0 := by omega
      rw [h0, Nat.zero_or] at h2
      exact ⟨hx, by omega⟩
    · rintro ⟨hx, hy⟩
      have h0 : sizeX / 16 % 16 = 0 := by omega
      rw [h0, Nat.zero_or]
      omega
  · exact or_absorb_bounded _ (Nat.mod_lt _ (by decide)) _ (Nat.mod_lt _ (by decide))

/-- Witness for C23 (amended): sizeX = 16, sizeY = 2 decodes as SizeX = 0, SizeY = 3. -/
theorem packed_size_byte_witness :
    CommandBuffer.empty.Inv ∧ (∀ c ∈ uTransform, c ≠ 0) ∧ uTransform.length + 1 ≤ 255 ∧
    (List.replicate 32 (7 : Byte)).length = GetElementSize DataType.UInt8 * 16 * 2 ∧
    (CommandBufferReader.ReadCmdUniform
        { Offset_ := CommandBuffer.empty.Data_.length + 1,
          Data_ := (CommandBuffer.empty.CmdUniform uTransform (List.replicate 32 7)
            DataType.UInt8 16 2).GetData }).map (fun p => (p.1.SizeX, p.1.SizeY)) =
      some (16 % 16, ((16 / 16) % 16) ||| (2 % 16)) ∧
    (16 % 16, ((16 / 16) % 16) ||| (2 % 16)) = (0, 3) :=
  ⟨by decide, by decide, by decide, by decide,
    (packed_size_byte CommandBuffer.empty (by decide) uTransform (List.replicate 32 7)
      DataType.UInt8 16 2 (by decide) (by decide) (by decide)).1, by decide⟩

theorem End_recordAll_data (cs1 cs2 : List Command) (h1 : ∀ c ∈ cs1, c.WellFormed)
    (h2 : ∀ c ∈ cs2, c.WellFormed) :
    (CommandBuffer.empty.recordAll cs1).End.GetData =
      encodeAll cs1 ++ [CommandType.End.toByte] ∧
    ((CommandBuffer.empty.recordAll cs1).End.recordAll cs2).GetData =
      encodeAll cs1 ++ CommandType.End.toByte :: encodeAll cs2 ∧
    ((CommandBuffer.empty.recordAll cs1).End.recordAll cs2).End.GetData =
      encodeAll cs1 ++ CommandType.End.toByte :: (encodeAll cs2 ++ [CommandType.End.toByte]) := by
  have hrec := recordAll_eq cs1 CommandBuffer.empty rfl h1
  have hinv : (CommandBuffer.empty.recordAll cs1).Inv := by
    rw [hrec]; simp [CommandBuffer.Inv, CommandBuffer.empty]
  have hEinv : (CommandBuffer.empty.recordAll cs1).End.Inv := by
    rw [End_eq _ hinv]; simp [CommandBuffer.Inv]
  have hrec2 := recordAll_eq cs2 _ hEinv h2
  have hinv2 : ((CommandBuffer.empty.recordAll cs1).End.recordAll cs2).Inv := by
    rw [hrec2]; simp [CommandBuffer.Inv]
  have hE : (CommandBuffer.empty.recordAll cs1).End.Data_ =
      encodeAll cs1 ++ [CommandType.End.toByte] := by
    rw [End_eq _ hinv, hrec]; simp [CommandBuffer.empty]
  refine ⟨hE, ?_, ?_⟩
  · simp only [CommandBuffer.GetData, hrec2, hE]; simp
  · rw [CommandBuffer.GetData, End_eq _ hinv2]
    simp only [hrec2, hE]; simp

theorem FlushCommandBuffer_bytes (meshes : Nat → Mesh) (cs : List Command)
    (h : ∀ c ∈ cs, c.WellFormed) (buf : CommandBuffer) (post : List Byte)
    (hd : buf.GetData = encodeAll cs ++ CommandType.End.toByte :: post) :
    FlushCommandBuffer meshes buf = expectedFlush meshes 0 0 cs := by
  unfold FlushCommandBuffer CommandBufferReader.new
  rw [hd]
  have hge := encodeAll_length_ge cs
  have := FlushLoop_expected meshes cs [] post 0 0
    ((encodeAll cs ++ CommandType.End.toByte :: post).length + 1) rfl
    (by simp; omega) h
  simpa using this

/-- C24 (records after the first `End` are never dispatched): for all lists of well-formed
commands `cs1` and `cs2`, flushing the buffer obtained by recording `cs1`, `End()`, `cs2`,
with or without another `End()`, has the same outcome (the same action sequence, and the
same status and cursor) as flushing the buffer obtained by recording `cs1`, `End()`; the
cursor does not move past the first `End` tag. -/
theorem records_after_End_not_dispatched (meshes : Nat → Mesh) (cs1 cs2 : List Command)
    (h1 : ∀ c ∈ cs1, c.WellFormed) (h2 : ∀ c ∈ cs2, c.WellFormed) :
    FlushCommandBuffer meshes ((CommandBuffer.empty.recordAll cs1).End.recordAll cs2) =
      FlushCommandBuffer meshes (CommandBuffer.empty.recordAll cs1).End ∧
    FlushCommandBuffer meshes ((CommandBuffer.empty.recordAll cs1).End.recordAll cs2).End =
      FlushCommandBuffer meshes (CommandBuffer.empty.recordAll cs1).End ∧
    (FlushCommandBuffer meshes ((CommandBuffer.empty.recordAll cs1).End.recordAll cs2)).Cursor ≤
      (CommandBuffer.empty.recordAll cs1).End.GetData.length ∧
    (FlushCommandBuffer meshes
        ((CommandBuffer.empty.recordAll cs1).End.recordAll cs2).End).Cursor ≤
      (CommandBuffer.empty.recordAll cs1).End.GetData.length := by
  obtain ⟨d1, d2, d3⟩ := End_recordAll_data cs1 cs2 h1 h2
  have f1 := FlushCommandBuffer_bytes meshes cs1 h1 _ [] d1
  have f2 := FlushCommandBuffer_bytes meshes cs1 h1 _ _ d2
  have f3 := FlushCommandBuffer_bytes meshes cs1 h1 _ _ d3
  have hc := expectedFlush_cursor_le meshes cs1 0 0 h1
  rw [f1, f2, f3, d1]
  refine ⟨rfl, rfl, ?_, ?_⟩ <;> simpa using hc

/-- Witness for C24: the frame of `main`, `End()`, then a second clear and draw. -/
theorem records_after_End_not_dispatched_witness :
    (∀ c ∈ sampleFrame 1 2, c.WellFormed) ∧
    (∀ c ∈ [Command.Clear 0 0 0 0, Command.DrawMesh 3], c.WellFormed) ∧
    FlushCommandBuffer sampleMeshes ((CommandBuffer.empty.recordAll (sampleFrame 1 2)).End.recordAll
        [Command.Clear 0 0 0 0, Command.DrawMesh 3]) =
      FlushCommandBuffer sampleMeshes (CommandBuffer.empty.recordAll (sampleFrame 1 2)).End :=
  ⟨by decide, by decide,
    (records_after_End_not_dispatched sampleMeshes (sampleFrame 1 2)
      [Command.Clear 0 0 0 0, Command.DrawMesh 3] (by decide) (by decide)).1⟩

/-- C25 (counterexample): the specification with the single attribute (Float32, `2 ^ 62`)
has a non-zero `Dimension`, yet its `PackedSize()` is 0 (the `size_t` product wraps
around), and both `CreateMesh` overloads divide by zero. -/
theorem packed_size_zero_by_wrap_around :
    VertexSpecification.PackedSize
        { Attributes := [{ Type_ := DataType.Float32, Dimension := 2 ^ 62 }],
          IndexType := DataType.Int16 } = 0 ∧
    (∃ a ∈ [({ Type_ := DataType.Float32, Dimension := 2 ^ 62 } : VertexAttribute)],
      a.Dimension ≠ 0) ∧
    OpenGL_Renderer.CreateMesh [1, 2, 3, 4]
        { Attributes := [{ Type_ := DataType.Float32, Dimension := 2 ^ 62 }],
          IndexType := DataType.Int16 } = none ∧
    OpenGL_Renderer.CreateMeshIndexed [1, 2, 3, 4] [0, 0]
        { Attributes := [{ Type_ := DataType.Float32, Dimension := 2 ^ 62 }],
          IndexType := DataType.Int16 } = none := by
  decide

/-- C25 (amended): for every `VertexSpecification`, `PackedSize()` is 0 if every attribute
has `Dimension` 0 (which includes the empty attribute list); and if the sum of
`GetElementSize(Type) * Dimension` over the attributes is below `2 ^ 64`, then
`PackedSize()` is 0 only if every attribute has `Dimension` 0, because every element size
is at least 1. The division `vertexBytes / PackedSize()` of both `CreateMesh` overloads is
defined exactly when `PackedSize()` is not 0, which for a sum below `2 ^ 64` is exactly
when at least one attribute has a non-zero `Dimension`. -/
theorem division_guard (spec : VertexSpecification) (vertexData indexData : List Byte) :
    ((∀ a ∈ spec.Attributes, a.Dimension = 0) → spec.PackedSize = 0) ∧
    ((spec.Attributes.map (fun a => GetElementSize a.Type_ * a.Dimension)).sum < 2 ^ 64 →
      (spec.PackedSize = 0 ↔ ∀ a ∈ spec.Attributes, a.Dimension = 0)) ∧
    VertexSpecification.PackedSize { Attributes := [], IndexType := spec.IndexType } = 0 ∧
    (∀ t : DataType, 1 ≤ GetElementSize t) ∧
    ((OpenGL_Renderer.CreateMeshIndexed vertexData indexData spec).isSome ↔
      spec.PackedSize ≠ 0) ∧
    ((OpenGL_Renderer.CreateMesh vertexData spec).isSome ↔ spec.PackedSize ≠ 0) ∧
    ((spec.Attributes.map (fun a => GetElementSize a.Type_ * a.Dimension)).sum < 2 ^ 64 →
      ((OpenGL_Renderer.CreateMeshIndexed vertexData indexData spec).isSome ↔
        ∃ a ∈ spec.Attributes, a.Dimension ≠ 0) ∧
      ((OpenGL_Renderer.CreateMesh vertexData spec).isSome ↔
        ∃ a ∈ spec.Attributes, a.Dimension ≠ 0)) := by
  have hI : (OpenGL_Renderer.CreateMeshIndexed vertexData indexData spec).isSome ↔
      spec.PackedSize ≠ 0 := by
    unfold OpenGL_Renderer.CreateMeshIndexed
    by_cases h : spec.PackedSize = 0 <;> simp [h]
  have hN : (OpenGL_Renderer.CreateMesh vertexData spec).isSome ↔ spec.PackedSize ≠ 0 := by
    unfold OpenGL_Renderer.CreateMesh
    by_cases h : spec.PackedSize = 0 <;> simp [h]
  refine ⟨PackedSize_eq_zero_of_dimensions spec, PackedSize_eq_zero_iff spec, rfl,
    GetElementSize_pos, hI, hN, fun hsum => ?_⟩
  have hz := PackedSize_eq_zero_iff spec hsum
  have hnz : spec.PackedSize ≠ 0 ↔ ∃ a ∈ spec.Attributes, a.Dimension ≠ 0 := by
    rw [Ne, hz]; push_neg; rfl
  exact ⟨hI.trans hnz, hN.trans hnz⟩

/-- Witness for C25 (amended): the specification of `main`, whose sum is 32. -/
theorem division_guard_witness :
    (sampleMesh.VertexSpec_.Attributes.map
      (fun a => GetElementSize a.Type_ * a.Dimension)).sum < 2 ^ 64 ∧
    ((OpenGL_Renderer.CreateMesh (List.replicate 192 0) sampleMesh.VertexSpec_).isSome ↔
      ∃ a ∈ sampleMesh.VertexSpec_.Attributes, a.Dimension ≠ 0) :=
  ⟨by decide,
    ((division_guard sampleMesh.VertexSpec_ (List.replicate 192 0) []).2.2.2.2.2.2
      (by decide)).2⟩

/-- C26 (uniform upload reads stay inside the payload): for a Float32 `Uniform` record
produced by `CmdUniform` with sizes up to 15 and payload length `4*sizeX*sizeY <= 255`, the
`Data` span returned by `ReadCmdUniform` has length exactly `4*SizeX*SizeY`; each of the
`SizeX*SizeY` floats with index below `SizeX*SizeY` lies within the span and is the float
of the payload at that index; and `SetUniform_`, run on the buffer that ends where the span
ends, reads nothing outside it: with a shader bound it returns normally with the expected
uploads (with none bound its only invalid access is the read of `boundShader->Id`). -/
theorem uniform_reads_inside_payload (buf : CommandBuffer) (hinv : buf.Inv)
    (name value : List Byte) (sizeX sizeY shader : Nat)
    (hargs : UniformArgsOk name value DataType.Float32 sizeX sizeY) :
    CommandBufferReader.ReadCmdUniform
        { Offset_ := buf.Data_.length + 1,
          Data_ := (buf.CmdUniform name value DataType.Float32 sizeX sizeY).GetData } =
      some ({ Type_ := DataType.Float32.toByte, SizeX := sizeX, SizeY := sizeY,
              Name := buf.Data_.length + 4,
              Data := (buf.Data_.length + 4 + (name.length + 1) + 1, 4 * sizeX * sizeY) },
        { Offset_ := (buf.CmdUniform name value DataType.Float32 sizeX sizeY).GetData.length,
          Data_ := (buf.CmdUniform name value DataType.Float32 sizeX sizeY).GetData }) ∧
    buf.Data_.length + 4 + (name.length + 1) + 1 + 4 * sizeX * sizeY =
      (buf.CmdUniform name value DataType.Float32 sizeX sizeY).GetData.length ∧
    (∀ i, i < sizeX * sizeY →
      4 * i + 4 ≤ 4 * sizeX * sizeY ∧
      readFloat (buf.CmdUniform name value DataType.Float32 sizeX sizeY).GetData
        (buf.Data_.length + 4 + (name.length + 1) + 1) i = some ((floats value).getD i 0)) ∧
    SetUniform_ (buf.CmdUniform name value DataType.Float32 sizeX sizeY).GetData
        { Type_ := DataType.Float32.toByte, SizeX := sizeX, SizeY := sizeY,
          Name := buf.Data_.length + 4,
          Data := (buf.Data_.length + 4 + (name.length + 1) + 1, 4 * sizeX * sizeY) } shader =
      (if shader = 0 then Except.error Stop.Fault
        else Except.ok (expectedUploads shader name value sizeX sizeY)) := by
  obtain ⟨hx, hy, hnul, hlen, hval, hmax⟩ := hargs
  have hval4 : value.length = 4 * sizeX * sizeY := hval
  rw [CmdUniform_data buf hinv name value DataType.Float32 sizeX sizeY hnul hval,
    pack_sizes _ _ hx hy]
  generalize buf.Data_ = pre
  have hU := ReadCmdUniform_at pre [] name value CommandType.Uniform.toByte
    DataType.Float32.toByte (toByte (sizeX + 16 * sizeY)) (pre.length + 1) rfl (by omega)
    (by omega)
  obtain ⟨hn1, -⟩ := uniform_name_at pre [] name value CommandType.Uniform.toByte
    DataType.Float32.toByte (toByte (sizeX + 16 * sizeY)) hnul
  obtain ⟨ux, uy⟩ := unpack_sizes sizeX sizeY hx hy
  rw [ux, uy] at hU
  simp only [List.append_nil] at hU hn1
  have e4 : (pre ++ [CommandType.Uniform.toByte, DataType.Float32.toByte,
      toByte (sizeX + 16 * sizeY), toByte (name.length + 1)] ++ name ++ [0] ++
      [toByte value.length]) ++ value ++ [] =
      pre ++ CommandType.Uniform.toByte :: DataType.Float32.toByte ::
        toByte (sizeX + 16 * sizeY) :: toByte (name.length + 1) ::
        (name ++ [0] ++ toByte value.length :: value) := by simp
  have hfl : ∀ i, 4 * i + 4 ≤ value.length →
      readFloat (pre ++ CommandType.Uniform.toByte :: DataType.Float32.toByte ::
        toByte (sizeX + 16 * sizeY) :: toByte (name.length + 1) ::
        (name ++ [0] ++ toByte value.length :: value))
        (pre.length + 4 + (name.length + 1) + 1) i = some ((floats value).getD i 0) := by
    intro i hi
    rw [← e4]
    exact readFloat_at _ value [] _ i (by simp; omega) hi
  have hfs : ∀ n, value.length = 4 * n →
      readFloats (pre ++ CommandType.Uniform.toByte :: DataType.Float32.toByte ::
        toByte (sizeX + 16 * sizeY) :: toByte (name.length + 1) ::
        (name ++ [0] ++ toByte value.length :: value))
        (pre.length + 4 + (name.length + 1) + 1) n = some (floats value) := by
    intro n hn
    rw [← e4]
    exact readFloats_at _ value [] _ n (by simp; omega) hn
  have hlenD : (pre ++ CommandType.Uniform.toByte :: DataType.Float32.toByte ::
        toByte (sizeX + 16 * sizeY) :: toByte (name.length + 1) ::
        (name ++ [0] ++ toByte value.length :: value)).length =
      pre.length + 4 + (name.length + 1) + 1 + value.length := by
    simp; omega
  have hS := fun hs0 => SetUniform_float32 _ name value sizeX sizeY (pre.length + 4)
    (pre.length + 4 + (name.length + 1) + 1) shader hs0 hx hy hval4 hn1 hfl hfs
  have h4 : value.length = 4 * (sizeX * sizeY) := by rw [hval4, Nat.mul_assoc]
  rw [← hval4]
  refine ⟨?_, hlenD.symm, fun i hi => ⟨by omega, hfl i (by omega)⟩, ?_⟩
  · rw [hU, hlenD]
  · by_cases hs0 : shader = 0
    · subst hs0
      rw [SetUniform_null]
      rfl
    · rw [hS hs0, if_neg hs0]

/-- Witness for C26: the 4x4 uniform of `main` on an empty buffer. -/
theorem uniform_reads_inside_payload_witness :
    CommandBuffer.empty.Inv ∧ UniformArgsOk uTransform sampleMatrix DataType.Float32 4 4 ∧
    SetUniform_ (CommandBuffer.empty.CmdUniform uTransform sampleMatrix
        DataType.Float32 4 4).GetData
        { Type_ := DataType.Float32.toByte, SizeX := 4, SizeY := 4,
          Name := CommandBuffer.empty.Data_.length + 4,
          Data := (CommandBuffer.empty.Data_.length + 4 + (uTransform.length + 1) + 1,
            4 * 4 * 4) } 7 =
      Except.ok (expectedUploads 7 uTransform sampleMatrix 4 4) :=
  ⟨by decide, by decide,
    (uniform_reads_inside_payload CommandBuffer.empty (by decide) uTransform sampleMatrix
      4 4 7 (by decide)).2.2.2.trans (if_neg (by decide))⟩

end av
